import Mathlib

/-!
# The `cpr` registry chaincode (`src/cpr/cpr.go`)

A shallow embedding of the chaincode and of the library calls it makes.

Modelling conventions.

* Go `string` and `[]byte` values are sequences of bytes (`Str`); a text need not be
  valid UTF-8. `utf8 "abc"` is the byte sequence of a literal.
* A Go `error` is modelled by its message.
* A Go `[]string` is an `Option (List Str)`: `none` is the `nil` slice, which
  `encoding/json` encodes as `null`, and `some xs` is a non-nil slice.
* Go's `int` is the 64-bit signed integer; `strconv.Atoi` rejects what is out of its range.
* The ledger (`shim.ChaincodeStubInterface`) is a key/value map together with a schedule
  of the outcomes of the coming store calls, so that a call may fail.
* Console output (`fmt.Println`) is not part of the model.
-/

namespace Chaincode

/-! ## Bytes and UTF-8 -/

/-- A byte. -/
abbrev Byte := Fin 256

/-- A Go `string` or `[]byte`: a sequence of bytes. -/
abbrev Str := List Byte

/-- The byte of a number, modulo 256. -/
def byte (n : Nat) : Byte := ⟨n % 256, Nat.mod_lt _ (by decide)⟩

/-- The UTF-8 encoding of U+FFFD, the replacement character. -/
def replacement : Str := [239, 191, 189]

/-- Go's `utf8.EncodeRune`: the UTF-8 encoding of a code point; a surrogate and a value
above U+10FFFF are written as U+FFFD. -/
def encodeRune (r : Nat) : Str :=
  if r < 128 then [byte r]
  else if r < 2048 then [byte (192 + r / 64), byte (128 + r % 64)]
  else if (55296 ≤ r ∧ r < 57344) ∨ 1114111 < r then replacement
  else if r < 65536 then
    [byte (224 + r / 4096), byte (128 + r / 64 % 64), byte (128 + r % 64)]
  else
    [byte (240 + r / 262144), byte (128 + r / 4096 % 64), byte (128 + r / 64 % 64),
      byte (128 + r % 64)]

/-- The bytes of a literal text. -/
def utf8 (s : String) : Str := s.data.flatMap (fun c => encodeRune c.toNat)

/-- The byte sequences of a list of literal texts. -/
def utf8s (l : List String) : List Str := l.map utf8

/-- A continuation byte, `80`-`BF`. -/
def isCont (b : Byte) : Bool := 128 ≤ b.val ∧ b.val ≤ 191

/-- The least second byte that may follow the lead byte `b0`. -/
def secondLo (b0 : Byte) : Nat :=
  if b0.val = 224 then 160 else if b0.val = 240 then 144 else 128

/-- The greatest second byte that may follow the lead byte `b0`. -/
def secondHi (b0 : Byte) : Nat :=
  if b0.val = 237 then 159 else if b0.val = 244 then 143 else 191

/-- A second byte that may follow the lead byte `b0` (the accept ranges of Go's
`unicode/utf8`). -/
def isSecond (b0 b1 : Byte) : Bool := secondLo b0 ≤ b1.val ∧ b1.val ≤ secondHi b0

/-- The well-formed UTF-8 encoding of one code point, as `utf8.DecodeRune` accepts it. -/
def isRune : Str → Bool
  | [b0] => b0.val < 128
  | [b0, b1] => 194 ≤ b0.val ∧ b0.val ≤ 223 ∧ isCont b1
  | [b0, b1, b2] => 224 ≤ b0.val ∧ b0.val ≤ 239 ∧ isSecond b0 b1 ∧ isCont b2
  | [b0, b1, b2, b3] =>
    240 ≤ b0.val ∧ b0.val ≤ 244 ∧ isSecond b0 b1 ∧ isCont b2 ∧ isCont b3
  | _ => false

/-- A proper, non-empty beginning of the encoding of a code point of several bytes. -/
def isRunePrefix : Str → Bool
  | [b0] => 194 ≤ b0.val ∧ b0.val ≤ 244
  | [b0, b1] => 224 ≤ b0.val ∧ b0.val ≤ 244 ∧ isSecond b0 b1
  | [b0, b1, b2] => 240 ≤ b0.val ∧ b0.val ≤ 244 ∧ isSecond b0 b1 ∧ isCont b2
  | _ => false

/-- The length of the encoding of several bytes at the head of `l`, `0` when there is
none: then `utf8.DecodeRune` gives the error rune of width 1. -/
def runeLength (l : Str) : Nat :=
  if isRune (l.take 2) then 2 else if isRune (l.take 3) then 3
  else if isRune (l.take 4) then 4 else 0

/-- Go's `utf8.Valid`: the bytes are a sequence of well-formed encodings. -/
def validUTF8 : Str → Bool
  | [] => true
  | b0 :: rest =>
    if b0.val < 128 then validUTF8 rest
    else
      match rest with
      | [] => false
      | b1 :: r1 =>
        if isRune [b0, b1] then validUTF8 r1
        else
          match r1 with
          | [] => false
          | b2 :: r2 =>
            if isRune [b0, b1, b2] then validUTF8 r2
            else
              match r2 with
              | [] => false
              | b3 :: r3 => isRune [b0, b1, b2, b3] && validUTF8 r3

/-! ## `strconv` -/

/-- Value of a decimal digit. -/
def digitVal (c : Byte) : Option Nat :=
  if 48 ≤ c.val ∧ c.val ≤ 57 then some (c.val - 48) else none

/-- Value of a non-empty run of decimal digits, most significant first, read on top of
the accumulator `acc`; `none` when a byte is not a digit. -/
def parseDigits : Str → Nat → Option Nat
  | [], acc => some acc
  | c :: cs, acc =>
    match digitVal c with
    | none => none
    | some d => parseDigits cs (acc * 10 + d)

/-- Bit width of Go's `int`. -/
def intSize : Nat := 64

/-- Go's `strconv.Atoi`: an optional sign (`-` is byte 45, `+` is 43), then at least one
decimal digit and nothing else; the value has to fit a signed integer of `intSize`
bits. `none` is the error. -/
def Atoi (s : Str) : Option Int :=
  match s with
  | [] => none
  | c :: cs =>
    let neg := decide (c.val = 45)
    let ds := if c.val = 45 ∨ c.val = 43 then cs else c :: cs
    if ds = [] then none
    else
      match parseDigits ds 0 with
      | none => none
      | some n =>
        if neg then (if n ≤ 2 ^ (intSize - 1) then some (-(n : Int)) else none)
        else (if n < 2 ^ (intSize - 1) then some (n : Int) else none)

/-- The byte of a decimal digit. -/
def digitChar (d : Nat) : Byte := byte (48 + d)

/-- Decimal digits of `n`, most significant first, in front of `acc`. -/
def formatDigits : Nat → Nat → Str → Str
  | 0, _, acc => acc
  | fuel + 1, n, acc =>
    if n < 10 then digitChar n :: acc
    else formatDigits fuel (n / 10) (digitChar (n % 10) :: acc)

/-- Decimal text of a natural number. -/
def formatNat (n : Nat) : Str := formatDigits (n + 1) n []

/-- Go's `strconv.Itoa`. -/
def Itoa (i : Int) : Str :=
  if i < 0 then 45 :: formatNat i.natAbs else formatNat i.natAbs

/-- Go's `len` on a string: its number of bytes. -/
def len (s : Str) : Nat := s.length

/-! ## `encoding/json`: values and the encoder

`json.Marshal` escapes, inside a string, the quote and the backslash with a backslash,
line feed, carriage return and tab as `\n`, `\r`, `\t`, the other bytes below 32 and
`<`, `>`, `&` as `\u00XX`, and U+2028, U+2029 as `\u2028`, `\u2029`; a byte that
begins no well-formed UTF-8 encoding is written as `\ufffd`; every other encoding is
copied. (Later releases of Go write `\b` and `\f` for the bytes 8 and 12; the decoder
reads both spellings alike.) -/

/-- A decoded JSON value. A number keeps its literal text. -/
inductive Json where
  | null
  | bool (b : Bool)
  | num (lit : Str)
  | str (s : Str)
  | arr (xs : List Json)
  | obj (kvs : List (Str × Json))

/-- Lower-case hexadecimal digit of a value below 16. -/
def hexChar (d : Nat) : Byte :=
  if d < 10 then byte (48 + d) else byte (87 + d)

/-- The text `encoding/json` writes for one byte below 128 of a string (HTML escaping
on, as `json.Marshal` has it). -/
def escapeAscii (c : Byte) : Str :=
  if c.val = 34 then utf8 "\\\""
  else if c.val = 92 then utf8 "\\\\"
  else if c.val = 10 then utf8 "\\n"
  else if c.val = 13 then utf8 "\\r"
  else if c.val = 9 then utf8 "\\t"
  else if c.val < 32 ∨ c.val = 60 ∨ c.val = 62 ∨ c.val = 38 then
    utf8 "\\u00" ++ [hexChar (c.val / 16), hexChar (c.val % 16)]
  else [c]

/-- The escaped body of a JSON string literal; `skip` counts the bytes at the head that
belong to an encoding already written. -/
def escapeFrom : Nat → Str → Str
  | _, [] => []
  | skip + 1, _ :: rest => escapeFrom skip rest
  | 0, c :: rest =>
    if c.val < 128 then escapeAscii c ++ escapeFrom 0 rest
    else if runeLength (c :: rest) = 0 then utf8 "\\ufffd" ++ escapeFrom 0 rest
    else if (c :: rest).take 3 = [226, 128, 168] then utf8 "\\u2028" ++ escapeFrom 2 rest
    else if (c :: rest).take 3 = [226, 128, 169] then utf8 "\\u2029" ++ escapeFrom 2 rest
    else (c :: rest).take (runeLength (c :: rest))
      ++ escapeFrom (runeLength (c :: rest) - 1) rest

/-- A JSON string literal, quotes included. -/
def quoteChars (s : Str) : Str := 34 :: (escapeFrom 0 s ++ [34])

/-- The elements of a JSON array of strings after the first one, each behind a comma. -/
def encodeTail : List Str → Str
  | [] => []
  | s :: ss => 44 :: (quoteChars s ++ encodeTail ss)

/-- The elements of a JSON array of strings, comma separated. -/
def encodeElems : List Str → Str
  | [] => []
  | s :: ss => quoteChars s ++ encodeTail ss

/-- Go's `json.Marshal` on a `[]string`: `null` for the nil slice, an array otherwise. -/
def marshalStrings : Option (List Str) → Str
  | none => utf8 "null"
  | some xs => 91 :: (encodeElems xs ++ [93])

/-! ## `encoding/json`: the decoder

The text is cut into tokens by a byte automaton and the tokens are assembled by a
stack automaton, as the scanner of `encoding/json` does: white space is blank, tab,
carriage return and line feed; a number is `-`? (`0` | `1-9` digits) (`.` digits)?
(`e|E` sign? digits)?; a string holds no raw byte below 32 and the escapes of the
quote, the backslash, the slash, `b`, `f`, `n`, `r`, `t` and `u` with four hexadecimal
digits, where a high and a low surrogate escape in a row give one code point and a
surrogate escape alone gives U+FFFD. Inside a string a well-formed UTF-8 encoding is
copied and every byte that begins none is replaced by the encoding of U+FFFD, as
`utf8.DecodeRune` followed by `utf8.EncodeRune` does. The limit that later releases of Go
put on the nesting depth is not modelled. -/

/-- A JSON token. -/
inductive Token where
  | lbrace | rbrace | lbrack | rbrack | colon | comma
  | str (s : Str)
  | num (lit : Str)
  | tru | fls | nul
  deriving DecidableEq

/-- Where the automaton stands inside a number literal. -/
inductive NumState where
  | neg | zero | int | dot | frac | e | esign | exp
  deriving DecidableEq

/-- What the tokenizer is reading. -/
inductive Mode where
  /-- between two tokens -/
  | top
  /-- in a string literal whose decoded text so far is `acc` -/
  | inStr (acc : Str)
  /-- in a string literal, behind the bytes `pend` that begin an encoding of several
  bytes -/
  | multi (acc : Str) (pend : Str)
  /-- behind a backslash -/
  | esc (acc : Str)
  /-- in the hexadecimal digits of a `u` escape: `k` digits of value `n` are read;
  `hi` is the high surrogate, if any, that the escape just before gave -/
  | uni (acc : Str) (hi : Option Nat) (k n : Nat)
  /-- behind the escape of a high surrogate -/
  | hiWait (acc : Str) (hi : Nat)
  /-- behind the escape of a high surrogate and a backslash -/
  | hiEsc (acc : Str) (hi : Nat)
  /-- in a number literal -/
  | num (st : NumState) (lit : Str)
  /-- in `true`, `false` or `null`, `rest` still to come -/
  | lit (rest : Str) (tok : Token)

/-- State of the tokenizer: the tokens read and the current mode. -/
structure Lex where
  toks : List Token
  mode : Mode

/-- JSON white space: blank, tab, carriage return, line feed. -/
def isSpace (c : Byte) : Bool := c.val = 32 ∨ c.val = 9 ∨ c.val = 13 ∨ c.val = 10

/-- Decimal digit test. -/
def isDigit (c : Byte) : Bool := 48 ≤ c.val ∧ c.val ≤ 57

/-- Value of a hexadecimal digit, either case. -/
def hexVal (c : Byte) : Option Nat :=
  if 48 ≤ c.val ∧ c.val ≤ 57 then some (c.val - 48)
  else if 97 ≤ c.val ∧ c.val ≤ 102 then some (c.val - 87)
  else if 65 ≤ c.val ∧ c.val ≤ 70 then some (c.val - 55)
  else none

/-- One byte between two tokens: white space, the six punctuation marks (braces 123 and
125, brackets 91 and 93, colon 58, comma 44), the quote 34, the minus 45, a digit, or
the first letter of `true`, `false`, `null`. -/
def stepTop (toks : List Token) (c : Byte) : Option Lex :=
  if isSpace c then some ⟨toks, .top⟩
  else if c.val = 123 then some ⟨toks ++ [.lbrace], .top⟩
  else if c.val = 125 then some ⟨toks ++ [.rbrace], .top⟩
  else if c.val = 91 then some ⟨toks ++ [.lbrack], .top⟩
  else if c.val = 93 then some ⟨toks ++ [.rbrack], .top⟩
  else if c.val = 58 then some ⟨toks ++ [.colon], .top⟩
  else if c.val = 44 then some ⟨toks ++ [.comma], .top⟩
  else if c.val = 34 then some ⟨toks, .inStr []⟩
  else if c.val = 45 then some ⟨toks, .num .neg [c]⟩
  else if c.val = 48 then some ⟨toks, .num .zero [c]⟩
  else if isDigit c then some ⟨toks, .num .int [c]⟩
  else if c.val = 116 then some ⟨toks, .lit (utf8 "rue") .tru⟩
  else if c.val = 102 then some ⟨toks, .lit (utf8 "alse") .fls⟩
  else if c.val = 110 then some ⟨toks, .lit (utf8 "ull") .nul⟩
  else none

/-- One byte inside a string literal: the closing quote 34, the backslash 92, a byte
below 32 (an error), another byte below 128, or a byte from 128 on, which begins an
encoding of several bytes or is replaced. -/
def stepStr (toks : List Token) (acc : Str) (c : Byte) : Option Lex :=
  if c.val = 34 then some ⟨toks ++ [.str acc], .top⟩
  else if c.val = 92 then some ⟨toks, .esc acc⟩
  else if c.val < 32 then none
  else if c.val < 128 then some ⟨toks, .inStr (acc ++ [c])⟩
  else if isRunePrefix [c] then some ⟨toks, .multi acc [c]⟩
  else some ⟨toks, .inStr (acc ++ replacement)⟩

/-- One byte behind the bytes `pend` of an encoding under way: it completes the encoding,
or continues it, or shows that every byte of `pend` began no encoding; then each is
replaced and the byte is read as a byte of the string. -/
def stepMulti (toks : List Token) (acc pend : Str) (c : Byte) : Option Lex :=
  if isRune (pend ++ [c]) then some ⟨toks, .inStr (acc ++ (pend ++ [c]))⟩
  else if isRunePrefix (pend ++ [c]) then some ⟨toks, .multi acc (pend ++ [c])⟩
  else stepStr toks (acc ++ pend.flatMap (fun _ => replacement)) c

/-- The byte behind a backslash: quote, backslash or slash, `b`, `f`, `n`, `r`, `t`,
or `u`. -/
def stepEsc (toks : List Token) (acc : Str) (c : Byte) : Option Lex :=
  if c.val = 34 ∨ c.val = 92 ∨ c.val = 47 then some ⟨toks, .inStr (acc ++ [c])⟩
  else if c.val = 98 then some ⟨toks, .inStr (acc ++ [8])⟩
  else if c.val = 102 then some ⟨toks, .inStr (acc ++ [12])⟩
  else if c.val = 110 then some ⟨toks, .inStr (acc ++ [10])⟩
  else if c.val = 114 then some ⟨toks, .inStr (acc ++ [13])⟩
  else if c.val = 116 then some ⟨toks, .inStr (acc ++ [9])⟩
  else if c.val = 117 then some ⟨toks, .uni acc none 0 0⟩
  else none

/-- The mode after a `u` escape of value `r` that no high surrogate precedes. -/
def freshUnit (acc : Str) (r : Nat) : Mode :=
  if 55296 ≤ r ∧ r < 56320 then .hiWait acc r
  else .inStr (acc ++ encodeRune r)

/-- The mode after a complete `u` escape of value `r`. -/
def finishUnit (acc : Str) (hi : Option Nat) (r : Nat) : Mode :=
  match hi with
  | none => freshUnit acc r
  | some h =>
    if 56320 ≤ r ∧ r < 57344 then
      .inStr (acc ++ encodeRune ((h - 55296) * 1024 + (r - 56320) + 65536))
    else freshUnit (acc ++ replacement) r

/-- One hexadecimal digit of a `u` escape. -/
def stepUni (toks : List Token) (acc : Str) (hi : Option Nat) (k n : Nat) (c : Byte) :
    Option Lex :=
  match hexVal c with
  | none => none
  | some d =>
    if k < 3 then some ⟨toks, .uni acc hi (k + 1) (n * 16 + d)⟩
    else some ⟨toks, finishUnit acc hi (n * 16 + d)⟩

/-- Whether a number literal may end in this state. -/
def NumState.complete : NumState → Bool
  | .zero | .int | .frac | .exp => true
  | _ => false

/-- The state a number literal moves to on `c`, if `c` continues it (`0` is 48, the
point 46, `e` and `E` 101 and 69, the signs 43 and 45). -/
def NumState.next (st : NumState) (c : Byte) : Option NumState :=
  match st with
  | .neg => if c.val = 48 then some .zero else if isDigit c then some .int else none
  | .zero =>
    if c.val = 46 then some .dot else if c.val = 101 ∨ c.val = 69 then some .e else none
  | .int =>
    if isDigit c then some .int else if c.val = 46 then some .dot
    else if c.val = 101 ∨ c.val = 69 then some .e else none
  | .dot => if isDigit c then some .frac else none
  | .frac =>
    if isDigit c then some .frac else if c.val = 101 ∨ c.val = 69 then some .e else none
  | .e =>
    if c.val = 43 ∨ c.val = 45 then some .esign else if isDigit c then some .exp else none
  | .esign => if isDigit c then some .exp else none
  | .exp => if isDigit c then some .exp else none

/-- One step of the tokenizer. -/
def Lex.step (l : Lex) (c : Byte) : Option Lex :=
  match l.mode with
  | .top => stepTop l.toks c
  | .inStr acc => stepStr l.toks acc c
  | .multi acc pend => stepMulti l.toks acc pend c
  | .esc acc => stepEsc l.toks acc c
  | .uni acc hi k n => stepUni l.toks acc hi k n c
  | .hiWait acc hi =>
    if c.val = 92 then some ⟨l.toks, .hiEsc acc hi⟩
    else stepStr l.toks (acc ++ replacement) c
  | .hiEsc acc hi =>
    if c.val = 117 then some ⟨l.toks, .uni acc (some hi) 0 0⟩
    else stepEsc l.toks (acc ++ replacement) c
  | .num st lit =>
    match st.next c with
    | some st' => some ⟨l.toks, .num st' (lit ++ [c])⟩
    | none => if st.complete then stepTop (l.toks ++ [.num lit]) c else none
  | .lit rest tok =>
    match rest with
    | [] => none
    | [r] => if c = r then some ⟨l.toks ++ [tok], .top⟩ else none
    | r :: rest' => if c = r then some ⟨l.toks, .lit rest' tok⟩ else none

/-- Run the tokenizer over a text. -/
def Lex.feed (l : Option Lex) : Str → Option Lex
  | [] => l
  | c :: cs => Lex.feed (l.bind (fun x => x.step c)) cs

/-- The tokens at the end of the text: a literal under way has to be a complete number. -/
def Lex.finish (l : Lex) : Option (List Token) :=
  match l.mode with
  | .top => some l.toks
  | .num st lit => if st.complete then some (l.toks ++ [.num lit]) else none
  | _ => none

/-- The tokens of a JSON text, `none` when it is not made of JSON tokens. -/
def tokenize (cs : Str) : Option (List Token) :=
  match Lex.feed (some ⟨[], .top⟩) cs with
  | none => none
  | some l => l.finish

/-- An enclosing array or object that waits for a value. -/
inductive Frame where
  /-- an array with the elements `acc` so far -/
  | arr (acc : List Json)
  /-- an object with the members `acc` so far, waiting for the value of `key` -/
  | obj (acc : List (Str × Json)) (key : Str)

/-- What the assembler expects next; `stk` holds the enclosing containers. -/
inductive PState where
  /-- a value; `orEmpty` right behind `[`, where `]` may come instead -/
  | value (stk : List Frame) (orEmpty : Bool)
  /-- a member key; `orEmpty` right behind the opening brace, where the closing one may come -/
  | key (stk : List Frame) (acc : List (Str × Json)) (orEmpty : Bool)
  /-- the colon behind a member key -/
  | colon (stk : List Frame) (acc : List (Str × Json)) (key : Str)
  /-- a comma or `]` behind an array element -/
  | endArr (stk : List Frame) (acc : List Json)
  /-- a comma or the closing brace behind an object member -/
  | endObj (stk : List Frame) (acc : List (Str × Json))
  /-- nothing: the top-level value is complete -/
  | done (v : Json)

/-- The state once the value `v` is complete. -/
def complete (v : Json) : List Frame → PState
  | [] => .done v
  | Frame.arr acc :: stk => .endArr stk (acc ++ [v])
  | Frame.obj acc key :: stk => .endObj stk (acc ++ [(key, v)])

/-- A token where a value is expected. -/
def stepValue (stk : List Frame) (t : Token) : Option PState :=
  match t with
  | .lbrack => some (.value (Frame.arr [] :: stk) true)
  | .lbrace => some (.key stk [] true)
  | .str s => some (complete (.str s) stk)
  | .num lit => some (complete (.num lit) stk)
  | .tru => some (complete (.bool true) stk)
  | .fls => some (complete (.bool false) stk)
  | .nul => some (complete .null stk)
  | _ => none

/-- One step of the assembler. -/
def PState.step (p : PState) (t : Token) : Option PState :=
  match p with
  | .value stk orEmpty =>
    match orEmpty, stk, t with
    | true, Frame.arr acc :: stk', .rbrack => some (complete (.arr acc) stk')
    | _, _, _ => stepValue stk t
  | .key stk acc orEmpty =>
    match t with
    | .str s => some (.colon stk acc s)
    | .rbrace => if orEmpty then some (complete (.obj acc) stk) else none
    | _ => none
  | .colon stk acc name =>
    match t with
    | .colon => some (.value (Frame.obj acc name :: stk) false)
    | _ => none
  | .endArr stk acc =>
    match t with
    | .comma => some (.value (Frame.arr acc :: stk) false)
    | .rbrack => some (complete (.arr acc) stk)
    | _ => none
  | .endObj stk acc =>
    match t with
    | .comma => some (.key stk acc false)
    | .rbrace => some (complete (.obj acc) stk)
    | _ => none
  | .done _ => none

/-- Run the assembler over tokens. -/
def PState.feed (p : Option PState) : List Token → Option PState
  | [] => p
  | t :: ts => PState.feed (p.bind (fun x => x.step t)) ts

/-- The value a token sequence spells, `none` when it spells none. -/
def assemble (ts : List Token) : Option Json :=
  match PState.feed (some (.value [] false)) ts with
  | some (.done v) => some v
  | _ => none

/-- The JSON value a text spells; `none` is the syntax error of `encoding/json`. -/
def Json.parse (data : Str) : Option Json :=
  match tokenize data with
  | none => none
  | some ts => assemble ts

/-- What `json.Unmarshal` stores into a `string` for a JSON value: the text of a string,
and nothing (the zero value stays) for `null` and for values of another type. -/
def elemString : Json → Str
  | .str s => s
  | _ => []

/-- Go's `json.Unmarshal(data, &v)` for a `var v []string` that is still `nil`: an array
gives a non-nil slice with one entry per element; `null`, a value of another type and a
syntax error leave `v` as it is. The error that `Unmarshal` returns is dropped, as the
callers drop it. -/
def unmarshalStrings (data : Str) : Option (List Str) :=
  match Json.parse data with
  | some (.arr xs) => some (xs.map elemString)
  | _ => none

/-- The text value of member `name` of a JSON object (the last one, if repeated). -/
def Json.field (v : Json) (name : Str) : Option Str :=
  match v with
  | .obj kvs =>
    match (kvs.reverse.find? (fun kv => kv.1 = name)) with
    | some (_, .str s) => some s
    | _ => none
  | _ => none

/-- Whether a JSON value is an object. -/
def Json.isObject : Json → Bool
  | .obj _ => true
  | _ => false

/-- The record type of the chaincode. Its fields are not exported (lower case). -/
structure Cpr where
  id : Str
  hash : Str
  owner : Str
  grower : Str
  deriving DecidableEq

/-- Go's `json.Unmarshal(data, &res)` for a `Cpr`: `encoding/json` reaches exported struct
fields only and `Cpr` has none, so `res` stays as it is, whatever `data` holds. -/
def unmarshalCpr (_data : Str) (res : Cpr) : Cpr := res

/-- Go's `json.Marshal(res)` for a `Cpr`: an object with one member per exported field,
which is the empty object. -/
def marshalCpr (_res : Cpr) : Str := utf8 "\x7b\x7d"
/-! ## The ledger -/

/-- Modelled from the spec: the key/value store of the host (`shim.ChaincodeStubInterface`,
spec §6: `get(key) → bytes|NotFound`, `put(key, bytes) → ok|error`,
`delete(key) → ok|error`). `state` maps a key to its value, `none` when the key is
absent; `faults` lists the outcomes of the coming store calls, `true` for a call that
fails, and a call beyond the list succeeds. A call that fails leaves `state` as it is. -/
structure Stub where
  state : Str → Option Str
  faults : List Bool

/-- The error of a store call that fails. -/
def storeFailure : Str := utf8 "ledger failure"

/-- Whether the next store call fails, and the stub with that outcome consumed. -/
def Stub.next (stub : Stub) : Bool × Stub :=
  match stub.faults with
  | [] => (false, stub)
  | b :: rest => (b, { stub with faults := rest })

/-- The store call `stub.GetState(key)`: the value (`none`, Go's `nil`, for an absent key)
and the error. -/
def GetState (stub : Stub) (key : Str) : Stub × Option Str × Option Str :=
  let (fails, stub) := stub.next
  if fails then (stub, none, some storeFailure) else (stub, stub.state key, none)

/-- The store call `stub.PutState(key, value)`: the error. -/
def PutState (stub : Stub) (key : Str) (value : Str) : Stub × Option Str :=
  let (fails, stub) := stub.next
  if fails then (stub, some storeFailure)
  else ({ stub with state := fun k => if k = key then some value else stub.state k }, none)

/-- The store call `stub.DelState(key)`: the error. -/
def DelState (stub : Stub) (key : Str) : Stub × Option Str :=
  let (fails, stub) := stub.next
  if fails then (stub, some storeFailure)
  else ({ stub with state := fun k => if k = key then none else stub.state k }, none)

/-- What a chaincode function returns: `([]byte, error)`. -/
structure Reply where
  payload : Option Str
  err : Option Str
  deriving DecidableEq

/-! ## The chaincode -/

/-- The key under which the list of all known ids is stored. -/
def cprIndexStr : Str := utf8 "_cprindex"

/-- Go's `append(cprIndex, id)`. -/
def appendString (cprIndex : Option (List Str)) (id : Str) : Option (List Str) :=
  match cprIndex with
  | none => some [id]
  | some xs => some (xs ++ [id])

/-- `Init`: reset all the things. -/
def Init (stub : Stub) (_function : Str) (args : List Str) : Stub × Reply :=
  if args.length ≠ 1 then
    (stub, ⟨none, some (utf8 "Incorrect number of arguments. Expecting 1")⟩)
  else
    match Atoi (args.getD 0 []) with
    | none => (stub, ⟨none, some (utf8 "Expecting integer value for asset holding")⟩)
    | some Aval =>
      match PutState stub (utf8 "abc") (Itoa Aval) with
      | (stub, some err) => (stub, ⟨none, some err⟩)
      | (stub, none) =>
        let empty : Option (List Str) := none
        let jsonAsBytes := marshalStrings empty
        match PutState stub cprIndexStr jsonAsBytes with
        | (stub, some err) => (stub, ⟨none, some err⟩)
        | (stub, none) => (stub, ⟨none, none⟩)

/-- `read`: read a variable from chaincode state. -/
def read (stub : Stub) (args : List Str) : Stub × Reply :=
  if args.length ≠ 1 then
    (stub, ⟨none,
      some (utf8 "Incorrect number of arguments. Expecting name of the var to query")⟩)
  else
    let name := args.getD 0 []
    match GetState stub name with
    | (stub, _, some _) =>
      (stub, ⟨none,
        some (utf8 "\x7b\"Error\":\"Failed to get state for " ++ name ++ utf8 "\"\x7d")⟩)
    | (stub, valAsbytes, none) => (stub, ⟨valAsbytes, none⟩)

/-- The loop of `Delete` over `cprIndex`: `i` is the loop index and the last argument
holds the elements from `i` on. At the first element equal to `name` the slice becomes
`append(cprIndex[:i], cprIndex[i+1:]...)` and the loop ends. -/
def removeScan (name : Str) (cprIndex : List Str) : Nat → List Str → List Str
  | _, [] => cprIndex
  | i, val :: rest =>
    if val = name then cprIndex.take i ++ cprIndex.drop (i + 1)
    else removeScan name cprIndex (i + 1) rest

/-- The loop of `Delete` on a slice; the `nil` slice has no element to visit. -/
def removeFromIndex (name : Str) : Option (List Str) → Option (List Str)
  | none => none
  | some xs => some (removeScan name xs 0 xs)

/-- `Delete`: remove a key/value pair from state. -/
def Delete (stub : Stub) (args : List Str) : Stub × Reply :=
  if args.length ≠ 1 then
    (stub, ⟨none, some (utf8 "Incorrect number of arguments. Expecting 1")⟩)
  else
    let name := args.getD 0 []
    match DelState stub name with
    | (stub, some _) => (stub, ⟨none, some (utf8 "Failed to delete state")⟩)
    | (stub, none) =>
      match GetState stub cprIndexStr with
      | (stub, _, some _) => (stub, ⟨none, some (utf8 "Failed to get cpr index")⟩)
      | (stub, cprsAsBytes, none) =>
        let cprIndex := unmarshalStrings (cprsAsBytes.getD [])
        let cprIndex := removeFromIndex name cprIndex
        let jsonAsBytes := marshalStrings cprIndex
        let (stub, _) := PutState stub cprIndexStr jsonAsBytes
        (stub, ⟨none, none⟩)

/-- `Write`: write variable into chaincode state. -/
def Write (stub : Stub) (args : List Str) : Stub × Reply :=
  if args.length ≠ 2 then
    (stub, ⟨none, some
      (utf8 "Incorrect number of arguments. Expecting 2. name of the variable and value to set")⟩)
  else
    let id := args.getD 0 []
    let value := args.getD 1 []
    match PutState stub id value with
    | (stub, some err) => (stub, ⟨none, some err⟩)
    | (stub, none) => (stub, ⟨none, none⟩)

/-- The record text `init_cpr` builds by concatenation. -/
def recordText (id hash owner grower : Str) : Str :=
  utf8 "\x7b\"id\": \"" ++ id ++ utf8 "\", \"hash\": \"" ++ hash
    ++ utf8 "\",  \"owner\": \"" ++ owner ++ utf8 "\", \"grower\": \"" ++ grower
    ++ utf8 "\"\x7d"

/-- `init_cpr`: create a new cpr, store into chaincode state. -/
def init_cpr (stub : Stub) (args : List Str) : Stub × Reply :=
  if args.length ≠ 4 then
    (stub, ⟨none, some (utf8 "Incorrect number of arguments. Expecting 4")⟩)
  else if len (args.getD 0 []) ≤ 0 then
    (stub, ⟨none, some (utf8 "1st argument must be a non-empty string")⟩)
  else if len (args.getD 1 []) ≤ 0 then
    (stub, ⟨none, some (utf8 "2nd argument must be a non-empty string")⟩)
  else if len (args.getD 2 []) ≤ 0 then
    (stub, ⟨none, some (utf8 "3rd argument must be a non-empty string")⟩)
  else if len (args.getD 3 []) ≤ 0 then
    (stub, ⟨none, some (utf8 "4rd argument must be a non-empty string")⟩)
  else
    let str := recordText (args.getD 0 []) (args.getD 1 []) (args.getD 2 []) (args.getD 3 [])
    match PutState stub (args.getD 0 []) str with
    | (stub, some err) => (stub, ⟨none, some err⟩)
    | (stub, none) =>
      match GetState stub cprIndexStr with
      | (stub, _, some _) => (stub, ⟨none, some (utf8 "Failed to get cpr index")⟩)
      | (stub, cprAsBytes, none) =>
        let cprIndex := unmarshalStrings (cprAsBytes.getD [])
        let cprIndex := appendString cprIndex (args.getD 0 [])
        let jsonAsBytes := marshalStrings cprIndex
        let (stub, _) := PutState stub cprIndexStr jsonAsBytes
        (stub, ⟨none, none⟩)

/-- `set_user`: set user permission on cpr. -/
def set_user (stub : Stub) (args : List Str) : Stub × Reply :=
  if args.length < 2 then
    (stub, ⟨none, some (utf8 "Incorrect number of arguments. Expecting 2")⟩)
  else
    match GetState stub (args.getD 0 []) with
    | (stub, _, some _) => (stub, ⟨none, some (utf8 "Failed to get thing")⟩)
    | (stub, cprAsBytes, none) =>
      let res : Cpr := ⟨[], [], [], []⟩
      let res := unmarshalCpr (cprAsBytes.getD []) res
      let res := { res with owner := args.getD 1 [] }
      let jsonAsBytes := marshalCpr res
      match PutState stub (args.getD 0 []) jsonAsBytes with
      | (stub, some err) => (stub, ⟨none, some err⟩)
      | (stub, none) => (stub, ⟨none, none⟩)

/-- `Invoke`: the entry point for invocations. -/
def Invoke (stub : Stub) (function : Str) (args : List Str) : Stub × Reply :=
  if function = utf8 "init" then Init stub function args
  else if function = utf8 "delete" then Delete stub args
  else if function = utf8 "write" then Write stub args
  else if function = utf8 "init_cpr" then init_cpr stub args
  else if function = utf8 "set_user" then set_user stub args
  else (stub, ⟨none, some (utf8 "Received unknown function invocation")⟩)

/-- `Query`: the entry point for queries. -/
def Query (stub : Stub) (function : Str) (args : List Str) : Stub × Reply :=
  if function = utf8 "read" then read stub args
  else (stub, ⟨none, some (utf8 "Received unknown function query")⟩)

/-! ## Notions the statements use -/

/-- Every coming store call succeeds. -/
def Stub.reliable (stub : Stub) : Prop := ∀ b ∈ stub.faults, b = false

/-- The list of ids that the value under `_cprindex` decodes to, the way `init_cpr` and
`Delete` decode it: the empty list when the slice stays `nil`. -/
def indexOf (stub : Stub) : List Str :=
  (unmarshalStrings ((stub.state cprIndexStr).getD [])).getD []

/-- The empty ledger whose calls all succeed. -/
def emptyStub : Stub := ⟨fun _ => none, []⟩

/-- The stub once a store call that succeeds and writes nothing is consumed. -/
def Stub.tail (stub : Stub) : Stub := ⟨stub.state, stub.faults.tail⟩

/-- The stub once a `PutState` that succeeds is consumed. -/
def Stub.put (stub : Stub) (key value : Str) : Stub :=
  ⟨fun k => if k = key then some value else stub.state k, stub.faults.tail⟩

/-- The stub once a `DelState` that succeeds is consumed. -/
def Stub.del (stub : Stub) (key : Str) : Stub :=
  ⟨fun k => if k = key then none else stub.state k, stub.faults.tail⟩

/-- A byte that stands for itself inside a JSON string literal: no quote (34), no
backslash (92), no control byte (below 32). -/
def plainChar (c : Byte) : Prop := c.val ≠ 34 ∧ c.val ≠ 92 ∧ 32 ≤ c.val

/-- A text that a JSON string literal holds as it is: well-formed UTF-8 made of bytes
that stand for themselves. -/
def plainText (s : Str) : Prop := validUTF8 s = true ∧ ∀ c ∈ s, plainChar c

instance (c : Byte) : Decidable (plainChar c) := by
  unfold plainChar; infer_instance

instance (s : Str) : Decidable (plainText s) :=
  decidable_of_iff (validUTF8 s = true ∧ s.all (fun c => decide (plainChar c)) = true)
    (by simp [plainText])

instance (stub : Stub) : Decidable stub.reliable := by
  unfold Stub.reliable; infer_instance

/-- Whether a payload decodes as a JSON object whose members `id`, `hash`, `owner` and
`grower` are the given texts. -/
def decodesToRecord (payload : Option Str) (id hash owner grower : Str) : Bool :=
  match payload.bind Json.parse with
  | none => false
  | some v =>
    v.isObject && decide (v.field (utf8 "id") = some id)
      && decide (v.field (utf8 "hash") = some hash)
      && decide (v.field (utf8 "owner") = some owner)
      && decide (v.field (utf8 "grower") = some grower)

/-- Tokens of the elements of a JSON array of strings behind the first one. -/
def tailTokens : List Str → List Token
  | [] => []
  | s :: ss => .comma :: .str s :: tailTokens ss

/-- Tokens of the elements of a JSON array of strings. -/
def elemTokens : List Str → List Token
  | [] => []
  | s :: ss => .str s :: tailTokens ss

/-- The ledger after `Init` with the counter `100` on the empty ledger. -/
def freshStub : Stub := (Init emptyStub (utf8 "init") (utf8s ["100"])).1

/-! ## The variant `src/cpr.go`

The older file differs in `init_cpr`, which takes three arguments and writes no
`grower`; its `init`, `read`, `Delete`, `Write` and `set_user` have the bodies above. -/

/-- The record text `init_cpr` of `src/cpr.go` builds. -/
def V1.recordText (id hash owner : Str) : Str :=
  utf8 "\x7b\"id\": \"" ++ id ++ utf8 "\", \"hash\": \"" ++ hash
    ++ utf8 "\",  \"owner\": \"" ++ owner ++ utf8 "\"\x7d"

/-- `init_cpr` of `src/cpr.go`. -/
def V1.init_cpr (stub : Stub) (args : List Str) : Stub × Reply :=
  if args.length ≠ 3 then
    (stub, ⟨none, some (utf8 "Incorrect number of arguments. Expecting 2")⟩)
  else if len (args.getD 0 []) ≤ 0 then
    (stub, ⟨none, some (utf8 "1st argument must be a non-empty string")⟩)
  else if len (args.getD 1 []) ≤ 0 then
    (stub, ⟨none, some (utf8 "2nd argument must be a non-empty string")⟩)
  else if len (args.getD 2 []) ≤ 0 then
    (stub, ⟨none, some (utf8 "3rd argument must be a non-empty string")⟩)
  else
    let str := V1.recordText (args.getD 0 []) (args.getD 1 []) (args.getD 2 [])
    match PutState stub (args.getD 0 []) str with
    | (stub, some err) => (stub, ⟨none, some err⟩)
    | (stub, none) =>
      match GetState stub cprIndexStr with
      | (stub, _, some _) => (stub, ⟨none, some (utf8 "Failed to get cpr index")⟩)
      | (stub, cprAsBytes, none) =>
        let cprIndex := unmarshalStrings (cprAsBytes.getD [])
        let cprIndex := appendString cprIndex (args.getD 0 [])
        let jsonAsBytes := marshalStrings cprIndex
        let (stub, _) := PutState stub cprIndexStr jsonAsBytes
        (stub, ⟨none, none⟩)

/-- `init` of `src/cpr.go`. -/
def V1.init (stub : Stub) (args : List Str) : Stub × Reply :=
  if args.length ≠ 1 then
    (stub, ⟨none, some (utf8 "Incorrect number of arguments. Expecting 1")⟩)
  else
    match Atoi (args.getD 0 []) with
    | none => (stub, ⟨none, some (utf8 "Expecting integer value for asset holding")⟩)
    | some Aval =>
      match PutState stub (utf8 "abc") (Itoa Aval) with
      | (stub, some err) => (stub, ⟨none, some err⟩)
      | (stub, none) =>
        let empty : Option (List Str) := none
        let jsonAsBytes := marshalStrings empty
        match PutState stub cprIndexStr jsonAsBytes with
        | (stub, some err) => (stub, ⟨none, some err⟩)
        | (stub, none) => (stub, ⟨none, none⟩)

/-! ## Records and guarded use -/

/-- Whether `k` has a primary record: `k` is none of the two reserved keys and the
ledger holds a value under it. -/
def hasRecord (stub : Stub) (k : Str) : Bool :=
  decide (k ≠ utf8 "abc") && decide (k ≠ cprIndexStr) && (stub.state k).isSome

/-- The ledger holds nothing but, possibly, the two reserved keys. -/
def Stub.blank (stub : Stub) : Prop :=
  ∀ k, k ≠ utf8 "abc" → k ≠ cprIndexStr → stub.state k = none

/-- The states of guarded use: a successful `Init` on a ledger without records whose
store calls all succeed, then successful calls of `init_cpr` with an id that is
well-formed UTF-8, neither reserved nor in the index, of `set_user` with an id of the
index, and of `Delete` with an id other than `_cprindex`. -/
inductive Guarded : Stub → Prop where
  | init (stub : Stub) (function : Str) (args : List Str) :
      stub.reliable → stub.blank → (Init stub function args).2.err = none →
      Guarded (Init stub function args).1
  | create (stub : Stub) (args : List Str) :
      Guarded stub → (init_cpr stub args).2.err = none →
      validUTF8 (args.getD 0 []) = true →
      args.getD 0 [] ≠ utf8 "abc" → args.getD 0 [] ≠ cprIndexStr →
      args.getD 0 [] ∉ indexOf stub → Guarded (init_cpr stub args).1
  | setUser (stub : Stub) (args : List Str) :
      Guarded stub → (set_user stub args).2.err = none →
      args.getD 0 [] ∈ indexOf stub → Guarded (set_user stub args).1
  | delete (stub : Stub) (args : List Str) :
      Guarded stub → (Delete stub args).2.err = none →
      args.getD 0 [] ≠ cprIndexStr → Guarded (Delete stub args).1

/-! ## Store calls that fail -/

/-- Whether the `i`-th coming store call fails (`i = 0` for the next one). -/
def Stub.fails (stub : Stub) (i : Nat) : Bool := stub.faults.getD i false

/-- The argument errors of `init_cpr`. -/
def argumentErrors : List Str :=
  utf8s ["Incorrect number of arguments. Expecting 4",
   "Incorrect number of arguments. Expecting 2",
   "1st argument must be a non-empty string", "2nd argument must be a non-empty string",
   "3rd argument must be a non-empty string", "4rd argument must be a non-empty string"]

/-! ## Guarded creates and deletes -/

/-- The states reached from a successful `Init` on the empty ledger, all store calls
succeeding, by successful calls of `init_cpr` with an id that is well-formed UTF-8,
neither reserved nor in the index, and of `Delete` with an id that is not reserved. -/
inductive Reached : Stub → Prop where
  | init (stub : Stub) (function : Str) (args : List Str) :
      stub.reliable → (∀ k, stub.state k = none) →
      (Init stub function args).2.err = none → Reached (Init stub function args).1
  | create (stub : Stub) (args : List Str) :
      Reached stub → (init_cpr stub args).2.err = none →
      validUTF8 (args.getD 0 []) = true →
      args.getD 0 [] ≠ utf8 "abc" → args.getD 0 [] ≠ cprIndexStr →
      args.getD 0 [] ∉ indexOf stub → Reached (init_cpr stub args).1
  | delete (stub : Stub) (args : List Str) :
      Reached stub → (Delete stub args).2.err = none →
      args.getD 0 [] ≠ utf8 "abc" → args.getD 0 [] ≠ cprIndexStr →
      Reached (Delete stub args).1

/-! ## Notions the proofs use -/

/-- What the encoder writes for one well-formed encoding. -/
def escapeRune (u : Str) : Str :=
  match u with
  | [c] => escapeAscii c
  | _ =>
    if u = [226, 128, 168] then utf8 "\\u2028"
    else if u = [226, 128, 169] then utf8 "\\u2029"
    else u

/-- Every text of the list is well-formed UTF-8. -/
def allValid (xs : List Str) : Prop := ∀ s ∈ xs, validUTF8 s = true

instance (xs : List Str) : Decidable (allValid xs) := by
  unfold allValid; infer_instance

/-- The decoded text that a mode of the tokenizer holds is well-formed UTF-8, and the
token of a literal under way is no string. -/
def Mode.ok : Mode → Prop
  | .inStr acc => validUTF8 acc = true
  | .multi acc _ => validUTF8 acc = true
  | .esc acc => validUTF8 acc = true
  | .uni acc _ _ _ => validUTF8 acc = true
  | .hiWait acc _ => validUTF8 acc = true
  | .hiEsc acc _ => validUTF8 acc = true
  | .lit _ tok => ∀ s, tok ≠ Token.str s
  | _ => True

/-- The string tokens are well-formed UTF-8. -/
def tokensValid (ts : List Token) : Prop := ∀ s, Token.str s ∈ ts → validUTF8 s = true

/-- The tokens read and the text under way are well-formed UTF-8. -/
def Lex.ok (l : Lex) : Prop := tokensValid l.toks ∧ l.mode.ok

/-- The strings among the values are well-formed UTF-8. -/
def elemsValid (xs : List Json) : Prop := ∀ s, Json.str s ∈ xs → validUTF8 s = true

/-- The strings among the elements of an enclosing array are well-formed UTF-8. -/
def Frame.ok : Frame → Prop
  | .arr acc => elemsValid acc
  | .obj _ _ => True

/-- The strings among the elements of the arrays under way are well-formed UTF-8. -/
def PState.ok : PState → Prop
  | .value stk _ => ∀ f ∈ stk, f.ok
  | .key stk _ _ => ∀ f ∈ stk, f.ok
  | .colon stk _ _ => ∀ f ∈ stk, f.ok
  | .endArr stk acc => (∀ f ∈ stk, f.ok) ∧ elemsValid acc
  | .endObj stk _ => ∀ f ∈ stk, f.ok
  | .done (.arr xs) => elemsValid xs
  | .done _ => True

/-! ## Lemmas on UTF-8 -/

theorem byte_val (n : Nat) : (byte n).val = n % 256 := rfl

theorem byte_of_val (c : Byte) : byte c.val = c := by
  apply Fin.ext
  show c.val % 256 = c.val
  omega

theorem validUTF8_rune_append (u t : Str) (h : isRune u = true) :
    validUTF8 (u ++ t) = validUTF8 t := by
  match u, h with
  | [b0], h =>
    simp only [isRune, decide_eq_true_eq] at h
    rw [validUTF8.eq_def]
    simp [h]
  | [b0, b1], h =>
    have h' := h
    simp only [isRune, Bool.decide_and, Bool.and_eq_true, decide_eq_true_eq] at h'
    have h0 : ¬ b0.val < 128 := by omega
    rw [validUTF8.eq_def]
    simp [h0, h]
  | [b0, b1, b2], h =>
    have h' := h
    simp only [isRune, Bool.decide_and, Bool.and_eq_true, decide_eq_true_eq] at h'
    have h0 : ¬ b0.val < 128 := by omega
    have h1 : isRune [b0, b1] = false := by
      simp only [isRune, Bool.decide_and, Bool.and_eq_false_imp, decide_eq_true_eq]
      intro _ _; omega
    rw [validUTF8.eq_def]
    simp [h0, h1, h]
  | [b0, b1, b2, b3], h =>
    have h' := h
    simp only [isRune, Bool.decide_and, Bool.and_eq_true, decide_eq_true_eq] at h'
    have h0 : ¬ b0.val < 128 := by omega
    have h1 : isRune [b0, b1] = false := by
      simp only [isRune, Bool.decide_and, Bool.and_eq_false_imp, decide_eq_true_eq]
      intro _ _; omega
    have h2 : isRune [b0, b1, b2] = false := by
      simp only [isRune, Bool.decide_and, Bool.and_eq_false_imp, decide_eq_true_eq]
      intro _ _; omega
    rw [validUTF8.eq_def]
    simp [h0, h1, h2, h]

/-- Well-formed UTF-8 is a sequence of encodings: the induction that goes with it. -/
theorem validUTF8_induction {P : Str → Prop} (nil : P [])
    (cons : ∀ u rest, isRune u = true → validUTF8 rest = true → P rest → P (u ++ rest)) :
    ∀ s, validUTF8 s = true → P s := by
  intro s
  induction' hn : s.length using Nat.strong_induction_on with n ih generalizing s
  intro hv
  match s, hv with
  | [], _ => exact nil
  | b0 :: rest, hv =>
    by_cases h0 : b0.val < 128
    · have hr : isRune [b0] = true := by simp [isRune, h0]
      have hv' : validUTF8 rest = true := by
        rw [← validUTF8_rune_append [b0] rest hr]; exact hv
      exact cons [b0] rest hr hv' (ih rest.length (by simp [← hn]) rest rfl hv')
    · match rest, hv with
      | [], hv => rw [validUTF8.eq_def] at hv; simp [h0] at hv
      | b1 :: r1, hv =>
        by_cases h1 : isRune [b0, b1] = true
        · have hv' : validUTF8 r1 = true := by
            rw [← validUTF8_rune_append [b0, b1] r1 h1]; exact hv
          exact cons [b0, b1] r1 h1 hv' (ih r1.length (by simp [← hn]; omega) r1 rfl hv')
        · match r1, hv with
          | [], hv => rw [validUTF8.eq_def] at hv; simp [h0, h1] at hv
          | b2 :: r2, hv =>
            by_cases h2 : isRune [b0, b1, b2] = true
            · have hv' : validUTF8 r2 = true := by
                rw [← validUTF8_rune_append [b0, b1, b2] r2 h2]; exact hv
              exact cons [b0, b1, b2] r2 h2 hv'
                (ih r2.length (by simp [← hn]; omega) r2 rfl hv')
            · match r2, hv with
              | [], hv => rw [validUTF8.eq_def] at hv; simp [h0, h1, h2] at hv
              | b3 :: r3, hv =>
                rw [validUTF8.eq_def] at hv
                simp only [h0, h1, h2, if_false, Bool.false_eq_true,
                  Bool.and_eq_true] at hv
                exact cons [b0, b1, b2, b3] r3 hv.1 hv.2
                  (ih r3.length (by simp [← hn]; omega) r3 rfl hv.2)

theorem validUTF8_append (a b : Str) (ha : validUTF8 a = true) (hb : validUTF8 b = true) :
    validUTF8 (a ++ b) = true := by
  revert ha
  refine validUTF8_induction (P := fun a => validUTF8 (a ++ b) = true) ?_ ?_ a
  · simpa using hb
  · intro u rest hu _ ih
    rw [List.append_assoc, validUTF8_rune_append u _ hu]
    exact ih

theorem validUTF8_rune (u : Str) (h : isRune u = true) : validUTF8 u = true := by
  have := validUTF8_rune_append u [] h
  simpa [validUTF8] using this

theorem validUTF8_replacement : validUTF8 replacement = true := by decide

theorem isRune_encodeRune (r : Nat) : isRune (encodeRune r) = true := by
  unfold encodeRune
  split_ifs with h1 h2 h3 h4
  · simp only [isRune, byte_val, decide_eq_true_eq]; omega
  · simp only [isRune, isCont, byte_val, Bool.decide_and, Bool.and_eq_true,
      decide_eq_true_eq]
    omega
  · decide
  · simp only [isRune, isCont, isSecond, secondLo, secondHi, byte_val, Bool.decide_and,
      Bool.and_eq_true, decide_eq_true_eq]
    have : ¬ (55296 ≤ r ∧ r < 57344) := fun h => h3 (Or.inl h)
    split_ifs <;> omega
  · simp only [isRune, isCont, isSecond, secondLo, secondHi, byte_val, Bool.decide_and,
      Bool.and_eq_true, decide_eq_true_eq]
    have : ¬ 1114111 < r := fun h => h3 (Or.inr h)
    split_ifs <;> omega

theorem validUTF8_encodeRune (r : Nat) : validUTF8 (encodeRune r) = true :=
  validUTF8_rune _ (isRune_encodeRune r)

theorem validUTF8_replacements (pend : Str) :
    validUTF8 (pend.flatMap (fun _ => replacement)) = true := by
  induction pend with
  | nil => rfl
  | cons b pend ih =>
    simp only [List.flatMap_cons]
    exact validUTF8_append _ _ validUTF8_replacement ih

theorem validUTF8_utf8 (s : String) : validUTF8 (utf8 s) = true := by
  unfold utf8
  induction s.data with
  | nil => rfl
  | cons c cs ih =>
    simp only [List.flatMap_cons]
    exact validUTF8_append _ _ (validUTF8_encodeRune _) ih


/-! ## Lemmas on the JSON codec -/

theorem Lex.feed_append (l : Option Lex) (xs ys : Str) :
    Lex.feed l (xs ++ ys) = Lex.feed (Lex.feed l xs) ys := by
  induction xs generalizing l with
  | nil => rfl
  | cons x xs ih => simp [Lex.feed, ih]

theorem Lex.feed_cons (l : Lex) (c : Byte) (cs : Str) :
    Lex.feed (some l) (c :: cs) = Lex.feed (l.step c) cs := rfl

theorem hexVal_hexChar (d : Nat) (h : d < 16) : hexVal (hexChar d) = some d := by
  interval_cases d <;> decide

theorem step_hex (toks : List Token) (acc : Str) (hi : Option Nat) (k n d : Nat)
    (c : Byte) (hc : hexVal c = some d) (hk : k < 3) :
    Lex.step ⟨toks, .uni acc hi k n⟩ c = some ⟨toks, .uni acc hi (k + 1) (n * 16 + d)⟩ := by
  simp [Lex.step, stepUni, hc, hk]

theorem step_hex_last (toks : List Token) (acc : Str) (hi : Option Nat) (n d : Nat)
    (c : Byte) (hc : hexVal c = some d) :
    Lex.step ⟨toks, .uni acc hi 3 n⟩ c = some ⟨toks, finishUnit acc hi (n * 16 + d)⟩ := by
  simp [Lex.step, stepUni, hc]

theorem feed_unit (toks : List Token) (acc : Str) (c1 c2 c3 c4 : Byte)
    (d1 d2 d3 d4 : Nat) (h1 : hexVal c1 = some d1) (h2 : hexVal c2 = some d2)
    (h3 : hexVal c3 = some d3) (h4 : hexVal c4 = some d4) :
    Lex.feed (some ⟨toks, .inStr acc⟩) [92, 117, c1, c2, c3, c4]
      = some ⟨toks, freshUnit acc (((d1 * 16 + d2) * 16 + d3) * 16 + d4)⟩ := by
  have e1 : Lex.step ⟨toks, .inStr acc⟩ 92 = some ⟨toks, .esc acc⟩ := rfl
  have e2 : Lex.step ⟨toks, .esc acc⟩ 117 = some ⟨toks, .uni acc none 0 0⟩ := rfl
  rw [Lex.feed_cons, e1, Lex.feed_cons, e2, Lex.feed_cons, step_hex _ _ _ _ _ _ _ h1 (by omega),
    Lex.feed_cons, step_hex _ _ _ _ _ _ _ h2 (by omega), Lex.feed_cons,
    step_hex _ _ _ _ _ _ _ h3 (by omega), Lex.feed_cons, step_hex_last _ _ _ _ _ _ h4]
  simp [Lex.feed, finishUnit]

theorem freshUnit_byte (acc : Str) (c : Byte) (r : Nat) (hr : r = c.val)
    (h : r < 128) : freshUnit acc r = .inStr (acc ++ [c]) := by
  subst hr
  have h1 : ¬ (55296 ≤ c.val ∧ c.val < 56320) := by omega
  simp [freshUnit, h1, encodeRune, h, byte_of_val]

theorem feed_escapeAscii (toks : List Token) (acc : Str) (c : Byte) (hc : c.val < 128) :
    Lex.feed (some ⟨toks, .inStr acc⟩) (escapeAscii c) = some ⟨toks, .inStr (acc ++ [c])⟩ := by
  unfold escapeAscii
  split_ifs with h1 h2 h3 h4 h5 h6
  · have : c = 34 := Fin.ext h1
    subst this; rfl
  · have : c = 92 := Fin.ext h2
    subst this; rfl
  · have : c = 10 := Fin.ext h3
    subst this; rfl
  · have : c = 13 := Fin.ext h4
    subst this; rfl
  · have : c = 9 := Fin.ext h5
    subst this; rfl
  · have e : utf8 "\\u00" = [92, 117, 48, 48] := by decide
    rw [e]
    show Lex.feed _ [92, 117, 48, 48, hexChar (c.val / 16), hexChar (c.val % 16)] = _
    rw [feed_unit toks acc 48 48 _ _ 0 0 _ _ (by decide) (by decide)
      (hexVal_hexChar _ (by omega)) (hexVal_hexChar _ (by omega))]
    rw [freshUnit_byte acc c _ (by omega) (by omega)]
  · have h7 : ¬ c.val < 32 := fun h => h6 (Or.inl h)
    simp [Lex.feed, Lex.step, stepStr, h1, h2, h7, hc]

theorem feed_rune2 (toks : List Token) (acc : Str) (b0 b1 : Byte)
    (h : isRune [b0, b1] = true) :
    Lex.feed (some ⟨toks, .inStr acc⟩) [b0, b1] = some ⟨toks, .inStr (acc ++ [b0, b1])⟩ := by
  have h' := h
  simp only [isRune, Bool.decide_and, Bool.and_eq_true, decide_eq_true_eq] at h'
  have p0 : isRunePrefix [b0] = true := by
    simp only [isRunePrefix, Bool.decide_and, Bool.and_eq_true, decide_eq_true_eq]; omega
  have e1 : Lex.step ⟨toks, .inStr acc⟩ b0 = some ⟨toks, .multi acc [b0]⟩ := by
    have a1 : ¬ b0.val = 34 := by omega
    have a2 : ¬ b0.val = 92 := by omega
    have a3 : ¬ b0.val < 32 := by omega
    have a4 : ¬ b0.val < 128 := by omega
    simp [Lex.step, stepStr, a1, a2, a3, a4, p0]
  have e2 : Lex.step ⟨toks, .multi acc [b0]⟩ b1 = some ⟨toks, .inStr (acc ++ [b0, b1])⟩ := by
    simp [Lex.step, stepMulti, h]
  rw [Lex.feed_cons, e1, Lex.feed_cons, e2]
  rfl

theorem feed_rune3 (toks : List Token) (acc : Str) (b0 b1 b2 : Byte)
    (h : isRune [b0, b1, b2] = true) :
    Lex.feed (some ⟨toks, .inStr acc⟩) [b0, b1, b2]
      = some ⟨toks, .inStr (acc ++ [b0, b1, b2])⟩ := by
  have h' := h
  simp only [isRune, Bool.decide_and, Bool.and_eq_true, decide_eq_true_eq] at h'
  have p0 : isRunePrefix [b0] = true := by
    simp only [isRunePrefix, Bool.decide_and, Bool.and_eq_true, decide_eq_true_eq]; omega
  have q1 : isRune [b0, b1] = false := by
    simp only [isRune, Bool.decide_and, Bool.and_eq_false_imp, decide_eq_true_eq]
    intro _ _; omega
  have p1 : isRunePrefix [b0, b1] = true := by
    simp only [isRunePrefix, Bool.decide_and, Bool.and_eq_true, decide_eq_true_eq]
    exact ⟨by omega, by omega, h'.2.2.1⟩
  have e1 : Lex.step ⟨toks, .inStr acc⟩ b0 = some ⟨toks, .multi acc [b0]⟩ := by
    have a1 : ¬ b0.val = 34 := by omega
    have a2 : ¬ b0.val = 92 := by omega
    have a3 : ¬ b0.val < 32 := by omega
    have a4 : ¬ b0.val < 128 := by omega
    simp [Lex.step, stepStr, a1, a2, a3, a4, p0]
  have e2 : Lex.step ⟨toks, .multi acc [b0]⟩ b1 = some ⟨toks, .multi acc [b0, b1]⟩ := by
    simp [Lex.step, stepMulti, q1, p1]
  have e3 : Lex.step ⟨toks, .multi acc [b0, b1]⟩ b2
      = some ⟨toks, .inStr (acc ++ [b0, b1, b2])⟩ := by
    simp [Lex.step, stepMulti, h]
  rw [Lex.feed_cons, e1, Lex.feed_cons, e2, Lex.feed_cons, e3]
  rfl

theorem feed_rune4 (toks : List Token) (acc : Str) (b0 b1 b2 b3 : Byte)
    (h : isRune [b0, b1, b2, b3] = true) :
    Lex.feed (some ⟨toks, .inStr acc⟩) [b0, b1, b2, b3]
      = some ⟨toks, .inStr (acc ++ [b0, b1, b2, b3])⟩ := by
  have h' := h
  simp only [isRune, Bool.decide_and, Bool.and_eq_true, decide_eq_true_eq] at h'
  have p0 : isRunePrefix [b0] = true := by
    simp only [isRunePrefix, Bool.decide_and, Bool.and_eq_true, decide_eq_true_eq]; omega
  have q1 : isRune [b0, b1] = false := by
    simp only [isRune, Bool.decide_and, Bool.and_eq_false_imp, decide_eq_true_eq]
    intro _ _; omega
  have p1 : isRunePrefix [b0, b1] = true := by
    simp only [isRunePrefix, Bool.decide_and, Bool.and_eq_true, decide_eq_true_eq]
    exact ⟨by omega, by omega, h'.2.2.1⟩
  have q2 : isRune [b0, b1, b2] = false := by
    simp only [isRune, Bool.decide_and, Bool.and_eq_false_imp, decide_eq_true_eq]
    intro _ _; omega
  have p2 : isRunePrefix [b0, b1, b2] = true := by
    simp only [isRunePrefix, Bool.decide_and, Bool.and_eq_true, decide_eq_true_eq]
    exact ⟨by omega, by omega, h'.2.2.1, h'.2.2.2.1⟩
  have e1 : Lex.step ⟨toks, .inStr acc⟩ b0 = some ⟨toks, .multi acc [b0]⟩ := by
    have a1 : ¬ b0.val = 34 := by omega
    have a2 : ¬ b0.val = 92 := by omega
    have a3 : ¬ b0.val < 32 := by omega
    have a4 : ¬ b0.val < 128 := by omega
    simp [Lex.step, stepStr, a1, a2, a3, a4, p0]
  have e2 : Lex.step ⟨toks, .multi acc [b0]⟩ b1 = some ⟨toks, .multi acc [b0, b1]⟩ := by
    simp [Lex.step, stepMulti, q1, p1]
  have e3 : Lex.step ⟨toks, .multi acc [b0, b1]⟩ b2
      = some ⟨toks, .multi acc [b0, b1, b2]⟩ := by
    simp [Lex.step, stepMulti, q2, p2]
  have e4 : Lex.step ⟨toks, .multi acc [b0, b1, b2]⟩ b3
      = some ⟨toks, .inStr (acc ++ [b0, b1, b2, b3])⟩ := by
    simp [Lex.step, stepMulti, h]
  rw [Lex.feed_cons, e1, Lex.feed_cons, e2, Lex.feed_cons, e3, Lex.feed_cons, e4]
  rfl

theorem feed_rune (toks : List Token) (acc u : Str) (h : isRune u = true)
    (hm : 2 ≤ u.length) :
    Lex.feed (some ⟨toks, .inStr acc⟩) u = some ⟨toks, .inStr (acc ++ u)⟩ := by
  match u, h, hm with
  | [b0, b1], h, _ => exact feed_rune2 toks acc b0 b1 h
  | [b0, b1, b2], h, _ => exact feed_rune3 toks acc b0 b1 b2 h
  | [b0, b1, b2, b3], h, _ => exact feed_rune4 toks acc b0 b1 b2 b3 h
  | _ :: _ :: _ :: _ :: _ :: _, h, _ => simp [isRune] at h

theorem feed_escapeRune (toks : List Token) (acc u : Str) (h : isRune u = true) :
    Lex.feed (some ⟨toks, .inStr acc⟩) (escapeRune u) = some ⟨toks, .inStr (acc ++ u)⟩ := by
  match u, h with
  | [], h => simp [isRune] at h
  | [c], h =>
    simp only [isRune, decide_eq_true_eq] at h
    exact feed_escapeAscii toks acc c h
  | b0 :: b1 :: rest, h =>
    simp only [escapeRune]
    split_ifs with s1 s2
    · rw [s1]
      have e : utf8 "\\u2028" = [92, 117, 50, 48, 50, 56] := by decide
      rw [e, feed_unit toks acc 50 48 50 56 2 0 2 8 (by decide) (by decide) (by decide)
        (by decide)]
      rfl
    · rw [s2]
      have e : utf8 "\\u2029" = [92, 117, 50, 48, 50, 57] := by decide
      rw [e, feed_unit toks acc 50 48 50 57 2 0 2 9 (by decide) (by decide) (by decide)
        (by decide)]
      rfl
    · exact feed_rune toks acc _ h (by simp)


theorem escapeFrom_zero_cons (c : Byte) (rest : Str) :
    escapeFrom 0 (c :: rest)
      = if c.val < 128 then escapeAscii c ++ escapeFrom 0 rest
        else if runeLength (c :: rest) = 0 then utf8 "\\ufffd" ++ escapeFrom 0 rest
        else if (c :: rest).take 3 = [226, 128, 168] then
          utf8 "\\u2028" ++ escapeFrom 2 rest
        else if (c :: rest).take 3 = [226, 128, 169] then
          utf8 "\\u2029" ++ escapeFrom 2 rest
        else (c :: rest).take (runeLength (c :: rest))
          ++ escapeFrom (runeLength (c :: rest) - 1) rest := by
  rw [escapeFrom]

theorem escapeFrom_succ_cons (k : Nat) (c : Byte) (rest : Str) :
    escapeFrom (k + 1) (c :: rest) = escapeFrom k rest := by
  rw [escapeFrom]

theorem take3_ne (b0 x y z : Byte) (l : Str) (h : b0.val ≠ x.val) :
    ¬ List.take 3 (b0 :: l) = [x, y, z] := by
  intro e
  rw [List.take_succ_cons] at e
  exact h (congrArg Fin.val (List.cons.inj e).1)

theorem escapeFrom_multi (c : Byte) (rest : Str) (n : Nat) (h0 : ¬ c.val < 128)
    (hl : runeLength (c :: rest) = n) (hn : n ≠ 0) :
    escapeFrom 0 (c :: rest)
      = if (c :: rest).take 3 = [226, 128, 168] then utf8 "\\u2028" ++ escapeFrom 2 rest
        else if (c :: rest).take 3 = [226, 128, 169] then
          utf8 "\\u2029" ++ escapeFrom 2 rest
        else (c :: rest).take n ++ escapeFrom (n - 1) rest := by
  rw [escapeFrom_zero_cons, if_neg h0, hl, if_neg hn]

theorem escapeFrom_rune (u t : Str) (h : isRune u = true) :
    escapeFrom 0 (u ++ t) = escapeRune u ++ escapeFrom 0 t := by
  match u, h with
  | [b0], h =>
    simp only [isRune, decide_eq_true_eq] at h
    show escapeFrom 0 (b0 :: t) = escapeAscii b0 ++ escapeFrom 0 t
    rw [escapeFrom_zero_cons, if_pos h]
  | [b0, b1], h =>
    have h' := h
    simp only [isRune, Bool.decide_and, Bool.and_eq_true, decide_eq_true_eq] at h'
    have hl : runeLength (b0 :: b1 :: t) = 2 := by
      unfold runeLength
      rw [if_pos (by exact h)]
    have n1 : b0.val ≠ (226 : Byte).val := by
      show b0.val ≠ 226
      omega
    show escapeFrom 0 (b0 :: b1 :: t) = escapeRune [b0, b1] ++ escapeFrom 0 t
    rw [escapeFrom_multi b0 (b1 :: t) 2 (by omega) hl (by omega),
      if_neg (take3_ne b0 _ _ _ _ n1), if_neg (take3_ne b0 _ _ _ _ n1)]
    have e : escapeRune [b0, b1] = [b0, b1] := by
      unfold escapeRune
      rw [if_neg (by intro e; simp at e), if_neg (by intro e; simp at e)]
    rw [e]
    rfl
  | [b0, b1, b2], h =>
    have h' := h
    simp only [isRune, Bool.decide_and, Bool.and_eq_true, decide_eq_true_eq] at h'
    have q1 : isRune [b0, b1] = false := by
      simp only [isRune, Bool.decide_and, Bool.and_eq_false_imp, decide_eq_true_eq]
      intro _ _; omega
    have hl : runeLength (b0 :: b1 :: b2 :: t) = 3 := by
      unfold runeLength
      rw [if_neg (by show ¬ isRune [b0, b1] = true; simp [q1]), if_pos (by exact h)]
    show escapeFrom 0 (b0 :: b1 :: b2 :: t) = escapeRune [b0, b1, b2] ++ escapeFrom 0 t
    rw [escapeFrom_multi b0 (b1 :: b2 :: t) 3 (by omega) hl (by omega)]
    have e2 : escapeFrom 2 (b1 :: b2 :: t) = escapeFrom 0 t := by
      rw [escapeFrom_succ_cons, escapeFrom_succ_cons]
    have e3 : List.take 3 (b0 :: b1 :: b2 :: t) = [b0, b1, b2] := rfl
    rw [e2, e3]
    unfold escapeRune
    split_ifs <;> rfl
  | [b0, b1, b2, b3], h =>
    have h' := h
    simp only [isRune, Bool.decide_and, Bool.and_eq_true, decide_eq_true_eq] at h'
    have q1 : isRune [b0, b1] = false := by
      simp only [isRune, Bool.decide_and, Bool.and_eq_false_imp, decide_eq_true_eq]
      intro _ _; omega
    have q2 : isRune [b0, b1, b2] = false := by
      simp only [isRune, Bool.decide_and, Bool.and_eq_false_imp, decide_eq_true_eq]
      intro _ _; omega
    have hl : runeLength (b0 :: b1 :: b2 :: b3 :: t) = 4 := by
      unfold runeLength
      rw [if_neg (by show ¬ isRune [b0, b1] = true; simp [q1]),
        if_neg (by show ¬ isRune [b0, b1, b2] = true; simp [q2]), if_pos (by exact h)]
    have n1 : b0.val ≠ (226 : Byte).val := by
      show b0.val ≠ 226
      omega
    show escapeFrom 0 (b0 :: b1 :: b2 :: b3 :: t)
      = escapeRune [b0, b1, b2, b3] ++ escapeFrom 0 t
    rw [escapeFrom_multi b0 (b1 :: b2 :: b3 :: t) 4 (by omega) hl (by omega),
      if_neg (take3_ne b0 _ _ _ _ n1), if_neg (take3_ne b0 _ _ _ _ n1)]
    have e : escapeRune [b0, b1, b2, b3] = [b0, b1, b2, b3] := by
      unfold escapeRune
      rw [if_neg (by intro e; simp at e), if_neg (by intro e; simp at e)]
    have e2 : escapeFrom (4 - 1) (b1 :: b2 :: b3 :: t) = escapeFrom 0 t := by
      show escapeFrom 3 (b1 :: b2 :: b3 :: t) = escapeFrom 0 t
      rw [escapeFrom_succ_cons, escapeFrom_succ_cons, escapeFrom_succ_cons]
    rw [e, e2]
    rfl

theorem feed_escapeFrom (toks : List Token) (s : Str) (hs : validUTF8 s = true) :
    ∀ acc, Lex.feed (some ⟨toks, .inStr acc⟩) (escapeFrom 0 s)
      = some ⟨toks, .inStr (acc ++ s)⟩ := by
  revert hs
  refine validUTF8_induction (P := fun s => ∀ acc,
    Lex.feed (some ⟨toks, .inStr acc⟩) (escapeFrom 0 s) = some ⟨toks, .inStr (acc ++ s)⟩)
    ?_ ?_ s
  · intro acc
    simp [escapeFrom, Lex.feed]
  · intro u rest hu _ ih acc
    rw [escapeFrom_rune u rest hu, Lex.feed_append, feed_escapeRune toks acc u hu, ih,
      List.append_assoc]

theorem feed_quoteChars (toks : List Token) (s : Str) (hs : validUTF8 s = true) :
    Lex.feed (some ⟨toks, .top⟩) (quoteChars s) = some ⟨toks ++ [.str s], .top⟩ := by
  have e1 : Lex.step ⟨toks, .top⟩ 34 = some ⟨toks, .inStr []⟩ := rfl
  have e2 : Lex.step ⟨toks, .inStr s⟩ 34 = some ⟨toks ++ [.str s], .top⟩ := rfl
  unfold quoteChars
  rw [Lex.feed_cons, e1, Lex.feed_append, feed_escapeFrom toks s hs, List.nil_append,
    Lex.feed_cons, e2]
  rfl

theorem feed_encodeTail (ss : List Str) (hs : allValid ss) (toks : List Token) :
    Lex.feed (some ⟨toks, .top⟩) (encodeTail ss) = some ⟨toks ++ tailTokens ss, .top⟩ := by
  induction ss generalizing toks with
  | nil => simp [encodeTail, tailTokens, Lex.feed]
  | cons s ss ih =>
    have e1 : Lex.step ⟨toks, .top⟩ 44 = some ⟨toks ++ [.comma], .top⟩ := rfl
    simp only [encodeTail, tailTokens]
    rw [Lex.feed_cons, e1, Lex.feed_append, feed_quoteChars _ s (hs s (by simp)),
      ih (fun x hx => hs x (by simp [hx]))]
    simp

theorem feed_encodeElems (ss : List Str) (hs : allValid ss) (toks : List Token) :
    Lex.feed (some ⟨toks, .top⟩) (encodeElems ss) = some ⟨toks ++ elemTokens ss, .top⟩ := by
  cases ss with
  | nil => simp [encodeElems, elemTokens, Lex.feed]
  | cons s ss =>
    simp only [encodeElems, elemTokens]
    rw [Lex.feed_append, feed_quoteChars _ s (hs s (by simp)),
      feed_encodeTail ss (fun x hx => hs x (by simp [hx]))]
    simp

theorem tokenize_marshal (xs : List Str) (hs : allValid xs) :
    tokenize (marshalStrings (some xs)) = some (.lbrack :: (elemTokens xs ++ [.rbrack])) := by
  have e1 : Lex.step ⟨[], .top⟩ 91 = some ⟨[.lbrack], .top⟩ := rfl
  have e2 : ∀ toks, Lex.step ⟨toks, .top⟩ 93 = some ⟨toks ++ [.rbrack], .top⟩ := fun _ => rfl
  simp only [tokenize, marshalStrings]
  rw [Lex.feed_cons, e1, Lex.feed_append, feed_encodeElems xs hs, Lex.feed_cons, e2]
  simp [Lex.feed, Lex.finish]

theorem PState.feed_step (p : PState) (t : Token) (ts : List Token) :
    PState.feed (some p) (t :: ts) = PState.feed (p.step t) ts := rfl

theorem feed_tailTokens (ss : List Str) (acc : List Json) :
    PState.feed (some (.endArr [] acc)) (tailTokens ss ++ [.rbrack])
      = some (.done (.arr (acc ++ ss.map Json.str))) := by
  induction ss generalizing acc with
  | nil => simp [tailTokens, PState.feed, PState.step, complete]
  | cons s ss ih =>
    have e1 : PState.step (.endArr [] acc) .comma = some (.value [Frame.arr acc] false) := rfl
    have e2 : PState.step (.value [Frame.arr acc] false) (.str s)
        = some (.endArr [] (acc ++ [.str s])) := rfl
    simp only [tailTokens, List.cons_append]
    rw [PState.feed_step, e1, PState.feed_step, e2, ih]
    simp

theorem assemble_strings (xs : List Str) :
    assemble (.lbrack :: (elemTokens xs ++ [.rbrack])) = some (.arr (xs.map Json.str)) := by
  have e1 : PState.step (.value [] false) .lbrack = some (.value [Frame.arr []] true) := rfl
  unfold assemble
  rw [PState.feed_step, e1]
  cases xs with
  | nil => rfl
  | cons s ss =>
    have e2 : PState.step (.value [Frame.arr []] true) (.str s)
        = some (.endArr [] ([] ++ [.str s])) := rfl
    simp only [elemTokens, List.cons_append]
    rw [PState.feed_step, e2, feed_tailTokens]
    simp

theorem map_elemString (xs : List Str) : (xs.map Json.str).map elemString = xs := by
  induction xs with
  | nil => rfl
  | cons x xs ih => simp [elemString, ih]

/-- Decoding what `json.Marshal` wrote for a `[]string` of well-formed UTF-8 texts gives
the slice back. -/
theorem unmarshal_marshal (v : Option (List Str)) (hv : allValid (v.getD [])) :
    unmarshalStrings (marshalStrings v) = v := by
  cases v with
  | none => decide
  | some xs =>
    simp only [unmarshalStrings, Json.parse, tokenize_marshal xs hv, assemble_strings]
    rw [map_elemString]


/-! ## What the decoder gives is well-formed UTF-8 -/

theorem tokensValid_append_str (ts : List Token) (s : Str) (h : tokensValid ts)
    (hs : validUTF8 s = true) : tokensValid (ts ++ [.str s]) := by
  intro x hx
  rcases List.mem_append.1 hx with h1 | h1
  · exact h x h1
  · simp only [List.mem_singleton, Token.str.injEq] at h1
    rw [h1]; exact hs

theorem tokensValid_append_other (ts : List Token) (t : Token) (h : tokensValid ts)
    (ht : ∀ s, t ≠ .str s) : tokensValid (ts ++ [t]) := by
  intro x hx
  rcases List.mem_append.1 hx with h1 | h1
  · exact h x h1
  · simp only [List.mem_singleton] at h1
    exact absurd h1.symm (ht x)

theorem validUTF8_ascii (c : Byte) (h : c.val < 128) : validUTF8 [c] = true :=
  validUTF8_rune [c] (by show decide (c.val < 128) = true; exact decide_eq_true h)

theorem stepTop_ok (toks : List Token) (c : Byte) (l : Lex) (h : tokensValid toks)
    (hs : stepTop toks c = some l) : l.ok := by
  unfold stepTop at hs
  by_cases c0 : isSpace c = true
  · rw [if_pos c0] at hs
    cases hs
    exact ⟨h, trivial⟩
  rw [if_neg c0] at hs
  by_cases c123 : c.val = 123
  · rw [if_pos c123] at hs
    cases hs
    exact ⟨tokensValid_append_other _ _ h (fun s e => Token.noConfusion e), trivial⟩
  rw [if_neg c123] at hs
  by_cases c125 : c.val = 125
  · rw [if_pos c125] at hs
    cases hs
    exact ⟨tokensValid_append_other _ _ h (fun s e => Token.noConfusion e), trivial⟩
  rw [if_neg c125] at hs
  by_cases c91 : c.val = 91
  · rw [if_pos c91] at hs
    cases hs
    exact ⟨tokensValid_append_other _ _ h (fun s e => Token.noConfusion e), trivial⟩
  rw [if_neg c91] at hs
  by_cases c93 : c.val = 93
  · rw [if_pos c93] at hs
    cases hs
    exact ⟨tokensValid_append_other _ _ h (fun s e => Token.noConfusion e), trivial⟩
  rw [if_neg c93] at hs
  by_cases c58 : c.val = 58
  · rw [if_pos c58] at hs
    cases hs
    exact ⟨tokensValid_append_other _ _ h (fun s e => Token.noConfusion e), trivial⟩
  rw [if_neg c58] at hs
  by_cases c44 : c.val = 44
  · rw [if_pos c44] at hs
    cases hs
    exact ⟨tokensValid_append_other _ _ h (fun s e => Token.noConfusion e), trivial⟩
  rw [if_neg c44] at hs
  by_cases c34 : c.val = 34
  · rw [if_pos c34] at hs
    cases hs
    exact ⟨h, rfl⟩
  rw [if_neg c34] at hs
  by_cases e0 : c.val = 45
  · rw [if_pos e0] at hs
    cases hs
    exact ⟨h, trivial⟩
  rw [if_neg e0] at hs
  by_cases e1 : c.val = 48
  · rw [if_pos e1] at hs
    cases hs
    exact ⟨h, trivial⟩
  rw [if_neg e1] at hs
  by_cases e2 : isDigit c = true
  · rw [if_pos e2] at hs
    cases hs
    exact ⟨h, trivial⟩
  rw [if_neg e2] at hs
  by_cases e3 : c.val = 116
  · rw [if_pos e3] at hs
    cases hs
    exact ⟨h, fun s e => Token.noConfusion e⟩
  rw [if_neg e3] at hs
  by_cases e4 : c.val = 102
  · rw [if_pos e4] at hs
    cases hs
    exact ⟨h, fun s e => Token.noConfusion e⟩
  rw [if_neg e4] at hs
  by_cases c110 : c.val = 110
  · rw [if_pos c110] at hs
    cases hs
    exact ⟨h, fun s e => Token.noConfusion e⟩
  rw [if_neg c110] at hs
  cases hs

theorem stepStr_ok (toks : List Token) (acc : Str) (c : Byte) (l : Lex)
    (h : tokensValid toks) (ha : validUTF8 acc = true)
    (hs : stepStr toks acc c = some l) : l.ok := by
  unfold stepStr at hs
  split_ifs at hs with h1 h2 h3 h4 h5
  · cases hs
    exact ⟨tokensValid_append_str _ _ h ha, trivial⟩
  · cases hs
    exact ⟨h, ha⟩
  · cases hs
    exact ⟨h, validUTF8_append _ _ ha (validUTF8_ascii c h4)⟩
  · cases hs
    exact ⟨h, ha⟩
  · cases hs
    exact ⟨h, validUTF8_append _ _ ha validUTF8_replacement⟩

theorem stepMulti_ok (toks : List Token) (acc pend : Str) (c : Byte) (l : Lex)
    (h : tokensValid toks) (ha : validUTF8 acc = true)
    (hs : stepMulti toks acc pend c = some l) : l.ok := by
  unfold stepMulti at hs
  split_ifs at hs with h1 h2
  · cases hs
    exact ⟨h, validUTF8_append _ _ ha (validUTF8_rune _ h1)⟩
  · cases hs
    exact ⟨h, ha⟩
  · exact stepStr_ok toks _ c l h (validUTF8_append _ _ ha (validUTF8_replacements pend)) hs

theorem stepEsc_ok (toks : List Token) (acc : Str) (c : Byte) (l : Lex)
    (h : tokensValid toks) (ha : validUTF8 acc = true)
    (hs : stepEsc toks acc c = some l) : l.ok := by
  unfold stepEsc at hs
  split_ifs at hs with h1
  all_goals first
    | (cases hs; done)
    | (cases hs; exact ⟨h, ha⟩)
    | (cases hs; exact ⟨h, validUTF8_append _ _ ha (by decide)⟩)
    | (cases hs; exact ⟨h, validUTF8_append _ _ ha (validUTF8_ascii c (by omega))⟩)

theorem freshUnit_ok (acc : Str) (r : Nat) (ha : validUTF8 acc = true) :
    (freshUnit acc r).ok := by
  unfold freshUnit
  split_ifs
  · exact ha
  · exact validUTF8_append _ _ ha (validUTF8_encodeRune r)

theorem finishUnit_ok (acc : Str) (hi : Option Nat) (r : Nat) (ha : validUTF8 acc = true) :
    (finishUnit acc hi r).ok := by
  unfold finishUnit
  cases hi with
  | none => exact freshUnit_ok acc r ha
  | some h =>
    simp only
    split_ifs
    · exact validUTF8_append _ _ ha (validUTF8_encodeRune _)
    · exact freshUnit_ok _ r (validUTF8_append _ _ ha validUTF8_replacement)

theorem stepUni_ok (toks : List Token) (acc : Str) (hi : Option Nat) (k n : Nat) (c : Byte)
    (l : Lex) (h : tokensValid toks) (ha : validUTF8 acc = true)
    (hs : stepUni toks acc hi k n c = some l) : l.ok := by
  unfold stepUni at hs
  split at hs
  · cases hs
  · split_ifs at hs
    · cases hs
      exact ⟨h, ha⟩
    · cases hs
      exact ⟨h, finishUnit_ok acc hi _ ha⟩

theorem Lex.step_ok (l l' : Lex) (c : Byte) (h : l.ok) (hs : l.step c = some l') : l'.ok := by
  obtain ⟨toks, mode⟩ := l
  obtain ⟨ht, hm⟩ := h
  cases mode with
  | top => exact stepTop_ok toks c l' ht hs
  | inStr acc => exact stepStr_ok toks acc c l' ht hm hs
  | multi acc pend => exact stepMulti_ok toks acc pend c l' ht hm hs
  | esc acc => exact stepEsc_ok toks acc c l' ht hm hs
  | uni acc hi k n => exact stepUni_ok toks acc hi k n c l' ht hm hs
  | hiWait acc hi =>
    simp only [Lex.step] at hs
    split_ifs at hs
    · cases hs
      exact ⟨ht, hm⟩
    · exact stepStr_ok toks _ c l' ht (validUTF8_append _ _ hm validUTF8_replacement) hs
  | hiEsc acc hi =>
    simp only [Lex.step] at hs
    split_ifs at hs
    · cases hs
      exact ⟨ht, hm⟩
    · exact stepEsc_ok toks _ c l' ht (validUTF8_append _ _ hm validUTF8_replacement) hs
  | num st lit =>
    simp only [Lex.step] at hs
    split at hs
    · cases hs
      exact ⟨ht, trivial⟩
    · split_ifs at hs
      · exact stepTop_ok _ c l' (tokensValid_append_other _ _ ht
          (fun s e => Token.noConfusion e)) hs
  | lit rest tok =>
    simp only [Lex.step] at hs
    split at hs
    · cases hs
    · split_ifs at hs
      cases hs
      exact ⟨tokensValid_append_other _ _ ht hm, trivial⟩
    · split_ifs at hs
      cases hs
      exact ⟨ht, hm⟩


theorem Lex.feed_ok (cs : Str) (l l' : Lex) (h : l.ok) (hs : Lex.feed (some l) cs = some l') :
    l'.ok := by
  induction cs generalizing l with
  | nil =>
    simp only [Lex.feed, Option.some.injEq] at hs
    rw [← hs]; exact h
  | cons c cs ih =>
    rw [Lex.feed_cons] at hs
    cases hc : l.step c with
    | none =>
      rw [hc] at hs
      have : Lex.feed none cs = none := by
        clear hs ih
        induction cs with
        | nil => rfl
        | cons _ _ ih => simpa [Lex.feed] using ih
      rw [this] at hs
      cases hs
    | some l1 =>
      rw [hc] at hs
      exact ih l1 (Lex.step_ok l l1 c h hc) hs

theorem tokenize_valid (cs : Str) (ts : List Token) (h : tokenize cs = some ts) :
    tokensValid ts := by
  unfold tokenize at h
  split at h
  · cases h
  · rename_i l hl
    have hok : l.ok := Lex.feed_ok cs ⟨[], .top⟩ l
      ⟨fun s hs => absurd hs (List.not_mem_nil _), trivial⟩ hl
    obtain ⟨toks, mode⟩ := l
    cases mode with
    | top =>
      simp only [Lex.finish, Option.some.injEq] at h
      rw [← h]; exact hok.1
    | num st lit =>
      simp only [Lex.finish] at h
      split_ifs at h
      cases h
      exact tokensValid_append_other _ _ hok.1 (fun s e => Token.noConfusion e)
    | inStr _ => cases h
    | multi _ _ => cases h
    | esc _ => cases h
    | uni _ _ _ _ => cases h
    | hiWait _ _ => cases h
    | hiEsc _ _ => cases h
    | lit _ _ => cases h


theorem elemsValid_append (acc : List Json) (v : Json) (h : elemsValid acc)
    (hv : ∀ s, v = .str s → validUTF8 s = true) : elemsValid (acc ++ [v]) := by
  intro s hs
  rcases List.mem_append.1 hs with h1 | h1
  · exact h s h1
  · simp only [List.mem_singleton] at h1
    exact hv s h1.symm

theorem complete_ok (v : Json) (stk : List Frame) (hs : ∀ f ∈ stk, f.ok)
    (hv : ∀ s, v = .str s → validUTF8 s = true)
    (ha : ∀ xs, v = .arr xs → elemsValid xs) : (complete v stk).ok := by
  match stk, hs with
  | [], _ =>
    cases v with
    | arr xs => exact ha xs rfl
    | null => trivial
    | bool _ => trivial
    | num _ => trivial
    | str _ => trivial
    | obj _ => trivial
  | Frame.arr acc :: stk, hs =>
    exact ⟨fun f hf => hs f (by simp [hf]),
      elemsValid_append acc v (hs (Frame.arr acc) (by simp)) hv⟩
  | Frame.obj acc key :: stk, hs =>
    exact fun f hf => hs f (by simp [hf])

theorem stepValue_ok (stk : List Frame) (t : Token) (p : PState)
    (hs : ∀ f ∈ stk, f.ok) (ht : ∀ s, t = .str s → validUTF8 s = true)
    (h : stepValue stk t = some p) : p.ok := by
  cases t with
  | lbrack =>
    cases h
    intro f hf
    rcases List.mem_cons.1 hf with e | e
    · rw [e]; exact fun s hs => absurd hs (List.not_mem_nil _)
    · exact hs f e
  | lbrace => cases h; exact hs
  | str s =>
    cases h
    exact complete_ok _ stk hs (fun x e => by cases e; exact ht s rfl)
      (fun xs e => Json.noConfusion e)
  | num lit =>
    cases h
    exact complete_ok _ stk hs (fun x e => Json.noConfusion e) (fun xs e => Json.noConfusion e)
  | tru =>
    cases h
    exact complete_ok _ stk hs (fun x e => Json.noConfusion e) (fun xs e => Json.noConfusion e)
  | fls =>
    cases h
    exact complete_ok _ stk hs (fun x e => Json.noConfusion e) (fun xs e => Json.noConfusion e)
  | nul =>
    cases h
    exact complete_ok _ stk hs (fun x e => Json.noConfusion e) (fun xs e => Json.noConfusion e)
  | rbrace => cases h
  | rbrack => cases h
  | colon => cases h
  | comma => cases h

theorem PState.step_valid (p p' : PState) (t : Token) (hp : p.ok)
    (ht : ∀ s, t = .str s → validUTF8 s = true) (h : p.step t = some p') : p'.ok := by
  cases p with
  | value stk orEmpty =>
    simp only [PState.step] at h
    split at h
    · rename_i acc stk'
      cases h
      exact complete_ok _ stk' (fun f hf => hp f (by simp [hf]))
        (fun x e => Json.noConfusion e)
        (fun xs e => by cases e; exact hp (Frame.arr acc) (by simp))
    · exact stepValue_ok stk t p' hp ht h
  | key stk acc orEmpty =>
    cases t with
    | str s => cases h; exact hp
    | rbrace =>
      simp only [PState.step] at h
      split_ifs at h
      cases h
      exact complete_ok _ stk hp (fun x e => Json.noConfusion e)
        (fun xs e => Json.noConfusion e)
    | lbrace => cases h
    | lbrack => cases h
    | rbrack => cases h
    | colon => cases h
    | comma => cases h
    | num _ => cases h
    | tru => cases h
    | fls => cases h
    | nul => cases h
  | colon stk acc name =>
    cases t with
    | colon =>
      cases h
      intro f hf
      rcases List.mem_cons.1 hf with e | e
      · rw [e]; trivial
      · exact hp f e
    | str _ => cases h
    | rbrace => cases h
    | lbrace => cases h
    | lbrack => cases h
    | rbrack => cases h
    | comma => cases h
    | num _ => cases h
    | tru => cases h
    | fls => cases h
    | nul => cases h
  | endArr stk acc =>
    cases t with
    | comma =>
      cases h
      intro f hf
      rcases List.mem_cons.1 hf with e | e
      · rw [e]; exact hp.2
      · exact hp.1 f e
    | rbrack =>
      cases h
      exact complete_ok _ stk hp.1 (fun x e => Json.noConfusion e)
        (fun xs e => by cases e; exact hp.2)
    | str _ => cases h
    | rbrace => cases h
    | lbrace => cases h
    | lbrack => cases h
    | colon => cases h
    | num _ => cases h
    | tru => cases h
    | fls => cases h
    | nul => cases h
  | endObj stk acc =>
    cases t with
    | comma => cases h; exact hp
    | rbrace =>
      cases h
      exact complete_ok _ stk hp (fun x e => Json.noConfusion e)
        (fun xs e => Json.noConfusion e)
    | str _ => cases h
    | rbrack => cases h
    | lbrace => cases h
    | lbrack => cases h
    | colon => cases h
    | num _ => cases h
    | tru => cases h
    | fls => cases h
    | nul => cases h
  | done v => cases h

theorem PState.feed_valid (ts : List Token) (p p' : PState) (hp : p.ok) (ht : tokensValid ts)
    (h : PState.feed (some p) ts = some p') : p'.ok := by
  induction ts generalizing p with
  | nil =>
    simp only [PState.feed, Option.some.injEq] at h
    rw [← h]; exact hp
  | cons t ts ih =>
    rw [PState.feed_step] at h
    cases hc : p.step t with
    | none =>
      rw [hc] at h
      have : PState.feed none ts = none := by
        clear h ih ht
        induction ts with
        | nil => rfl
        | cons _ _ ih => simpa [PState.feed] using ih
      rw [this] at h
      cases h
    | some p1 =>
      rw [hc] at h
      exact ih p1 (PState.step_valid p p1 t hp (fun s e => ht s (by simp [e])) hc)
        (fun s hs => ht s (by simp [hs])) h

/-- Every text that `json.Unmarshal` stores into a `[]string` is well-formed UTF-8. -/
theorem unmarshal_valid (data : Str) (xs : List Str) (h : unmarshalStrings data = some xs) :
    allValid xs := by
  unfold unmarshalStrings at h
  split at h
  · rename_i ys hy
    cases h
    unfold Json.parse at hy
    split at hy
    · cases hy
    · rename_i ts hts
      have htv := tokenize_valid data ts hts
      unfold assemble at hy
      split at hy
      · rename_i v hv
        cases hy
        have hok : (PState.done (Json.arr ys)).ok :=
          PState.feed_valid ts (.value [] false) _ (fun f hf => absurd hf (List.not_mem_nil _))
            htv hv
        intro s hs
        obtain ⟨y, hy, rfl⟩ := List.mem_map.1 hs
        cases y with
        | str s' => exact hok s' hy
        | null => rfl
        | bool _ => rfl
        | num _ => rfl
        | arr _ => rfl
        | obj _ => rfl
      · cases hy
  · cases h

theorem allValid_getD_unmarshal (data : Str) : allValid ((unmarshalStrings data).getD []) := by
  cases h : unmarshalStrings data with
  | none => exact fun s hs => absurd hs (List.not_mem_nil _)
  | some xs => exact unmarshal_valid data xs h

/-! ## Lemmas on the ledger -/

theorem next_of_reliable {stub : Stub} (h : stub.reliable) : stub.next = (false, stub.tail) := by
  obtain ⟨st, fs⟩ := stub
  cases fs with
  | nil => rfl
  | cons b rest =>
    have hb : b = false := h b (by simp)
    subst hb
    rfl

theorem reliable_tail {stub : Stub} (h : stub.reliable) : stub.tail.reliable := by
  intro b hb
  exact h b (List.mem_of_mem_tail hb)

theorem reliable_put {stub : Stub} (h : stub.reliable) (k v : Str) :
    (stub.put k v).reliable := reliable_tail h

theorem reliable_del {stub : Stub} (h : stub.reliable) (k : Str) :
    (stub.del k).reliable := reliable_tail h

theorem GetState_of_reliable {stub : Stub} (h : stub.reliable) (key : Str) :
    GetState stub key = (stub.tail, stub.state key, none) := by
  simp [GetState, next_of_reliable h, Stub.tail]

theorem PutState_of_reliable {stub : Stub} (h : stub.reliable) (key value : Str) :
    PutState stub key value = (stub.put key value, none) := by
  simp [PutState, next_of_reliable h, Stub.put, Stub.tail]

theorem DelState_of_reliable {stub : Stub} (h : stub.reliable) (key : Str) :
    DelState stub key = (stub.del key, none) := by
  simp [DelState, next_of_reliable h, Stub.del, Stub.tail]

theorem len_le_zero (s : Str) : len s ≤ 0 ↔ s = [] := by
  cases s <;> simp [len]

theorem len_eq_zero (s : Str) : len s = 0 ↔ s = [] := by
  rw [← len_le_zero]; omega

/-! ## What each function does when every store call succeeds -/

theorem read_of_reliable {stub : Stub} (h : stub.reliable) (key : Str) :
    read stub [key] = (stub.tail, ⟨stub.state key, none⟩) := by
  simp [read, GetState_of_reliable h]

theorem Write_of_reliable {stub : Stub} (h : stub.reliable) (key value : Str) :
    Write stub [key, value] = (stub.put key value, ⟨none, none⟩) := by
  simp [Write, PutState_of_reliable h]

theorem Init_of_reliable {stub : Stub} (h : stub.reliable) (function arg : Str) (n : Int)
    (hn : Atoi arg = some n) :
    Init stub function [arg]
      = ((stub.put (utf8 "abc") (Itoa n)).put cprIndexStr (utf8 "null"), ⟨none, none⟩) := by
  simp [Init, hn, PutState_of_reliable h, PutState_of_reliable (reliable_put h _ _),
    marshalStrings]

theorem Delete_of_reliable {stub : Stub} (h : stub.reliable) (id : Str) :
    Delete stub [id]
      = ((stub.del id).tail.put cprIndexStr
          (marshalStrings (removeFromIndex id
            (unmarshalStrings (((stub.del id).state cprIndexStr).getD [])))),
         ⟨none, none⟩) := by
  simp [Delete, DelState_of_reliable h, GetState_of_reliable (reliable_del h _),
    PutState_of_reliable (reliable_tail (reliable_del h _))]

theorem init_cpr_of_reliable {stub : Stub} (h : stub.reliable) (id hash owner grower : Str)
    (h0 : id ≠ []) (h1 : hash ≠ []) (h2 : owner ≠ []) (h3 : grower ≠ []) :
    init_cpr stub [id, hash, owner, grower]
      = ((stub.put id (recordText id hash owner grower)).tail.put cprIndexStr
          (marshalStrings (appendString
            (unmarshalStrings
              (((stub.put id (recordText id hash owner grower)).state cprIndexStr).getD [])) id)),
         ⟨none, none⟩) := by
  simp [init_cpr, len_eq_zero, h0, h1, h2, h3, PutState_of_reliable h,
    GetState_of_reliable (reliable_put h _ _),
    PutState_of_reliable (reliable_tail (reliable_put h _ _))]

theorem set_user_of_reliable {stub : Stub} (h : stub.reliable) (id owner : Str) :
    set_user stub [id, owner] = (stub.tail.put id (utf8 "\x7b\x7d"), ⟨none, none⟩) := by
  simp [set_user, GetState_of_reliable h, PutState_of_reliable (reliable_tail h), marshalCpr]


/-! ## The loop of `Delete` -/

theorem removeScan_eq (name : Str) (pre rest : List Str) (h : name ∉ pre) :
    removeScan name (pre ++ rest) pre.length rest = pre ++ rest.erase name := by
  induction rest generalizing pre with
  | nil => simp [removeScan]
  | cons val rest ih =>
    by_cases hv : val = name
    · subst hv
      simp [removeScan, List.take_append_eq_append_take, List.drop_append_eq_append_drop]
    · have hn : name ∉ pre ++ [val] := by
        simp only [List.mem_append, List.mem_singleton, not_or]
        exact ⟨h, fun e => hv e.symm⟩
      have := ih (pre ++ [val]) hn
      simp only [List.append_assoc, List.singleton_append, List.length_append,
        List.length_singleton] at this
      simp [removeScan, hv, this, List.erase_cons_tail]

theorem removeScan_erase (name : Str) (xs : List Str) :
    removeScan name xs 0 xs = xs.erase name := by
  simpa using removeScan_eq name [] xs (by simp)

theorem removeFromIndex_getD (name : Str) (v : Option (List Str)) :
    (removeFromIndex name v).getD [] = (v.getD []).erase name := by
  cases v with
  | none => rfl
  | some xs => simp [removeFromIndex, removeScan_erase]

theorem appendString_getD (v : Option (List Str)) (id : Str) :
    (appendString v id).getD [] = v.getD [] ++ [id] := by
  cases v <;> simp [appendString]


/-! ## Plain text inside a string literal -/

theorem feed_plainRune (toks : List Token) (acc u : Str) (hu : isRune u = true)
    (hp : ∀ c ∈ u, plainChar c) :
    Lex.feed (some ⟨toks, .inStr acc⟩) u = some ⟨toks, .inStr (acc ++ u)⟩ := by
  match u, hu with
  | [], hu => simp [isRune] at hu
  | [c], hu =>
    obtain ⟨h1, h2, h3⟩ := hp c (by simp)
    have h4 : ¬ c.val < 32 := by omega
    have h5 : c.val < 128 := by simpa [isRune] using hu
    have e : Lex.step ⟨toks, .inStr acc⟩ c = some ⟨toks, .inStr (acc ++ [c])⟩ := by
      simp [Lex.step, stepStr, h1, h2, h4, h5]
    rw [Lex.feed_cons, e]
    rfl
  | b0 :: b1 :: rest, hu => exact feed_rune toks acc _ hu (by simp)

theorem feed_plainText (toks : List Token) (s : Str) (h : plainText s) :
    ∀ acc, Lex.feed (some ⟨toks, .inStr acc⟩) s = some ⟨toks, .inStr (acc ++ s)⟩ := by
  obtain ⟨hv, hp⟩ := h
  revert hp
  refine validUTF8_induction (P := fun s => (∀ c ∈ s, plainChar c) → ∀ acc,
    Lex.feed (some ⟨toks, .inStr acc⟩) s = some ⟨toks, .inStr (acc ++ s)⟩) ?_ ?_ s hv
  · intro _ acc
    simp [Lex.feed]
  · intro u rest hu _ ih hp acc
    rw [Lex.feed_append, feed_plainRune toks acc u hu (fun c hc => hp c (by simp [hc])),
      ih (fun c hc => hp c (by simp [hc])), List.append_assoc]

theorem tokenize_recordText (id hash owner grower : Str) (h0 : plainText id)
    (h1 : plainText hash) (h2 : plainText owner) (h3 : plainText grower) :
    tokenize (recordText id hash owner grower)
      = some [.lbrace, .str (utf8 "id"), .colon, .str id, .comma, .str (utf8 "hash"),
          .colon, .str hash, .comma, .str (utf8 "owner"), .colon, .str owner, .comma,
          .str (utf8 "grower"), .colon, .str grower, .rbrace] := by
  have e0 : Lex.feed (some ⟨[], .top⟩) (utf8 "\x7b\"id\": \"")
      = some ⟨[.lbrace, .str (utf8 "id"), .colon], .inStr []⟩ := rfl
  have e1 : ∀ toks acc, Lex.feed (some ⟨toks, .inStr acc⟩) (utf8 "\", \"hash\": \"")
      = some ⟨toks ++ [.str acc] ++ [.comma] ++ [.str (utf8 "hash")] ++ [.colon],
          .inStr []⟩ := fun _ _ => rfl
  have e2 : ∀ toks acc, Lex.feed (some ⟨toks, .inStr acc⟩) (utf8 "\",  \"owner\": \"")
      = some ⟨toks ++ [.str acc] ++ [.comma] ++ [.str (utf8 "owner")] ++ [.colon],
          .inStr []⟩ := fun _ _ => rfl
  have e3 : ∀ toks acc, Lex.feed (some ⟨toks, .inStr acc⟩) (utf8 "\", \"grower\": \"")
      = some ⟨toks ++ [.str acc] ++ [.comma] ++ [.str (utf8 "grower")] ++ [.colon],
          .inStr []⟩ := fun _ _ => rfl
  have e4 : ∀ toks acc, Lex.feed (some ⟨toks, .inStr acc⟩) (utf8 "\"\x7d")
      = some ⟨toks ++ [.str acc] ++ [.rbrace], .top⟩ := fun _ _ => rfl
  simp only [tokenize, recordText, List.append_assoc]
  rw [Lex.feed_append, e0, Lex.feed_append, feed_plainText _ _ h0, Lex.feed_append, e1,
    Lex.feed_append, feed_plainText _ _ h1, Lex.feed_append, e2,
    Lex.feed_append, feed_plainText _ _ h2, Lex.feed_append, e3,
    Lex.feed_append, feed_plainText _ _ h3, e4]
  simp [Lex.finish]

theorem parse_recordText (id hash owner grower : Str) (h0 : plainText id)
    (h1 : plainText hash) (h2 : plainText owner) (h3 : plainText grower) :
    Json.parse (recordText id hash owner grower)
      = some (.obj [(utf8 "id", .str id), (utf8 "hash", .str hash),
          (utf8 "owner", .str owner), (utf8 "grower", .str grower)]) := by
  simp only [Json.parse, tokenize_recordText id hash owner grower h0 h1 h2 h3]
  rfl

theorem decodes_recordText (id hash owner grower : Str) (h0 : plainText id)
    (h1 : plainText hash) (h2 : plainText owner) (h3 : plainText grower) :
    decodesToRecord (some (recordText id hash owner grower)) id hash owner grower = true := by
  have k1 : utf8 "hash" ≠ utf8 "id" := by decide
  have k2 : utf8 "owner" ≠ utf8 "id" := by decide
  have k3 : utf8 "grower" ≠ utf8 "id" := by decide
  have k4 : utf8 "owner" ≠ utf8 "hash" := by decide
  have k5 : utf8 "grower" ≠ utf8 "hash" := by decide
  have k6 : utf8 "grower" ≠ utf8 "owner" := by decide
  simp [decodesToRecord, parse_recordText id hash owner grower h0 h1 h2 h3, Json.isObject,
    Json.field, List.find?, k1, k2, k3, k4, k5, k6]

/-! ## `strconv`: `Atoi` reads back what `Itoa` writes -/

theorem digitVal_digitChar (d : Nat) (h : d < 10) : digitVal (digitChar d) = some d := by
  interval_cases d <;> decide

theorem digitChar_not_sign (d : Nat) (h : d < 10) :
    ¬ ((digitChar d).val = 45 ∨ (digitChar d).val = 43) := by
  interval_cases d <;> decide

theorem parseDigits_formatDigits (fuel n : Nat) (acc : Str) (h : n < fuel) (a : Nat) :
    ∃ k, parseDigits (formatDigits fuel n acc) a = parseDigits acc (a * 10 ^ k + n) := by
  induction fuel generalizing n acc a with
  | zero => omega
  | succ fuel ih =>
    by_cases hn : n < 10
    · refine ⟨1, ?_⟩
      simp [formatDigits, hn, parseDigits, digitVal_digitChar n hn]
    · obtain ⟨k, hk⟩ := ih (n / 10) (digitChar (n % 10) :: acc) (by omega) a
      refine ⟨k + 1, ?_⟩
      have hd := digitVal_digitChar (n % 10) (by omega)
      simp only [formatDigits, hn, if_false, hk, parseDigits, hd]
      congr 1
      rw [pow_succ]
      have := Nat.div_add_mod n 10
      nlinarith

theorem formatDigits_head (fuel n : Nat) (acc : Str) (h : n < fuel) :
    ∃ d rest, d < 10 ∧ formatDigits fuel n acc = digitChar d :: rest := by
  induction fuel generalizing n acc with
  | zero => omega
  | succ fuel ih =>
    by_cases hn : n < 10
    · exact ⟨n, acc, hn, by simp [formatDigits, hn]⟩
    · obtain ⟨d, rest, hd, e⟩ := ih (n / 10) (digitChar (n % 10) :: acc) (by omega)
      exact ⟨d, rest, hd, by simp [formatDigits, hn, e]⟩

theorem parseDigits_formatNat (n : Nat) : parseDigits (formatNat n) 0 = some n := by
  obtain ⟨k, hk⟩ := parseDigits_formatDigits (n + 1) n [] (by omega) 0
  simp [formatNat, hk, parseDigits]

theorem Atoi_minus (ds : Str) (n : Nat) (h0 : ds ≠ [])
    (hp : parseDigits ds 0 = some n) (hb : n ≤ 2 ^ 63) :
    Atoi (45 :: ds) = some (-(n : Int)) := by
  have hb' : n ≤ 9223372036854775808 := by norm_num at hb; exact hb
  have e : ((45 : Byte).val = 45) := rfl
  simp only [Atoi, e, true_or, if_true, if_neg h0, hp, intSize, decide_True]
  simp [hb']

theorem Atoi_unsigned (c : Byte) (rest : Str) (n : Nat)
    (hs : ¬ (c.val = 45 ∨ c.val = 43)) (hp : parseDigits (c :: rest) 0 = some n)
    (hb : n < 2 ^ 63) :
    Atoi (c :: rest) = some (n : Int) := by
  have hm : ¬ c.val = 45 := fun h => hs (Or.inl h)
  have hb' : n < 9223372036854775808 := by norm_num at hb; exact hb
  have hq : ¬ c.val = 43 := fun h => hs (Or.inr h)
  simp [Atoi, hm, hq, hp, intSize, hb']

/-- `Atoi` reads back the integer that `Itoa` wrote, for every integer of the range of
Go's `int`. -/
theorem Atoi_Itoa (i : Int) (hlo : -(2 ^ 63 : Int) ≤ i) (hhi : i < 2 ^ 63) :
    Atoi (Itoa i) = some i := by
  obtain ⟨d, rest, hd, e⟩ := formatDigits_head (i.natAbs + 1) i.natAbs [] (by omega)
  have hp := parseDigits_formatNat i.natAbs
  have e' : formatNat i.natAbs = digitChar d :: rest := e
  by_cases hneg : i < 0
  · have hb : i.natAbs ≤ 2 ^ 63 := by omega
    have hi : -(i.natAbs : Int) = i := by omega
    have := Atoi_minus (formatNat i.natAbs) i.natAbs (by simp [e']) hp hb
    rw [hi] at this
    simpa [Itoa, hneg] using this
  · have hb : i.natAbs < 2 ^ 63 := by omega
    have hi : (i.natAbs : Int) = i := by omega
    rw [e'] at hp
    have := Atoi_unsigned (digitChar d) rest i.natAbs (digitChar_not_sign d hd) hp hb
    rw [hi] at this
    simpa [Itoa, hneg, e'] using this


/-! ## The index across store writes -/

theorem indexOf_put_index (stub : Stub) (v : Option (List Str))
    (hv : allValid (v.getD [])) :
    indexOf (stub.put cprIndexStr (marshalStrings v)) = v.getD [] := by
  simp [indexOf, Stub.put, unmarshal_marshal v hv]

theorem allValid_indexOf (stub : Stub) : allValid (indexOf stub) :=
  allValid_getD_unmarshal _

theorem allValid_append (xs : List Str) (id : Str) (hx : allValid xs)
    (hid : validUTF8 id = true) : allValid (xs ++ [id]) := by
  intro s hs
  rcases List.mem_append.mp hs with h | h
  · exact hx s h
  · rw [List.mem_singleton.mp h]
    exact hid

theorem allValid_erase (xs : List Str) (id : Str) (hx : allValid xs) :
    allValid (xs.erase id) :=
  fun s hs => hx s (List.mem_of_mem_erase hs)

theorem indexOf_put_other (stub : Stub) (k v : Str) (h : k ≠ cprIndexStr) :
    indexOf (stub.put k v) = indexOf stub := by
  have h' : cprIndexStr ≠ k := fun e => h e.symm
  simp [indexOf, Stub.put, h']

theorem indexOf_del_other (stub : Stub) (k : Str) (h : k ≠ cprIndexStr) :
    indexOf (stub.del k) = indexOf stub := by
  have h' : cprIndexStr ≠ k := fun e => h e.symm
  simp [indexOf, Stub.del, h']

theorem indexOf_tail (stub : Stub) : indexOf stub.tail = indexOf stub := rfl

theorem V1.init_cpr3_of_reliable {stub : Stub} (h : stub.reliable) (id hash owner : Str)
    (h0 : id ≠ []) (h1 : hash ≠ []) (h2 : owner ≠ []) :
    V1.init_cpr stub [id, hash, owner]
      = ((stub.put id (V1.recordText id hash owner)).tail.put cprIndexStr
          (marshalStrings (appendString
            (unmarshalStrings
              (((stub.put id (V1.recordText id hash owner)).state cprIndexStr).getD [])) id)),
         ⟨none, none⟩) := by
  simp [V1.init_cpr, len_eq_zero, h0, h1, h2, PutState_of_reliable h,
    GetState_of_reliable (reliable_put h _ _),
    PutState_of_reliable (reliable_tail (reliable_put h _ _))]

theorem V1.init_of_reliable {stub : Stub} (h : stub.reliable) (arg : Str) (n : Int)
    (hn : Atoi arg = some n) :
    V1.init stub [arg]
      = ((stub.put (utf8 "abc") (Itoa n)).put cprIndexStr (utf8 "null"), ⟨none, none⟩) := by
  simp [V1.init, hn, PutState_of_reliable h, PutState_of_reliable (reliable_put h _ _),
    marshalStrings]

theorem init_cpr_index {stub : Stub} (h : stub.reliable) (id hash owner grower : Str)
    (h0 : id ≠ []) (h1 : hash ≠ []) (h2 : owner ≠ []) (h3 : grower ≠ [])
    (hid : id ≠ cprIndexStr) (hv : validUTF8 id = true) :
    indexOf (init_cpr stub [id, hash, owner, grower]).1 = indexOf stub ++ [id] := by
  rw [init_cpr_of_reliable h id hash owner grower h0 h1 h2 h3]
  rw [indexOf_put_index _ _ (by
    rw [appendString_getD]
    exact allValid_append _ _ (allValid_getD_unmarshal _) hv), appendString_getD]
  rw [← indexOf_put_other stub id (recordText id hash owner grower) hid]
  rfl

theorem V1.init_cpr3_index {stub : Stub} (h : stub.reliable) (id hash owner : Str)
    (h0 : id ≠ []) (h1 : hash ≠ []) (h2 : owner ≠ []) (hid : id ≠ cprIndexStr)
    (hv : validUTF8 id = true) :
    indexOf (V1.init_cpr stub [id, hash, owner]).1 = indexOf stub ++ [id] := by
  rw [V1.init_cpr3_of_reliable h id hash owner h0 h1 h2]
  rw [indexOf_put_index _ _ (by
    rw [appendString_getD]
    exact allValid_append _ _ (allValid_getD_unmarshal _) hv), appendString_getD]
  rw [← indexOf_put_other stub id (V1.recordText id hash owner) hid]
  rfl

theorem Delete_index {stub : Stub} (h : stub.reliable) (id : Str)
    (hid : id ≠ cprIndexStr) :
    indexOf (Delete stub [id]).1 = (indexOf stub).erase id := by
  rw [Delete_of_reliable h id]
  rw [indexOf_put_index _ _ (by
    rw [removeFromIndex_getD]
    exact allValid_erase _ _ (allValid_getD_unmarshal _)), removeFromIndex_getD]
  rw [← indexOf_del_other stub id hid]
  rfl

theorem init_cpr_state {stub : Stub} (h : stub.reliable) (id hash owner grower : Str)
    (h0 : id ≠ []) (h1 : hash ≠ []) (h2 : owner ≠ []) (h3 : grower ≠ []) (k : Str)
    (hk : k ≠ cprIndexStr) :
    (init_cpr stub [id, hash, owner, grower]).1.state k
      = if k = id then some (recordText id hash owner grower) else stub.state k := by
  rw [init_cpr_of_reliable h id hash owner grower h0 h1 h2 h3]
  simp [Stub.put, Stub.tail, hk]

theorem Delete_state {stub : Stub} (h : stub.reliable) (id k : Str)
    (hk : k ≠ cprIndexStr) :
    (Delete stub [id]).1.state k = if k = id then none else stub.state k := by
  rw [Delete_of_reliable h id]
  simp [Stub.put, Stub.tail, Stub.del, hk]

theorem set_user_of_reliable_args {stub : Stub} (h : stub.reliable) (args : List Str)
    (hl : 2 ≤ args.length) :
    set_user stub args = (stub.tail.put (args.getD 0 []) (utf8 "\x7b\x7d"), ⟨none, none⟩) := by
  have hl' : ¬ args.length < 2 := by omega
  simp [set_user, hl', GetState_of_reliable h, PutState_of_reliable (reliable_tail h),
    marshalCpr]

/-! ## What a successful call tells about its arguments -/

theorem Init_success {stub : Stub} {function : Str} {args : List Str}
    (hs : (Init stub function args).2.err = none) :
    ∃ arg n, args = [arg] ∧ Atoi arg = some n := by
  match args with
  | [] => simp [Init] at hs
  | [arg] =>
    cases hn : Atoi arg with
    | none => simp [Init, hn] at hs
    | some n => exact ⟨arg, n, rfl, hn⟩
  | _ :: _ :: _ => simp [Init] at hs

theorem Delete_success {stub : Stub} {args : List Str}
    (hs : (Delete stub args).2.err = none) : ∃ id, args = [id] := by
  match args with
  | [] => simp [Delete] at hs
  | [id] => exact ⟨id, rfl⟩
  | _ :: _ :: _ => simp [Delete] at hs

theorem set_user_success {stub : Stub} {args : List Str}
    (hs : (set_user stub args).2.err = none) : 2 ≤ args.length := by
  by_contra hl
  have hl' : args.length < 2 := by omega
  simp [set_user, hl'] at hs

theorem init_cpr_success {stub : Stub} {args : List Str}
    (hs : (init_cpr stub args).2.err = none) :
    ∃ id hash owner grower, args = [id, hash, owner, grower] ∧ id ≠ [] ∧ hash ≠ [] ∧
      owner ≠ [] ∧ grower ≠ [] := by
  match args with
  | [id, hash, owner, grower] =>
    refine ⟨id, hash, owner, grower, rfl, ?_, ?_, ?_, ?_⟩ <;>
    · intro e
      subst e
      simp only [init_cpr, len_eq_zero] at hs
      split_ifs at hs
      simp_all [len_eq_zero]
  | [] => simp [init_cpr] at hs
  | [_] => simp [init_cpr] at hs
  | [_, _] => simp [init_cpr] at hs
  | [_, _, _] => simp [init_cpr] at hs
  | _ :: _ :: _ :: _ :: _ :: _ => simp [init_cpr] at hs


theorem Atoi_range (s : Str) (n : Int) (h : Atoi s = some n) :
    -(2 ^ 63 : Int) ≤ n ∧ n < 2 ^ 63 := by
  unfold Atoi at h
  simp only [intSize] at h
  repeat' split at h
  all_goals first
    | (simp at h; done)
    | (rename_i m _ _ hm
       simp only [Option.some.injEq] at h
       subst h
       norm_num at hm
       constructor <;> push_cast <;> omega)


/-! ## The invariant of guarded use -/

theorem hasRecord_iff (stub : Stub) (k : Str) :
    hasRecord stub k = true ↔ k ≠ utf8 "abc" ∧ k ≠ cprIndexStr ∧ stub.state k ≠ none := by
  simp [hasRecord, Option.isSome_iff_ne_none, and_assoc]

/-- What guarded use keeps: the store calls succeed, the index has no duplicate, and it
holds exactly the ids with a record. -/
theorem guarded_invariant {stub : Stub} (h : Guarded stub) :
    stub.reliable ∧ (indexOf stub).Nodup ∧ ∀ k, k ∈ indexOf stub ↔ hasRecord stub k = true := by
  induction h with
  | init stub function args hr hb hs =>
    obtain ⟨arg, n, rfl, hn⟩ := Init_success hs
    rw [Init_of_reliable hr function arg n hn]
    have hi : indexOf ((stub.put (utf8 "abc") (Itoa n)).put cprIndexStr (utf8 "null")) = [] :=
      indexOf_put_index _ none (fun _ hs => absurd hs (List.not_mem_nil _))
    refine ⟨reliable_put (reliable_put hr _ _) _ _, by rw [hi]; exact List.nodup_nil, ?_⟩
    intro k
    rw [hi, hasRecord_iff]
    constructor
    · intro hk; exact absurd hk (List.not_mem_nil k)
    · rintro ⟨h1, h2, h3⟩
      exact absurd (by simp [Stub.put, h1, h2, hb k h1 h2]) h3
  | create stub args _ hs hv ha hi hn ih =>
    obtain ⟨hr, hd, hx⟩ := ih
    obtain ⟨id, hash, owner, grower, rfl, h0, h1, h2, h3⟩ := init_cpr_success hs
    simp only [List.getD_cons_zero] at hv ha hi hn
    have e := init_cpr_index hr id hash owner grower h0 h1 h2 h3 hi hv
    refine ⟨?_, ?_, ?_⟩
    · rw [init_cpr_of_reliable hr id hash owner grower h0 h1 h2 h3]
      exact reliable_put (reliable_tail (reliable_put hr _ _)) _ _
    · rw [e]
      exact List.Nodup.append hd (List.nodup_singleton id) (by simpa using hn)
    · intro k
      rw [e, hasRecord_iff]
      by_cases hk : k = cprIndexStr
      · subst hk
        have : cprIndexStr ∉ indexOf stub := fun hm =>
          ((hasRecord_iff _ _).1 ((hx _).1 hm)).2.1 rfl
        simp [this, Ne.symm hi]
      · rw [init_cpr_state hr id hash owner grower h0 h1 h2 h3 k hk]
        by_cases hki : k = id
        · subst hki
          simp [ha, hk]
        · simp only [List.mem_append, List.mem_singleton, hki, or_false, if_false]
          rw [hx k, hasRecord_iff]
  | setUser stub args _ hs hm ih =>
    obtain ⟨hr, hd, hx⟩ := ih
    have hl := set_user_success hs
    have hrec := (hasRecord_iff _ _).1 ((hx _).1 hm)
    rw [set_user_of_reliable_args hr args hl]
    generalize args.getD 0 [] = id at hm hrec ⊢
    have e : indexOf (stub.tail.put id (utf8 "\x7b\x7d")) = indexOf stub := by
      rw [indexOf_put_other _ _ _ hrec.2.1, indexOf_tail]
    refine ⟨reliable_put (reliable_tail hr) _ _, by rw [e]; exact hd, ?_⟩
    intro k
    rw [e, hx k, hasRecord_iff, hasRecord_iff]
    by_cases hki : k = id
    · subst hki
      simp [Stub.put, hrec.1, hrec.2.1, hrec.2.2]
    · simp [Stub.put, Stub.tail, hki]
  | delete stub args _ hs hi ih =>
    obtain ⟨hr, hd, hx⟩ := ih
    obtain ⟨id, rfl⟩ := Delete_success hs
    simp only [List.getD_cons_zero] at hi
    have e := Delete_index hr id hi
    refine ⟨?_, by rw [e]; exact hd.erase id, ?_⟩
    · rw [Delete_of_reliable hr id]
      exact reliable_put (reliable_tail (reliable_del hr _)) _ _
    · intro k
      rw [e, hd.mem_erase_iff, hx k, hasRecord_iff, hasRecord_iff]
      by_cases hk : k = cprIndexStr
      · simp [hk]
      · rw [Delete_state hr id k hk]
        by_cases hki : k = id
        · simp [hki]
        · simp [hki]


/-! ## Store calls under any schedule -/

theorem next_eq (stub : Stub) : stub.next = (stub.fails 0, stub.tail) := by
  obtain ⟨st, fs⟩ := stub
  cases fs <;> rfl

theorem fails_tail (stub : Stub) (i : Nat) : stub.tail.fails i = stub.fails (i + 1) := by
  obtain ⟨st, fs⟩ := stub
  cases fs <;> simp [Stub.fails, Stub.tail]

theorem fails_put (stub : Stub) (k v : Str) (i : Nat) :
    (stub.put k v).fails i = stub.fails (i + 1) := fails_tail stub i

theorem fails_del (stub : Stub) (k : Str) (i : Nat) :
    (stub.del k).fails i = stub.fails (i + 1) := fails_tail stub i

theorem GetState_eq (stub : Stub) (key : Str) :
    GetState stub key
      = if stub.fails 0 then (stub.tail, none, some storeFailure)
        else (stub.tail, stub.state key, none) := by
  simp only [GetState, next_eq]
  split_ifs <;> rfl

theorem PutState_eq (stub : Stub) (key value : Str) :
    PutState stub key value
      = if stub.fails 0 then (stub.tail, some storeFailure) else (stub.put key value, none) := by
  simp only [PutState, next_eq]
  split_ifs <;> rfl

theorem DelState_eq (stub : Stub) (key : Str) :
    DelState stub key
      = if stub.fails 0 then (stub.tail, some storeFailure) else (stub.del key, none) := by
  simp only [DelState, next_eq]
  split_ifs <;> rfl

theorem state_tail (stub : Stub) : stub.tail.state = stub.state := rfl

/-! ## The functions under any schedule -/

theorem read_eq (stub : Stub) (key : Str) :
    read stub [key]
      = if stub.fails 0 then
          (stub.tail, ⟨none, some (utf8 "\x7b\"Error\":\"Failed to get state for " ++ key
            ++ utf8 "\"\x7d")⟩)
        else (stub.tail, ⟨stub.state key, none⟩) := by
  simp only [read, GetState_eq]
  split_ifs <;> simp_all

theorem Delete_eq (stub : Stub) (id : Str) :
    Delete stub [id]
      = if stub.fails 0 then (stub.tail, ⟨none, some (utf8 "Failed to delete state")⟩)
        else if stub.fails 1 then
          ((stub.del id).tail, ⟨none, some (utf8 "Failed to get cpr index")⟩)
        else
          ((PutState (stub.del id).tail cprIndexStr
              (marshalStrings (removeFromIndex id
                (unmarshalStrings (((stub.del id).state cprIndexStr).getD []))))).1,
            ⟨none, none⟩) := by
  simp only [Delete, DelState_eq, GetState_eq, fails_del]
  split_ifs <;> simp_all [fails_del]

theorem init_cpr_eq (stub : Stub) (id hash owner grower : Str)
    (h0 : id ≠ []) (h1 : hash ≠ []) (h2 : owner ≠ []) (h3 : grower ≠ []) :
    init_cpr stub [id, hash, owner, grower]
      = if stub.fails 0 then (stub.tail, ⟨none, some storeFailure⟩)
        else if stub.fails 1 then
          ((stub.put id (recordText id hash owner grower)).tail,
            ⟨none, some (utf8 "Failed to get cpr index")⟩)
        else
          ((PutState (stub.put id (recordText id hash owner grower)).tail cprIndexStr
              (marshalStrings (appendString (unmarshalStrings
                (((stub.put id (recordText id hash owner grower)).state
                  cprIndexStr).getD [])) id))).1,
            ⟨none, none⟩) := by
  simp only [init_cpr, PutState_eq, GetState_eq]
  split_ifs <;> simp_all [fails_put, len_eq_zero]

theorem V1.init_cpr3_eq (stub : Stub) (id hash owner : Str)
    (h0 : id ≠ []) (h1 : hash ≠ []) (h2 : owner ≠ []) :
    V1.init_cpr stub [id, hash, owner]
      = if stub.fails 0 then (stub.tail, ⟨none, some storeFailure⟩)
        else if stub.fails 1 then
          ((stub.put id (V1.recordText id hash owner)).tail,
            ⟨none, some (utf8 "Failed to get cpr index")⟩)
        else
          ((PutState (stub.put id (V1.recordText id hash owner)).tail cprIndexStr
              (marshalStrings (appendString (unmarshalStrings
                (((stub.put id (V1.recordText id hash owner)).state
                  cprIndexStr).getD [])) id))).1,
            ⟨none, none⟩) := by
  simp only [V1.init_cpr, PutState_eq, GetState_eq]
  split_ifs <;> simp_all [fails_put, len_eq_zero]

theorem Init_eq (stub : Stub) (function arg : Str) (n : Int) (hn : Atoi arg = some n) :
    Init stub function [arg]
      = if stub.fails 0 then (stub.tail, ⟨none, some storeFailure⟩)
        else if stub.fails 1 then ((stub.put (utf8 "abc") (Itoa n)).tail, ⟨none, some storeFailure⟩)
        else ((stub.put (utf8 "abc") (Itoa n)).put cprIndexStr (utf8 "null"), ⟨none, none⟩) := by
  simp only [Init, PutState_eq]
  split_ifs <;> simp_all [fails_put, marshalStrings]

theorem V1.init_eq (stub : Stub) (arg : Str) (n : Int) (hn : Atoi arg = some n) :
    V1.init stub [arg]
      = if stub.fails 0 then (stub.tail, ⟨none, some storeFailure⟩)
        else if stub.fails 1 then ((stub.put (utf8 "abc") (Itoa n)).tail, ⟨none, some storeFailure⟩)
        else ((stub.put (utf8 "abc") (Itoa n)).put cprIndexStr (utf8 "null"), ⟨none, none⟩) := by
  simp only [V1.init, PutState_eq]
  split_ifs <;> simp_all [fails_put, marshalStrings]


/-! ## The argument checks of `init_cpr` -/

theorem init_cpr_invalid (stub : Stub) (args : List Str)
    (h : args.length ≠ 4 ∨ [] ∈ args) :
    (init_cpr stub args).1 = stub ∧
    ∃ e ∈ argumentErrors, (init_cpr stub args).2 = ⟨none, some e⟩ := by
  by_cases hl : args.length = 4
  · match args, hl with
    | [a, b, c, d], _ =>
      have hm : [] ∈ [a, b, c, d] := h.resolve_left (by simp)
      simp only [init_cpr, len_le_zero, List.length_cons, List.length_nil,
        List.getD_cons_zero, List.getD_cons_succ]
      split_ifs with h1 h2 h3 h4 h5
      · exact absurd rfl h1
      · exact ⟨rfl, _, by simp [argumentErrors, utf8s], rfl⟩
      · exact ⟨rfl, _, by simp [argumentErrors, utf8s], rfl⟩
      · exact ⟨rfl, _, by simp [argumentErrors, utf8s], rfl⟩
      · exact ⟨rfl, _, by simp [argumentErrors, utf8s], rfl⟩
      · simp only [List.mem_cons, List.mem_singleton, List.not_mem_nil, or_false] at hm
        rcases hm with e | e | e | e
        · exact absurd e.symm h2
        · exact absurd e.symm h3
        · exact absurd e.symm h4
        · exact absurd e.symm h5
  · have e : init_cpr stub args
        = (stub, ⟨none, some (utf8 "Incorrect number of arguments. Expecting 4")⟩) := by
      simp [init_cpr, hl]
    rw [e]
    exact ⟨rfl, _, by simp [argumentErrors, utf8s], rfl⟩

theorem V1.init_cpr3_invalid (stub : Stub) (args : List Str)
    (h : args.length ≠ 3 ∨ [] ∈ args) :
    (V1.init_cpr stub args).1 = stub ∧
    ∃ e ∈ argumentErrors, (V1.init_cpr stub args).2 = ⟨none, some e⟩ := by
  by_cases hl : args.length = 3
  · match args, hl with
    | [a, b, c], _ =>
      have hm : [] ∈ [a, b, c] := h.resolve_left (by simp)
      simp only [V1.init_cpr, len_le_zero, List.length_cons, List.length_nil,
        List.getD_cons_zero, List.getD_cons_succ]
      split_ifs with h1 h2 h3 h4
      · exact absurd rfl h1
      · exact ⟨rfl, _, by simp [argumentErrors, utf8s], rfl⟩
      · exact ⟨rfl, _, by simp [argumentErrors, utf8s], rfl⟩
      · exact ⟨rfl, _, by simp [argumentErrors, utf8s], rfl⟩
      · simp only [List.mem_cons, List.mem_singleton, List.not_mem_nil, or_false] at hm
        rcases hm with e | e | e
        · exact absurd e.symm h2
        · exact absurd e.symm h3
        · exact absurd e.symm h4
  · have e : V1.init_cpr stub args
        = (stub, ⟨none, some (utf8 "Incorrect number of arguments. Expecting 2")⟩) := by
      simp [V1.init_cpr, hl]
    rw [e]
    exact ⟨rfl, _, by simp [argumentErrors, utf8s], rfl⟩

theorem storeFailure_not_argument : ∀ e ∈ argumentErrors, storeFailure ≠ e := by
  decide

theorem indexFailure_not_argument :
    ∀ e ∈ argumentErrors, utf8 "Failed to get cpr index" ≠ e := by
  decide

theorem init_cpr_valid (stub : Stub) (id hash owner grower : Str)
    (h0 : id ≠ []) (h1 : hash ≠ []) (h2 : owner ≠ []) (h3 : grower ≠ []) :
    (∀ e ∈ argumentErrors, (init_cpr stub [id, hash, owner, grower]).2.err ≠ some e) := by
  rw [init_cpr_eq stub id hash owner grower h0 h1 h2 h3]
  intro e he
  have hne := storeFailure_not_argument e he
  have hni := indexFailure_not_argument e he
  split_ifs <;> first
    | (simp; done)
    | (simpa using hne)
    | (simpa using hni)

theorem V1.init_cpr3_valid (stub : Stub) (id hash owner : Str)
    (h0 : id ≠ []) (h1 : hash ≠ []) (h2 : owner ≠ []) :
    (∀ e ∈ argumentErrors, (V1.init_cpr stub [id, hash, owner]).2.err ≠ some e) := by
  rw [V1.init_cpr3_eq stub id hash owner h0 h1 h2]
  intro e he
  have hne := storeFailure_not_argument e he
  have hni := indexFailure_not_argument e he
  split_ifs <;> first
    | (simp; done)
    | (simpa using hne)
    | (simpa using hni)


/-! ## `read` and `Init` under any schedule -/

theorem read_state (stub : Stub) (args : List Str) :
    (read stub args).1.state = stub.state := by
  match args with
  | [] => simp [read]
  | [key] => rw [read_eq]; split_ifs <;> rfl
  | _ :: _ :: _ => simp [read]


/-! ## Guarded creates and deletes are guarded use -/

theorem Reached.guarded {stub : Stub} (h : Reached stub) : Guarded stub := by
  induction h with
  | init stub function args hr he hs =>
    exact Guarded.init stub function args hr (fun k _ _ => he k) hs
  | create stub args _ hs hv ha hi hn ih =>
    exact Guarded.create stub args ih hs hv ha hi hn
  | delete stub args _ hs _ hi ih => exact Guarded.delete stub args ih hs hi

/-! ## The claims -/

/-- C1, as stated, fails: `init_cpr` concatenates its arguments into the record without
escaping, and it writes the index under `_cprindex` after the record. With a quote, a
backslash or a line feed in the id, or with an id that is no well-formed UTF-8 (the bytes
`61 ff 62`, whose byte `ff` the decoder reads as U+FFFD), the text read back does not
decode to the inputs, and with the id `_cprindex` the index is read back, not the
record. -/
theorem init_cpr_read_counterexample :
    freshStub.reliable ∧
    decodesToRecord (read (init_cpr freshStub (utf8s ["a\"b", "h1", "alice", "growerA"])).1
      (utf8s ["a\"b"])).2.payload (utf8 "a\"b") (utf8 "h1") (utf8 "alice") (utf8 "growerA")
      = false ∧
    decodesToRecord (read (init_cpr freshStub (utf8s ["a\\nb", "h1", "alice", "growerA"])).1
      (utf8s ["a\\nb"])).2.payload (utf8 "a\\nb") (utf8 "h1") (utf8 "alice") (utf8 "growerA")
      = false ∧
    decodesToRecord (read (init_cpr freshStub (utf8s ["a\nb", "h1", "alice", "growerA"])).1
      (utf8s ["a\nb"])).2.payload (utf8 "a\nb") (utf8 "h1") (utf8 "alice") (utf8 "growerA")
      = false ∧
    decodesToRecord
      (read (init_cpr freshStub [[97, 255, 98], utf8 "h1", utf8 "alice", utf8 "growerA"]).1
        [[97, 255, 98]]).2.payload [97, 255, 98] (utf8 "h1") (utf8 "alice") (utf8 "growerA")
      = false ∧
    (Json.parse (recordText [97, 255, 98] (utf8 "h1") (utf8 "alice") (utf8 "growerA"))).bind
      (fun v => v.field (utf8 "id")) = some [97, 239, 191, 189, 98] ∧
    decodesToRecord (read (init_cpr freshStub (utf8s ["_cprindex", "h1", "alice", "growerA"])).1
      (utf8s ["_cprindex"])).2.payload (utf8 "_cprindex") (utf8 "h1") (utf8 "alice")
      (utf8 "growerA") = false := by
  decide

/-- C1, amended: for four non-empty texts of well-formed UTF-8 without quote, backslash
and control character, the id other than `_cprindex`, on a ledger whose calls succeed,
`init_cpr` succeeds and `read([id])` then returns the record text, which decodes as the
JSON object with the members `id`, `hash`, `owner` and `grower` equal to the inputs. -/
theorem init_cpr_read (stub : Stub) (id hash owner grower : Str)
    (hr : stub.reliable) (h0 : id ≠ []) (h1 : hash ≠ []) (h2 : owner ≠ [])
    (h3 : grower ≠ []) (p0 : plainText id) (p1 : plainText hash) (p2 : plainText owner)
    (p3 : plainText grower) (hid : id ≠ cprIndexStr) :
    (init_cpr stub [id, hash, owner, grower]).2 = ⟨none, none⟩ ∧
    (read (init_cpr stub [id, hash, owner, grower]).1 [id]).2
      = ⟨some (recordText id hash owner grower), none⟩ ∧
    Json.parse (recordText id hash owner grower)
      = some (.obj [(utf8 "id", .str id), (utf8 "hash", .str hash), (utf8 "owner", .str owner),
          (utf8 "grower", .str grower)]) ∧
    decodesToRecord (read (init_cpr stub [id, hash, owner, grower]).1 [id]).2.payload
      id hash owner grower = true := by
  have hrd : (read (init_cpr stub [id, hash, owner, grower]).1 [id]).2
      = ⟨some (recordText id hash owner grower), none⟩ := by
    rw [init_cpr_of_reliable hr id hash owner grower h0 h1 h2 h3,
      read_of_reliable (reliable_put (reliable_tail (reliable_put hr _ _)) _ _)]
    simp [Stub.put, Stub.tail, hid]
  refine ⟨?_, hrd, parse_recordText id hash owner grower p0 p1 p2 p3, ?_⟩
  · rw [init_cpr_of_reliable hr id hash owner grower h0 h1 h2 h3]
  · rw [hrd]
    exact decodes_recordText id hash owner grower p0 p1 p2 p3

/-- C1, amended, at the scenario of the specification: `create("c1","h1","alice","growerA")`
then `read("c1")`. -/
theorem init_cpr_read_witness :
    (init_cpr freshStub (utf8s ["c1", "h1", "alice", "growerA"])).2 = ⟨none, none⟩ ∧
    (read (init_cpr freshStub (utf8s ["c1", "h1", "alice", "growerA"])).1 (utf8s ["c1"])).2
      = ⟨some (recordText (utf8 "c1") (utf8 "h1") (utf8 "alice") (utf8 "growerA")), none⟩ ∧
    Json.parse (recordText (utf8 "c1") (utf8 "h1") (utf8 "alice") (utf8 "growerA"))
      = some (.obj [(utf8 "id", .str (utf8 "c1")), (utf8 "hash", .str (utf8 "h1")),
          (utf8 "owner", .str (utf8 "alice")), (utf8 "grower", .str (utf8 "growerA"))]) ∧
    decodesToRecord (read (init_cpr freshStub (utf8s ["c1", "h1", "alice", "growerA"])).1
      (utf8s ["c1"])).2.payload (utf8 "c1") (utf8 "h1") (utf8 "alice") (utf8 "growerA") = true :=
  init_cpr_read freshStub (utf8 "c1") (utf8 "h1") (utf8 "alice") (utf8 "growerA") (by decide)
    (by decide) (by decide) (by decide) (by decide) (by decide) (by decide) (by decide)
    (by decide) (by decide)

/-- C2, as stated, fails twice. For the id `_cprindex` the record is written over the
index, the index read back is the record, which decodes to no list, and the new index
holds the id alone; here the index was `["a"]`. And for an id that is no well-formed UTF-8
(the bytes `61 ff 62`) the encoder writes the replacement character U+FFFD for the byte
`ff`, so the element appended to the index is not the id. -/
theorem init_cpr_index_counterexample :
    (init_cpr freshStub (utf8s ["a", "h", "o", "g"])).1.reliable ∧
    indexOf (init_cpr freshStub (utf8s ["a", "h", "o", "g"])).1 = utf8s ["a"] ∧
    (init_cpr (init_cpr freshStub (utf8s ["a", "h", "o", "g"])).1
      (utf8s ["_cprindex", "h", "o", "g"])).2 = ⟨none, none⟩ ∧
    indexOf (init_cpr (init_cpr freshStub (utf8s ["a", "h", "o", "g"])).1
      (utf8s ["_cprindex", "h", "o", "g"])).1 = utf8s ["_cprindex"] ∧
    indexOf (init_cpr (init_cpr freshStub (utf8s ["a", "h", "o", "g"])).1
      (utf8s ["_cprindex", "h", "o", "g"])).1 ≠ utf8s ["a"] ++ utf8s ["_cprindex"] ∧
    (init_cpr (init_cpr freshStub (utf8s ["a", "h", "o", "g"])).1
      [[97, 255, 98], utf8 "h", utf8 "o", utf8 "g"]).2 = ⟨none, none⟩ ∧
    indexOf (init_cpr (init_cpr freshStub (utf8s ["a", "h", "o", "g"])).1
      [[97, 255, 98], utf8 "h", utf8 "o", utf8 "g"]).1 = [utf8 "a", [97, 239, 191, 189, 98]] ∧
    indexOf (init_cpr (init_cpr freshStub (utf8s ["a", "h", "o", "g"])).1
      [[97, 255, 98], utf8 "h", utf8 "o", utf8 "g"]).1 ≠ utf8s ["a"] ++ [[97, 255, 98]] := by
  decide

/-- C2, amended: for non-empty arguments with an id of well-formed UTF-8 other than
`_cprindex`, on a ledger whose calls succeed, `init_cpr` (of either source file) succeeds
and the index then decodes to the former list with the id appended at the end; when the
former list did not hold the id, the new one holds it exactly once. -/
theorem init_cpr_appends_id (stub : Stub) (id hash owner grower : Str)
    (hr : stub.reliable) (h0 : id ≠ []) (h1 : hash ≠ []) (h2 : owner ≠ [])
    (h3 : grower ≠ []) (hv : validUTF8 id = true) (hid : id ≠ cprIndexStr) :
    ((init_cpr stub [id, hash, owner, grower]).2 = ⟨none, none⟩ ∧
      indexOf (init_cpr stub [id, hash, owner, grower]).1 = indexOf stub ++ [id] ∧
      (id ∉ indexOf stub →
        (indexOf (init_cpr stub [id, hash, owner, grower]).1).count id = 1)) ∧
    ((V1.init_cpr stub [id, hash, owner]).2 = ⟨none, none⟩ ∧
      indexOf (V1.init_cpr stub [id, hash, owner]).1 = indexOf stub ++ [id] ∧
      (id ∉ indexOf stub → (indexOf (V1.init_cpr stub [id, hash, owner]).1).count id = 1)) := by
  have e := init_cpr_index hr id hash owner grower h0 h1 h2 h3 hid hv
  have e' := V1.init_cpr3_index hr id hash owner h0 h1 h2 hid hv
  refine ⟨⟨?_, e, ?_⟩, ⟨?_, e', ?_⟩⟩
  · rw [init_cpr_of_reliable hr id hash owner grower h0 h1 h2 h3]
  · intro hn
    rw [e]
    simp [List.count_append, List.count_eq_zero_of_not_mem hn]
  · rw [V1.init_cpr3_of_reliable hr id hash owner h0 h1 h2]
  · intro hn
    rw [e']
    simp [List.count_append, List.count_eq_zero_of_not_mem hn]

/-- C2, amended, at the second create of the scenario: the index `["c1"]` becomes
`["c1","c2"]`. -/
theorem init_cpr_appends_id_witness :
    indexOf (init_cpr freshStub (utf8s ["c1", "h1", "alice", "growerA"])).1 = utf8s ["c1"] ∧
    indexOf (init_cpr (init_cpr freshStub (utf8s ["c1", "h1", "alice", "growerA"])).1
      (utf8s ["c2", "h2", "alice", "growerA"])).1
      = indexOf (init_cpr freshStub (utf8s ["c1", "h1", "alice", "growerA"])).1 ++ [utf8 "c2"] :=
  ⟨by decide,
   (init_cpr_appends_id (init_cpr freshStub (utf8s ["c1", "h1", "alice", "growerA"])).1
      (utf8 "c2") (utf8 "h2") (utf8 "alice") (utf8 "growerA") (by decide) (by decide) (by decide)
      (by decide) (by decide) (by decide) (by decide)).1.2.1⟩


/-- C3, as stated, fails for the id `_cprindex`: `Delete` removes the index itself, reads
back nothing and writes `null`, so the index `["a"]` becomes empty although it holds no
element equal to the id. -/
theorem Delete_index_counterexample :
    (init_cpr freshStub (utf8s ["a", "h", "o", "g"])).1.reliable ∧
    indexOf (init_cpr freshStub (utf8s ["a", "h", "o", "g"])).1 = utf8s ["a"] ∧
    (Delete (init_cpr freshStub (utf8s ["a", "h", "o", "g"])).1 (utf8s ["_cprindex"])).2
      = ⟨none, none⟩ ∧
    indexOf (Delete (init_cpr freshStub (utf8s ["a", "h", "o", "g"])).1 (utf8s ["_cprindex"])).1
      = [] ∧
    (indexOf (init_cpr freshStub (utf8s ["a", "h", "o", "g"])).1).erase (utf8 "_cprindex")
      = utf8s ["a"] := by
  decide

/-- C3, amended: for an id other than `_cprindex`, on a ledger whose calls succeed,
`Delete` succeeds and the index then decodes to the former list without its first
element equal to the id: `l ++ r` when the former list is `l ++ id :: r` with no id in
`l`, and the former list itself when it does not hold the id. -/
theorem Delete_removes_first (stub : Stub) (id : Str) (hr : stub.reliable)
    (hid : id ≠ cprIndexStr) :
    (Delete stub [id]).2 = ⟨none, none⟩ ∧
    indexOf (Delete stub [id]).1 = (indexOf stub).erase id ∧
    (∀ l r, indexOf stub = l ++ id :: r → id ∉ l → indexOf (Delete stub [id]).1 = l ++ r) ∧
    (id ∉ indexOf stub → indexOf (Delete stub [id]).1 = indexOf stub) := by
  have e := Delete_index hr id hid
  refine ⟨?_, e, ?_, ?_⟩
  · rw [Delete_of_reliable hr id]
  · intro l r hl hn
    rw [e, hl, List.erase_append_right _ hn, List.erase_cons_head]
  · intro hn
    rw [e, List.erase_of_not_mem hn]

/-- C3, amended, at the scenario of the specification: create `c1`, create `c2`, delete
`c1` leaves `["c2"]`. -/
theorem Delete_removes_first_witness :
    indexOf (init_cpr (init_cpr freshStub (utf8s ["c1", "h1", "alice", "growerA"])).1
      (utf8s ["c2", "h2", "alice", "growerA"])).1 = utf8s ["c1", "c2"] ∧
    indexOf (Delete (init_cpr (init_cpr freshStub (utf8s ["c1", "h1", "alice", "growerA"])).1
      (utf8s ["c2", "h2", "alice", "growerA"])).1 (utf8s ["c1"])).1 = [] ++ utf8s ["c2"] :=
  ⟨by decide,
   (Delete_removes_first
      (init_cpr (init_cpr freshStub (utf8s ["c1", "h1", "alice", "growerA"])).1
        (utf8s ["c2", "h2", "alice", "growerA"])).1 (utf8 "c1") (by decide) (by decide)).2.2.1
      [] (utf8s ["c2"]) (by decide) (by decide)⟩

/-- C4, as stated, fails twice. After two creates of `c1` the index is `["c1","c1"]` and
`Delete(["c1"])` leaves `["c1"]`, which still holds the id. And `Delete(["_cprindex"])`
writes a new value under the key it deleted, so a read finds `null`. -/
theorem Delete_read_counterexample :
    (init_cpr (init_cpr freshStub (utf8s ["c1", "h", "o", "g"])).1
      (utf8s ["c1", "h", "o", "g"])).1.reliable ∧
    utf8 "c1" ∈ indexOf (Delete (init_cpr (init_cpr freshStub (utf8s ["c1", "h", "o", "g"])).1
      (utf8s ["c1", "h", "o", "g"])).1 (utf8s ["c1"])).1 ∧
    (read (Delete freshStub (utf8s ["_cprindex"])).1 (utf8s ["_cprindex"])).2
      = ⟨some (utf8 "null"), none⟩ := by
  decide

/-- C4, amended: for an id other than `_cprindex`, on a ledger whose calls succeed,
after `Delete([id])` a read of the id finds no value (no bytes and no error), and the
index no longer holds the id when it held it at most once before. -/
theorem Delete_then_read (stub : Stub) (id : Str) (hr : stub.reliable)
    (hid : id ≠ cprIndexStr) :
    (Delete stub [id]).2 = ⟨none, none⟩ ∧
    (read (Delete stub [id]).1 [id]).2 = ⟨none, none⟩ ∧
    ((indexOf stub).count id ≤ 1 → id ∉ indexOf (Delete stub [id]).1) := by
  refine ⟨?_, ?_, ?_⟩
  · rw [Delete_of_reliable hr id]
  · rw [Delete_of_reliable hr id,
      read_of_reliable (reliable_put (reliable_tail (reliable_del hr _)) _ _)]
    simp [Stub.put, Stub.tail, Stub.del, hid]
  · intro hc hm
    rw [Delete_index hr id hid] at hm
    have h1 : 0 < ((indexOf stub).erase id).count id := List.count_pos_iff.mpr hm
    rw [List.count_erase_self] at h1
    omega

/-- C4, amended, at the scenario of the specification: after create `c1`, create `c2`,
delete `c1`, a read of `c1` finds nothing and the index does not hold `c1`. -/
theorem Delete_then_read_witness :
    (read (Delete (init_cpr (init_cpr freshStub (utf8s ["c1", "h1", "alice", "growerA"])).1
      (utf8s ["c2", "h2", "alice", "growerA"])).1 (utf8s ["c1"])).1 (utf8s ["c1"])).2
      = ⟨none, none⟩ ∧
    utf8 "c1" ∉ indexOf
      (Delete (init_cpr (init_cpr freshStub (utf8s ["c1", "h1", "alice", "growerA"])).1
        (utf8s ["c2", "h2", "alice", "growerA"])).1 (utf8s ["c1"])).1 :=
  ⟨(Delete_then_read (init_cpr (init_cpr freshStub (utf8s ["c1", "h1", "alice", "growerA"])).1
      (utf8s ["c2", "h2", "alice", "growerA"])).1 (utf8 "c1") (by decide) (by decide)).2.1,
   (Delete_then_read (init_cpr (init_cpr freshStub (utf8s ["c1", "h1", "alice", "growerA"])).1
      (utf8s ["c2", "h2", "alice", "growerA"])).1 (utf8 "c1") (by decide) (by decide)).2.2
      (by decide)⟩

/-- C5 fails on the code: the fields of `Cpr` are not exported, so `encoding/json` neither
fills nor writes them and `set_user` stores the empty object. After
`init_cpr(["c2","h2","alice","growerA"])` and `set_user(["c2","bob"])` the read returns
the empty object, which has no `owner`, `id`, `hash` or `grower`. -/
theorem set_user_loses_record :
    (set_user (init_cpr freshStub (utf8s ["c2", "h2", "alice", "growerA"])).1
      (utf8s ["c2", "bob"])).2 = ⟨none, none⟩ ∧
    (read (set_user (init_cpr freshStub (utf8s ["c2", "h2", "alice", "growerA"])).1
      (utf8s ["c2", "bob"])).1 (utf8s ["c2"])).2 = ⟨some (utf8 "\x7b\x7d"), none⟩ ∧
    (Json.parse (utf8 "\x7b\x7d")).bind (fun v => v.field (utf8 "owner")) = none ∧
    decodesToRecord
      (read (set_user (init_cpr freshStub (utf8s ["c2", "h2", "alice", "growerA"])).1
        (utf8s ["c2", "bob"])).1 (utf8s ["c2"])).2.payload
      (utf8 "c2") (utf8 "h2") (utf8 "bob") (utf8 "growerA") = false ∧
    decodesToRecord (read (init_cpr freshStub (utf8s ["c2", "h2", "alice", "growerA"])).1
      (utf8s ["c2"])).2.payload (utf8 "c2") (utf8 "h2") (utf8 "alice") (utf8 "growerA") = true := by
  decide

/-- C6: on a ledger whose calls succeed, `Write([key, value])` succeeds and
`read([key])` then returns exactly `value`, whatever the key. -/
theorem Write_then_read (stub : Stub) (key value : Str) (hr : stub.reliable) :
    (Write stub [key, value]).2 = ⟨none, none⟩ ∧
    (read (Write stub [key, value]).1 [key]).2 = ⟨some value, none⟩ := by
  rw [Write_of_reliable hr key value, read_of_reliable (reliable_put hr _ _)]
  simp [Stub.put]

/-- C6 at the reserved key `_cprindex`, the reserved key `abc` and the id `c1`. -/
theorem Write_then_read_witness :
    (read (Write freshStub (utf8s ["_cprindex", "any bytes"])).1 (utf8s ["_cprindex"])).2
      = ⟨some (utf8 "any bytes"), none⟩ ∧
    (read (Write freshStub [utf8 "abc", []]).1 (utf8s ["abc"])).2 = ⟨some [], none⟩ ∧
    (read (Write (init_cpr freshStub (utf8s ["c1", "h1", "alice", "growerA"])).1
      (utf8s ["c1", "\x00\"\\"])).1 (utf8s ["c1"])).2 = ⟨some (utf8 "\x00\"\\"), none⟩ :=
  ⟨(Write_then_read freshStub (utf8 "_cprindex") (utf8 "any bytes") (by decide)).2,
   (Write_then_read freshStub (utf8 "abc") [] (by decide)).2,
   (Write_then_read (init_cpr freshStub (utf8s ["c1", "h1", "alice", "growerA"])).1 (utf8 "c1")
      (utf8 "\x00\"\\") (by decide)).2⟩

/-- C7 fails on the code: `Init` (and `init` of `src/cpr.go`) marshals the `nil` slice
`empty`, which `encoding/json` writes as `null`, so after `Init(["100"])` the read of
`_cprindex` returns `null` and not `[]`; `null` still decodes to the empty list. -/
theorem Init_index_is_null :
    (Init emptyStub (utf8 "init") (utf8s ["100"])).2 = ⟨none, none⟩ ∧
    (read (Init emptyStub (utf8 "init") (utf8s ["100"])).1 (utf8s ["_cprindex"])).2
      = ⟨some (utf8 "null"), none⟩ ∧
    (read (V1.init emptyStub (utf8s ["100"])).1 (utf8s ["_cprindex"])).2
      = ⟨some (utf8 "null"), none⟩ ∧
    utf8 "null" ≠ utf8 "[]" ∧
    marshalStrings (some []) = utf8 "[]" ∧
    indexOf (Init emptyStub (utf8 "init") (utf8s ["100"])).1 = [] := by
  decide


/-- C8: for a single argument that `Atoi` parses as `n`, on a ledger whose calls
succeed, `Init` succeeds and `read(["abc"])` then returns `Itoa n`, the decimal text
that `Atoi` parses back as `n`. -/
theorem Init_then_read_abc (stub : Stub) (function arg : Str) (n : Int)
    (hr : stub.reliable) (hn : Atoi arg = some n) :
    (Init stub function [arg]).2 = ⟨none, none⟩ ∧
    (read (Init stub function [arg]).1 [utf8 "abc"]).2 = ⟨some (Itoa n), none⟩ ∧
    Atoi (Itoa n) = some n := by
  refine ⟨?_, ?_, ?_⟩
  · rw [Init_of_reliable hr function arg n hn]
  · rw [Init_of_reliable hr function arg n hn,
      read_of_reliable (reliable_put (reliable_put hr _ _) _ _)]
    have hne : utf8 "abc" ≠ utf8 "_cprindex" := by decide
    simp [Stub.put, cprIndexStr, hne]
  · exact Atoi_Itoa n (Atoi_range arg n hn).1 (Atoi_range arg n hn).2

/-- C8 at the arguments `100`, `+7`, `007` and `-0012`: the texts read back are `100`,
`7`, `7` and `-12`. -/
theorem Init_then_read_abc_witness :
    (read (Init emptyStub (utf8 "init") (utf8s ["100"])).1 (utf8s ["abc"])).2
      = ⟨some (utf8 "100"), none⟩ ∧
    (read (Init emptyStub (utf8 "init") (utf8s ["+7"])).1 (utf8s ["abc"])).2
      = ⟨some (utf8 "7"), none⟩ ∧
    (read (Init freshStub (utf8 "init") (utf8s ["007"])).1 (utf8s ["abc"])).2
      = ⟨some (utf8 "7"), none⟩ ∧
    (read (Init freshStub (utf8 "init") (utf8s ["-0012"])).1 (utf8s ["abc"])).2
      = ⟨some (utf8 "-12"), none⟩ :=
  ⟨(Init_then_read_abc emptyStub (utf8 "init") (utf8 "100") 100 (by decide) (by decide)).2.1,
   (Init_then_read_abc emptyStub (utf8 "init") (utf8 "+7") 7 (by decide) (by decide)).2.1,
   (Init_then_read_abc freshStub (utf8 "init") (utf8 "007") 7 (by decide) (by decide)).2.1,
   (by decide : Itoa (-12) = utf8 "-12") ▸
     (Init_then_read_abc freshStub (utf8 "init") (utf8 "-0012") (-12) (by decide)
       (by decide)).2.1⟩

/-- C9, as stated, fails three times. With the index `["a"]`, `Delete(["_cprindex"])`
deletes the index and writes `null`. And `Delete` writes the index anew, so a value that
encodes the list in another spelling (here with blanks) is replaced by the spelling of
`json.Marshal`; likewise an absent index becomes `null`. The same holds for an index that
`init_cpr` wrote for an id that is no well-formed UTF-8 (the bytes `61 ff 62`): the
encoder wrote the escape of U+FFFD, six bytes, which decodes to the character U+FFFD,
which `Delete` writes back as the three bytes `ef bf bd`. -/
theorem Delete_absent_counterexample :
    (init_cpr freshStub (utf8s ["a", "h", "o", "g"])).1.reliable ∧
    utf8 "_cprindex" ∉ indexOf (init_cpr freshStub (utf8s ["a", "h", "o", "g"])).1 ∧
    (init_cpr freshStub (utf8s ["a", "h", "o", "g"])).1.state (utf8 "_cprindex")
      = some (utf8 "[\"a\"]") ∧
    (Delete (init_cpr freshStub (utf8s ["a", "h", "o", "g"])).1
      (utf8s ["_cprindex"])).1.state (utf8 "_cprindex") = some (utf8 "null") ∧
    (Write freshStub (utf8s ["_cprindex", "[ \"a\" ]"])).1.reliable ∧
    utf8 "b" ∉ indexOf (Write freshStub (utf8s ["_cprindex", "[ \"a\" ]"])).1 ∧
    (Write freshStub (utf8s ["_cprindex", "[ \"a\" ]"])).1.state (utf8 "_cprindex")
      = some (utf8 "[ \"a\" ]") ∧
    (Delete (Write freshStub (utf8s ["_cprindex", "[ \"a\" ]"])).1 (utf8s ["b"])).2
      = ⟨none, none⟩ ∧
    (Delete (Write freshStub (utf8s ["_cprindex", "[ \"a\" ]"])).1
      (utf8s ["b"])).1.state (utf8 "_cprindex") = some (utf8 "[\"a\"]") ∧
    emptyStub.state (utf8 "_cprindex") = none ∧
    (Delete emptyStub (utf8s ["b"])).1.state (utf8 "_cprindex") = some (utf8 "null") ∧
    (init_cpr freshStub [[97, 255, 98], utf8 "h", utf8 "o", utf8 "g"]).1.reliable ∧
    utf8 "b" ∉ indexOf (init_cpr freshStub [[97, 255, 98], utf8 "h", utf8 "o", utf8 "g"]).1 ∧
    (init_cpr freshStub [[97, 255, 98], utf8 "h", utf8 "o", utf8 "g"]).1.state cprIndexStr
      = some (marshalStrings (some [[97, 255, 98]])) ∧
    (init_cpr freshStub [[97, 255, 98], utf8 "h", utf8 "o", utf8 "g"]).1.state cprIndexStr
      = some [91, 34, 97, 92, 117, 102, 102, 102, 100, 98, 34, 93] ∧
    (Delete (init_cpr freshStub [[97, 255, 98], utf8 "h", utf8 "o", utf8 "g"]).1
      (utf8s ["b"])).2 = ⟨none, none⟩ ∧
    (Delete (init_cpr freshStub [[97, 255, 98], utf8 "h", utf8 "o", utf8 "g"]).1
      (utf8s ["b"])).1.state cprIndexStr = some [91, 34, 97, 239, 191, 189, 98, 34, 93] := by
  decide

/-- C9, amended: for an id other than `_cprindex` that the index does not hold, on a
ledger whose calls succeed, `Delete` returns no error and the index decodes to the same
list as before; the stored bytes are the same as before when they were written by
`json.Marshal` from a list of well-formed UTF-8 texts, as `Init` and `Delete` write them,
and `init_cpr` for an id of well-formed UTF-8. -/
theorem Delete_absent_id (stub : Stub) (id : Str) (hr : stub.reliable)
    (hid : id ≠ cprIndexStr) (hn : id ∉ indexOf stub) :
    (Delete stub [id]).2 = ⟨none, none⟩ ∧
    indexOf (Delete stub [id]).1 = indexOf stub ∧
    (∀ v, allValid (v.getD []) → stub.state cprIndexStr = some (marshalStrings v) →
      (Delete stub [id]).1.state cprIndexStr = stub.state cprIndexStr) := by
  refine ⟨?_, ?_, ?_⟩
  · rw [Delete_of_reliable hr id]
  · rw [Delete_index hr id hid, List.erase_of_not_mem hn]
  · intro v hval hv
    have hd : (stub.del id).state cprIndexStr = stub.state cprIndexStr := by
      have h' : cprIndexStr ≠ id := fun e => hid e.symm
      simp [Stub.del, h']
    have hi : indexOf stub = v.getD [] := by
      simp [indexOf, hv, unmarshal_marshal v hval]
    rw [Delete_of_reliable hr id, hd, hv]
    simp only [Stub.put, if_true, unmarshal_marshal v hval, Option.getD_some]
    congr 2
    cases v with
    | none => rfl
    | some xs =>
      have hx : id ∉ xs := by simpa [hi] using hn
      simp [removeFromIndex, removeScan_erase, List.erase_of_not_mem hx]

/-- C9, amended, at the index `["c1"]` and the id `c2`. -/
theorem Delete_absent_id_witness :
    (Delete (init_cpr freshStub (utf8s ["c1", "h1", "alice", "growerA"])).1 (utf8s ["c2"])).2
      = ⟨none, none⟩ ∧
    indexOf (Delete (init_cpr freshStub (utf8s ["c1", "h1", "alice", "growerA"])).1
      (utf8s ["c2"])).1 = indexOf (init_cpr freshStub (utf8s ["c1", "h1", "alice", "growerA"])).1 ∧
    (Delete (init_cpr freshStub (utf8s ["c1", "h1", "alice", "growerA"])).1
      (utf8s ["c2"])).1.state cprIndexStr
      = (init_cpr freshStub (utf8s ["c1", "h1", "alice", "growerA"])).1.state cprIndexStr :=
  ⟨(Delete_absent_id (init_cpr freshStub (utf8s ["c1", "h1", "alice", "growerA"])).1 (utf8 "c2")
      (by decide) (by decide) (by decide)).1,
   (Delete_absent_id (init_cpr freshStub (utf8s ["c1", "h1", "alice", "growerA"])).1 (utf8 "c2")
      (by decide) (by decide) (by decide)).2.1,
   (Delete_absent_id (init_cpr freshStub (utf8s ["c1", "h1", "alice", "growerA"])).1 (utf8 "c2")
      (by decide) (by decide) (by decide)).2.2 (some (utf8s ["c1"])) (by decide) (by decide)⟩


/-- C10, as stated, fails: the code guards none of its calls. Each line below is a state
reached from a successful `Init` by successful calls in which the index and the records
differ: a second create of `c1` followed by one delete leaves `c1` in the index without
a record; `set_user` on an unknown id writes a record the index does not hold;
`Delete(["_cprindex"])` empties the index while `a` keeps its record; `init_cpr` with
the id `abc` or `_cprindex` puts a reserved key into the index; `Init` leaves the records
of an earlier use in place; `init_cpr` reports success when the write of the index
fails; and `init_cpr` with an id that is no well-formed UTF-8 (the bytes `61 ff 62`)
writes the record under the id and puts another text, with U+FFFD for the byte `ff`,
into the index. -/
theorem index_exact_counterexample :
    ((init_cpr freshStub (utf8s ["c1", "h", "o", "g"])).2.err = none ∧
      (init_cpr (init_cpr freshStub (utf8s ["c1", "h", "o", "g"])).1
        (utf8s ["c1", "h", "o", "g"])).2.err = none ∧
      (Delete (init_cpr (init_cpr freshStub (utf8s ["c1", "h", "o", "g"])).1
        (utf8s ["c1", "h", "o", "g"])).1 (utf8s ["c1"])).2.err = none ∧
      utf8 "c1" ∈ indexOf (Delete (init_cpr (init_cpr freshStub (utf8s ["c1", "h", "o", "g"])).1
        (utf8s ["c1", "h", "o", "g"])).1 (utf8s ["c1"])).1 ∧
      hasRecord (Delete (init_cpr (init_cpr freshStub (utf8s ["c1", "h", "o", "g"])).1
        (utf8s ["c1", "h", "o", "g"])).1 (utf8s ["c1"])).1 (utf8 "c1") = false) ∧
    ((set_user freshStub (utf8s ["ghost", "bob"])).2.err = none ∧
      utf8 "ghost" ∉ indexOf (set_user freshStub (utf8s ["ghost", "bob"])).1 ∧
      hasRecord (set_user freshStub (utf8s ["ghost", "bob"])).1 (utf8 "ghost") = true) ∧
    ((Delete (init_cpr freshStub (utf8s ["a", "h", "o", "g"])).1 (utf8s ["_cprindex"])).2.err
        = none ∧
      utf8 "a" ∉ indexOf (Delete (init_cpr freshStub (utf8s ["a", "h", "o", "g"])).1
        (utf8s ["_cprindex"])).1 ∧
      hasRecord (Delete (init_cpr freshStub (utf8s ["a", "h", "o", "g"])).1
        (utf8s ["_cprindex"])).1 (utf8 "a") = true) ∧
    ((init_cpr freshStub (utf8s ["abc", "h", "o", "g"])).2.err = none ∧
      utf8 "abc" ∈ indexOf (init_cpr freshStub (utf8s ["abc", "h", "o", "g"])).1 ∧
      hasRecord (init_cpr freshStub (utf8s ["abc", "h", "o", "g"])).1 (utf8 "abc") = false) ∧
    ((init_cpr freshStub (utf8s ["_cprindex", "h", "o", "g"])).2.err = none ∧
      utf8 "_cprindex" ∈ indexOf (init_cpr freshStub (utf8s ["_cprindex", "h", "o", "g"])).1 ∧
      hasRecord (init_cpr freshStub (utf8s ["_cprindex", "h", "o", "g"])).1 (utf8 "_cprindex")
        = false) ∧
    ((Init (init_cpr freshStub (utf8s ["c1", "h", "o", "g"])).1 (utf8 "init")
        (utf8s ["7"])).2.err = none ∧
      utf8 "c1" ∉ indexOf (Init (init_cpr freshStub (utf8s ["c1", "h", "o", "g"])).1
        (utf8 "init") (utf8s ["7"])).1 ∧
      hasRecord (Init (init_cpr freshStub (utf8s ["c1", "h", "o", "g"])).1 (utf8 "init")
        (utf8s ["7"])).1 (utf8 "c1") = true) ∧
    ((Init ⟨fun _ => none, [false, false, false, false, true]⟩ (utf8 "init")
        (utf8s ["100"])).2.err = none ∧
      (init_cpr (Init ⟨fun _ => none, [false, false, false, false, true]⟩ (utf8 "init")
        (utf8s ["100"])).1 (utf8s ["c1", "h", "o", "g"])).2.err = none ∧
      utf8 "c1" ∉ indexOf (init_cpr (Init ⟨fun _ => none, [false, false, false, false, true]⟩
        (utf8 "init") (utf8s ["100"])).1 (utf8s ["c1", "h", "o", "g"])).1 ∧
      hasRecord (init_cpr (Init ⟨fun _ => none, [false, false, false, false, true]⟩
        (utf8 "init") (utf8s ["100"])).1 (utf8s ["c1", "h", "o", "g"])).1 (utf8 "c1") = true) ∧
    ((init_cpr freshStub [[97, 255, 98], utf8 "h", utf8 "o", utf8 "g"]).2.err = none ∧
      [97, 255, 98] ∉ indexOf freshStub ∧
      [97, 255, 98] ∉ indexOf (init_cpr freshStub [[97, 255, 98], utf8 "h", utf8 "o", utf8 "g"]).1 ∧
      hasRecord (init_cpr freshStub [[97, 255, 98], utf8 "h", utf8 "o", utf8 "g"]).1
        [97, 255, 98] = true ∧
      [97, 239, 191, 189, 98]
        ∈ indexOf (init_cpr freshStub [[97, 255, 98], utf8 "h", utf8 "o", utf8 "g"]).1 ∧
      hasRecord (init_cpr freshStub [[97, 255, 98], utf8 "h", utf8 "o", utf8 "g"]).1
        [97, 239, 191, 189, 98] = false) := by
  refine ⟨?_, ?_, ?_, ?_, ?_, ?_, ?_, ?_⟩ <;> decide

/-- C10, amended: in every state of guarded use (a successful `Init` on a ledger
without records, then successful `init_cpr` calls with an id that is well-formed UTF-8
and neither `abc` nor `_cprindex` nor in the index, successful `set_user` calls with an
id of the index and successful `Delete` calls with an id other than `_cprindex`, all
store calls succeeding) the index holds exactly the ids that have a record. -/
theorem guarded_index_exact (stub : Stub) (h : Guarded stub) (k : Str) :
    k ∈ indexOf stub ↔ hasRecord stub k = true :=
  (guarded_invariant h).2.2 k

/-- C10, amended, at the scenario of the specification: `Init`, create `c1`, create `c2`,
delete `c1`, change the owner of `c2`; the index `["c2"]` holds `c2`, which has a
record, and not `c1`, which has none. -/
theorem guarded_index_exact_witness :
    indexOf (set_user (Delete (init_cpr (init_cpr (Init emptyStub (utf8 "init")
        (utf8s ["100"])).1 (utf8s ["c1", "h1", "alice", "growerA"])).1
        (utf8s ["c2", "h2", "alice", "growerA"])).1 (utf8s ["c1"])).1
        (utf8s ["c2", "bob"])).1 = utf8s ["c2"] ∧
    (utf8 "c2" ∈ indexOf (set_user (Delete (init_cpr (init_cpr (Init emptyStub (utf8 "init")
        (utf8s ["100"])).1 (utf8s ["c1", "h1", "alice", "growerA"])).1
        (utf8s ["c2", "h2", "alice", "growerA"])).1 (utf8s ["c1"])).1
        (utf8s ["c2", "bob"])).1 ↔
      hasRecord (set_user (Delete (init_cpr (init_cpr (Init emptyStub (utf8 "init")
        (utf8s ["100"])).1 (utf8s ["c1", "h1", "alice", "growerA"])).1
        (utf8s ["c2", "h2", "alice", "growerA"])).1 (utf8s ["c1"])).1
        (utf8s ["c2", "bob"])).1 (utf8 "c2") = true) ∧
    (utf8 "c1" ∈ indexOf (set_user (Delete (init_cpr (init_cpr (Init emptyStub (utf8 "init")
        (utf8s ["100"])).1 (utf8s ["c1", "h1", "alice", "growerA"])).1
        (utf8s ["c2", "h2", "alice", "growerA"])).1 (utf8s ["c1"])).1
        (utf8s ["c2", "bob"])).1 ↔
      hasRecord (set_user (Delete (init_cpr (init_cpr (Init emptyStub (utf8 "init")
        (utf8s ["100"])).1 (utf8s ["c1", "h1", "alice", "growerA"])).1
        (utf8s ["c2", "h2", "alice", "growerA"])).1 (utf8s ["c1"])).1
        (utf8s ["c2", "bob"])).1 (utf8 "c1") = true) :=
  have g : Guarded (set_user (Delete (init_cpr (init_cpr (Init emptyStub (utf8 "init")
      (utf8s ["100"])).1 (utf8s ["c1", "h1", "alice", "growerA"])).1
      (utf8s ["c2", "h2", "alice", "growerA"])).1 (utf8s ["c1"])).1 (utf8s ["c2", "bob"])).1 :=
    Guarded.setUser _ _
      (Guarded.delete _ _
        (Guarded.create _ _
          (Guarded.create _ _
            (Guarded.init emptyStub (utf8 "init") (utf8s ["100"]) (by decide)
              (fun _ _ _ => rfl) (by decide))
            (by decide) (by decide) (by decide) (by decide) (by decide))
          (by decide) (by decide) (by decide) (by decide) (by decide))
        (by decide) (by decide))
      (by decide) (by decide)
  ⟨by decide, guarded_index_exact _ g (utf8 "c2"), guarded_index_exact _ g (utf8 "c1")⟩

/-- C11 fails on the code: `init_cpr` (of either source file) assigns the error of the
last `PutState`, the write of the index, and never looks at it. When the record write
fails or the index read fails the call returns an error, but when the first two store
calls succeed and the index write fails it returns no error, with the record stored
and the index without the id. `Init` does return the error of its index write. -/
theorem init_cpr_drops_index_write_error :
    (init_cpr ⟨freshStub.state, [true]⟩ (utf8s ["c1", "h1", "alice", "growerA"])).2
      = ⟨none, some storeFailure⟩ ∧
    (init_cpr ⟨freshStub.state, [false, true]⟩ (utf8s ["c1", "h1", "alice", "growerA"])).2
      = ⟨none, some (utf8 "Failed to get cpr index")⟩ ∧
    (init_cpr ⟨freshStub.state, [false, false, true]⟩
      (utf8s ["c1", "h1", "alice", "growerA"])).2 = ⟨none, none⟩ ∧
    indexOf (init_cpr ⟨freshStub.state, [false, false, true]⟩
      (utf8s ["c1", "h1", "alice", "growerA"])).1 = [] ∧
    hasRecord (init_cpr ⟨freshStub.state, [false, false, true]⟩
      (utf8s ["c1", "h1", "alice", "growerA"])).1 (utf8 "c1") = true ∧
    (V1.init_cpr ⟨freshStub.state, [false, false, true]⟩ (utf8s ["c1", "h1", "alice"])).2
      = ⟨none, none⟩ ∧
    (Init ⟨freshStub.state, [false, true]⟩ (utf8 "init") (utf8s ["100"])).2
      = ⟨none, some storeFailure⟩ := by
  decide

/-- C12: an argument list that has not exactly 4 elements (3 in `src/cpr.go`) or that
holds an empty string makes `init_cpr` return an argument error without any store call,
the stub being left as it was; a list of the right length without empty string passes
the checks: no argument error is returned, and the call succeeds when the store calls
succeed. -/
theorem init_cpr_argument_check (stub : Stub) (args : List Str) :
    ((args.length ≠ 4 ∨ [] ∈ args) →
      (init_cpr stub args).1 = stub ∧
      ∃ e ∈ argumentErrors, (init_cpr stub args).2 = ⟨none, some e⟩) ∧
    ((args.length ≠ 3 ∨ [] ∈ args) →
      (V1.init_cpr stub args).1 = stub ∧
      ∃ e ∈ argumentErrors, (V1.init_cpr stub args).2 = ⟨none, some e⟩) ∧
    ((args.length = 4 ∧ [] ∉ args) →
      (∀ e ∈ argumentErrors, (init_cpr stub args).2.err ≠ some e) ∧
      (stub.reliable → (init_cpr stub args).2 = ⟨none, none⟩)) ∧
    ((args.length = 3 ∧ [] ∉ args) →
      (∀ e ∈ argumentErrors, (V1.init_cpr stub args).2.err ≠ some e) ∧
      (stub.reliable → (V1.init_cpr stub args).2 = ⟨none, none⟩)) := by
  refine ⟨init_cpr_invalid stub args, V1.init_cpr3_invalid stub args, ?_, ?_⟩
  · rintro ⟨hl, hm⟩
    match args, hl with
    | [a, b, c, d], _ =>
      simp only [List.mem_cons, List.mem_singleton, List.not_mem_nil, or_false, not_or] at hm
      obtain ⟨h0, h1, h2, h3⟩ := hm
      refine ⟨init_cpr_valid stub a b c d (Ne.symm h0) (Ne.symm h1) (Ne.symm h2)
        (Ne.symm h3), fun hr => ?_⟩
      rw [init_cpr_of_reliable hr a b c d (Ne.symm h0) (Ne.symm h1) (Ne.symm h2) (Ne.symm h3)]
  · rintro ⟨hl, hm⟩
    match args, hl with
    | [a, b, c], _ =>
      simp only [List.mem_cons, List.mem_singleton, List.not_mem_nil, or_false, not_or] at hm
      obtain ⟨h0, h1, h2⟩ := hm
      refine ⟨V1.init_cpr3_valid stub a b c (Ne.symm h0) (Ne.symm h1) (Ne.symm h2),
        fun hr => ?_⟩
      rw [V1.init_cpr3_of_reliable hr a b c (Ne.symm h0) (Ne.symm h1) (Ne.symm h2)]

/-- C12 at three argument lists: too short, with an empty hash, and valid. -/
theorem init_cpr_argument_check_witness :
    ((init_cpr freshStub (utf8s ["c1", "h1", "alice"])).1 = freshStub ∧
      ∃ e ∈ argumentErrors,
        (init_cpr freshStub (utf8s ["c1", "h1", "alice"])).2 = ⟨none, some e⟩) ∧
    ((init_cpr freshStub [utf8 "c1", [], utf8 "alice", utf8 "growerA"]).1 = freshStub ∧
      ∃ e ∈ argumentErrors,
        (init_cpr freshStub [utf8 "c1", [], utf8 "alice", utf8 "growerA"]).2 = ⟨none, some e⟩) ∧
    (init_cpr freshStub (utf8s ["c1", "h1", "alice", "growerA"])).2 = ⟨none, none⟩ ∧
    (V1.init_cpr freshStub (utf8s ["c1", "h1", "alice"])).2 = ⟨none, none⟩ :=
  ⟨(init_cpr_argument_check freshStub (utf8s ["c1", "h1", "alice"])).1 (Or.inl (by decide)),
   (init_cpr_argument_check freshStub [utf8 "c1", [], utf8 "alice", utf8 "growerA"]).1
     (Or.inr (by decide)),
   ((init_cpr_argument_check freshStub (utf8s ["c1", "h1", "alice", "growerA"])).2.2.1
     ⟨by decide, by decide⟩).2 (by decide),
   ((init_cpr_argument_check freshStub (utf8s ["c1", "h1", "alice"])).2.2.2
     ⟨by decide, by decide⟩).2 (by decide)⟩

/-- C13: `Delete` returns an error exactly when the argument list has not one element,
or the deletion of the key (the first store call) fails, or the read of `_cprindex`
(the second store call) fails; when these two calls succeed and the write of the index
(the third call) fails, `Delete` returns no error. -/
theorem Delete_error_iff (stub : Stub) (args : List Str) :
    ((Delete stub args).2.err ≠ none ↔
      args.length ≠ 1 ∨ stub.fails 0 = true ∨ stub.fails 1 = true) ∧
    (args.length = 1 → stub.fails 0 = false → stub.fails 1 = false → stub.fails 2 = true →
      (Delete stub args).2 = ⟨none, none⟩) := by
  match args with
  | [] => simp [Delete]
  | [id] =>
    rw [Delete_eq]
    constructor
    · split_ifs <;> simp_all
    · intro _ h0 h1 _
      simp [h0, h1]
  | _ :: _ :: _ => simp [Delete]

/-- C13 at a ledger whose third store call fails: `Delete(["c1"])` returns no error and
the index still holds `c1`; with a failing first or second call it returns an error. -/
theorem Delete_error_iff_witness :
    (Delete ⟨(init_cpr freshStub (utf8s ["c1", "h1", "alice", "growerA"])).1.state,
      [false, false, true]⟩ (utf8s ["c1"])).2 = ⟨none, none⟩ ∧
    ((Delete ⟨freshStub.state, [true]⟩ (utf8s ["c1"])).2.err ≠ none) ∧
    ((Delete ⟨freshStub.state, [false, true]⟩ (utf8s ["c1"])).2.err ≠ none) ∧
    ((Delete freshStub (utf8s ["c1", "c2"])).2.err ≠ none) ∧
    indexOf (Delete ⟨(init_cpr freshStub (utf8s ["c1", "h1", "alice", "growerA"])).1.state,
      [false, false, true]⟩ (utf8s ["c1"])).1 = utf8s ["c1"] :=
  ⟨(Delete_error_iff ⟨(init_cpr freshStub (utf8s ["c1", "h1", "alice", "growerA"])).1.state,
      [false, false, true]⟩ (utf8s ["c1"])).2 (by decide) (by decide) (by decide) (by decide),
   (Delete_error_iff ⟨freshStub.state, [true]⟩ (utf8s ["c1"])).1.2
     (Or.inr (Or.inl (by decide))),
   (Delete_error_iff ⟨freshStub.state, [false, true]⟩ (utf8s ["c1"])).1.2
     (Or.inr (Or.inr (by decide))),
   (Delete_error_iff freshStub (utf8s ["c1", "c2"])).1.2 (Or.inl (by decide)),
   by decide⟩

/-- C14, as stated, fails for the id `_cprindex`: the record is written under the index
key, so after the failed index read the value under `_cprindex` is the record and not
the former index `["a"]`. -/
theorem init_cpr_index_read_fails_counterexample :
    (⟨(init_cpr freshStub (utf8s ["a", "h", "o", "g"])).1.state, [false, true]⟩ : Stub).state
      (utf8 "_cprindex") = some (utf8 "[\"a\"]") ∧
    (init_cpr ⟨(init_cpr freshStub (utf8s ["a", "h", "o", "g"])).1.state, [false, true]⟩
      (utf8s ["_cprindex", "h1", "alice", "growerA"])).2
      = ⟨none, some (utf8 "Failed to get cpr index")⟩ ∧
    (init_cpr ⟨(init_cpr freshStub (utf8s ["a", "h", "o", "g"])).1.state, [false, true]⟩
      (utf8s ["_cprindex", "h1", "alice", "growerA"])).1.state (utf8 "_cprindex")
      = some (recordText (utf8 "_cprindex") (utf8 "h1") (utf8 "alice") (utf8 "growerA")) ∧
    some (recordText (utf8 "_cprindex") (utf8 "h1") (utf8 "alice") (utf8 "growerA"))
      ≠ some (utf8 "[\"a\"]") := by
  decide

/-- C14, amended: for non-empty arguments with an id other than `_cprindex`, when the
record write (the first store call) succeeds and the read of `_cprindex` (the second)
fails, `init_cpr` returns an error and leaves the record under the id, the value under
`_cprindex` and under every other key being what it was. -/
theorem init_cpr_index_read_fails (stub : Stub) (id hash owner grower : Str)
    (h0 : id ≠ []) (h1 : hash ≠ []) (h2 : owner ≠ []) (h3 : grower ≠ [])
    (hid : id ≠ cprIndexStr) (hw : stub.fails 0 = false) (hg : stub.fails 1 = true) :
    (init_cpr stub [id, hash, owner, grower]).2
      = ⟨none, some (utf8 "Failed to get cpr index")⟩ ∧
    (init_cpr stub [id, hash, owner, grower]).1.state id
      = some (recordText id hash owner grower) ∧
    (init_cpr stub [id, hash, owner, grower]).1.state cprIndexStr
      = stub.state cprIndexStr ∧
    (∀ k, k ≠ id → (init_cpr stub [id, hash, owner, grower]).1.state k = stub.state k) := by
  rw [init_cpr_eq stub id hash owner grower h0 h1 h2 h3]
  have hid' : cprIndexStr ≠ id := fun e => hid e.symm
  simp only [hw, hg, if_true, if_false, Bool.false_eq_true]
  refine ⟨trivial, by simp [Stub.tail, Stub.put], by simp [Stub.tail, Stub.put, hid'], ?_⟩
  intro k hk
  simp [Stub.tail, Stub.put, hk]

/-- C14, amended, at a create of `c1` whose index read fails. -/
theorem init_cpr_index_read_fails_witness :
    (init_cpr ⟨freshStub.state, [false, true]⟩ (utf8s ["c1", "h1", "alice", "growerA"])).2
      = ⟨none, some (utf8 "Failed to get cpr index")⟩ ∧
    (init_cpr ⟨freshStub.state, [false, true]⟩
      (utf8s ["c1", "h1", "alice", "growerA"])).1.state (utf8 "c1")
      = some (recordText (utf8 "c1") (utf8 "h1") (utf8 "alice") (utf8 "growerA")) ∧
    (init_cpr ⟨freshStub.state, [false, true]⟩
      (utf8s ["c1", "h1", "alice", "growerA"])).1.state cprIndexStr
      = (⟨freshStub.state, [false, true]⟩ : Stub).state cprIndexStr :=
  ⟨(init_cpr_index_read_fails ⟨freshStub.state, [false, true]⟩ (utf8 "c1") (utf8 "h1")
      (utf8 "alice") (utf8 "growerA") (by decide) (by decide) (by decide) (by decide)
      (by decide) (by decide) (by decide)).1,
   (init_cpr_index_read_fails ⟨freshStub.state, [false, true]⟩ (utf8 "c1") (utf8 "h1")
      (utf8 "alice") (utf8 "growerA") (by decide) (by decide) (by decide) (by decide)
      (by decide) (by decide) (by decide)).2.1,
   (init_cpr_index_read_fails ⟨freshStub.state, [false, true]⟩ (utf8 "c1") (utf8 "h1")
      (utf8 "alice") (utf8 "growerA") (by decide) (by decide) (by decide) (by decide)
      (by decide) (by decide) (by decide)).2.2.1⟩

/-- C15 fails on the code, by the defect of C5: `set_user` stores the empty object, so
for an id without value (`ghost`) and for an id whose value is no record (`raw`) the
call returns no error but the record written has no `owner` at all. -/
theorem set_user_writes_no_owner :
    freshStub.state (utf8 "ghost") = none ∧
    (set_user freshStub (utf8s ["ghost", "bob"])).2 = ⟨none, none⟩ ∧
    (read (set_user freshStub (utf8s ["ghost", "bob"])).1 (utf8s ["ghost"])).2
      = ⟨some (utf8 "\x7b\x7d"), none⟩ ∧
    (set_user (Write freshStub (utf8s ["raw", "no record"])).1 (utf8s ["raw", "bob"])).2
      = ⟨none, none⟩ ∧
    (read (set_user (Write freshStub (utf8s ["raw", "no record"])).1 (utf8s ["raw", "bob"])).1
      (utf8s ["raw"])).2 = ⟨some (utf8 "\x7b\x7d"), none⟩ ∧
    (Json.parse (utf8 "\x7b\x7d")).bind (fun v => v.field (utf8 "owner")) = none ∧
    (Json.parse
      (utf8 "\x7b\"id\":\"\",\"hash\":\"\",\"owner\":\"bob\",\"grower\":\"\"\x7d")).bind
      (fun v => v.field (utf8 "owner")) = some (utf8 "bob") := by
  decide

/-- C16 fails on the code: `set_user` tests `len(args) < 2`, not `len(args) != 2`, so a
list of three arguments is accepted and the record is written, against the message
`Expecting 2` of the same test. A shorter list returns the argument error with the stub
left as it was, and two empty strings are accepted. -/
theorem set_user_accepts_extra_arguments :
    (set_user (init_cpr freshStub (utf8s ["c1", "h1", "alice", "growerA"])).1
      (utf8s ["c1", "bob", "extra"])).2 = ⟨none, none⟩ ∧
    (set_user (init_cpr freshStub (utf8s ["c1", "h1", "alice", "growerA"])).1
      (utf8s ["c1", "bob", "extra"])).1.state (utf8 "c1") = some (utf8 "\x7b\x7d") ∧
    (init_cpr freshStub (utf8s ["c1", "h1", "alice", "growerA"])).1.state (utf8 "c1")
      = some (recordText (utf8 "c1") (utf8 "h1") (utf8 "alice") (utf8 "growerA")) ∧
    (set_user freshStub (utf8s ["c1"])).2
      = ⟨none, some (utf8 "Incorrect number of arguments. Expecting 2")⟩ ∧
    (set_user freshStub []).2
      = ⟨none, some (utf8 "Incorrect number of arguments. Expecting 2")⟩ ∧
    (set_user freshStub (utf8s ["c1"])).1.faults = freshStub.faults ∧
    (set_user freshStub (utf8s ["c1"])).1.state (utf8 "c1") = freshStub.state (utf8 "c1") ∧
    (set_user freshStub [[], []]).2 = ⟨none, none⟩ ∧
    (Write freshStub (utf8s ["c1", "bob", "extra"])).2.err ≠ none := by
  decide

/-- C17: `Invoke` hands the five names `init`, `delete`, `write`, `init_cpr`, `set_user`
to their functions and `Query` hands `read` to `read`; every other name returns the
unknown-function error with the stub left as it was. -/
theorem Invoke_Query_dispatch (stub : Stub) (args : List Str) :
    Invoke stub (utf8 "init") args = Init stub (utf8 "init") args ∧
    Invoke stub (utf8 "delete") args = Delete stub args ∧
    Invoke stub (utf8 "write") args = Write stub args ∧
    Invoke stub (utf8 "init_cpr") args = init_cpr stub args ∧
    Invoke stub (utf8 "set_user") args = set_user stub args ∧
    Query stub (utf8 "read") args = read stub args ∧
    (∀ function, function ∉ utf8s ["init", "delete", "write", "init_cpr", "set_user"] →
      Invoke stub function args
        = (stub, ⟨none, some (utf8 "Received unknown function invocation")⟩)) ∧
    (∀ function, function ≠ utf8 "read" →
      Query stub function args
        = (stub, ⟨none, some (utf8 "Received unknown function query")⟩)) := by
  refine ⟨rfl, rfl, rfl, rfl, rfl, rfl, ?_, ?_⟩
  · intro function hf
    simp only [utf8s, List.map, List.mem_cons, List.mem_singleton, List.not_mem_nil, or_false,
      not_or] at hf
    simp [Invoke, hf.1, hf.2.1, hf.2.2.1, hf.2.2.2.1, hf.2.2.2.2]
  · intro function hf
    simp [Query, hf]

/-- C17 at `read` sent to `Invoke`, `delete` sent to `Query` and an unknown name. -/
theorem Invoke_Query_dispatch_witness :
    Invoke freshStub (utf8 "read") (utf8s ["abc"])
      = (freshStub, ⟨none, some (utf8 "Received unknown function invocation")⟩) ∧
    Query freshStub (utf8 "delete") (utf8s ["abc"])
      = (freshStub, ⟨none, some (utf8 "Received unknown function query")⟩) ∧
    Invoke freshStub (utf8 "Init") (utf8s ["1"])
      = (freshStub, ⟨none, some (utf8 "Received unknown function invocation")⟩) ∧
    Query freshStub (utf8 "read") (utf8s ["abc"]) = read freshStub (utf8s ["abc"]) :=
  ⟨(Invoke_Query_dispatch freshStub (utf8s ["abc"])).2.2.2.2.2.2.1 (utf8 "read") (by decide),
   (Invoke_Query_dispatch freshStub (utf8s ["abc"])).2.2.2.2.2.2.2 (utf8 "delete")
     (by decide),
   (Invoke_Query_dispatch freshStub (utf8s ["1"])).2.2.2.2.2.2.1 (utf8 "Init") (by decide),
   (Invoke_Query_dispatch freshStub (utf8s ["abc"])).2.2.2.2.2.1⟩

/-- C18: when the store's get returns no error, `read([key])` returns exactly the bytes
it returned (none for an absent key) and no error; `read` and `Query` never change what
the ledger holds; and an argument list that has not one element gives an error with
the stub left as it was. -/
theorem read_passthrough (stub : Stub) (key function : Str) (args : List Str) :
    ((GetState stub key).2.2 = none →
      (read stub [key]).2 = ⟨(GetState stub key).2.1, none⟩ ∧
      (GetState stub key).2.1 = stub.state key) ∧
    (read stub args).1.state = stub.state ∧
    (Query stub function args).1.state = stub.state ∧
    (args.length ≠ 1 →
      read stub args = (stub, ⟨none,
        some (utf8 "Incorrect number of arguments. Expecting name of the var to query")⟩)) := by
  refine ⟨?_, read_state stub args, ?_, ?_⟩
  · rw [read_eq, GetState_eq]
    split_ifs <;> simp
  · by_cases hf : function = utf8 "read"
    · simp [Query, hf, read_state]
    · simp [Query, hf]
  · intro hl
    simp [read, hl]

/-- C18 at the record of `c1`, at an absent key and at an empty argument list. -/
theorem read_passthrough_witness :
    (read (init_cpr freshStub (utf8s ["c1", "h1", "alice", "growerA"])).1 (utf8s ["c1"])).2
      = ⟨(GetState (init_cpr freshStub (utf8s ["c1", "h1", "alice", "growerA"])).1
          (utf8 "c1")).2.1, none⟩ ∧
    (GetState (init_cpr freshStub (utf8s ["c1", "h1", "alice", "growerA"])).1 (utf8 "c1")).2.1
      = some (recordText (utf8 "c1") (utf8 "h1") (utf8 "alice") (utf8 "growerA")) ∧
    (read freshStub (utf8s ["nothing"])).2 = ⟨(GetState freshStub (utf8 "nothing")).2.1, none⟩ ∧
    read freshStub [] = (freshStub, ⟨none,
      some (utf8 "Incorrect number of arguments. Expecting name of the var to query")⟩) :=
  ⟨((read_passthrough (init_cpr freshStub (utf8s ["c1", "h1", "alice", "growerA"])).1
      (utf8 "c1") (utf8 "read") (utf8s ["c1"])).1 (by decide)).1,
   by decide,
   ((read_passthrough freshStub (utf8 "nothing") (utf8 "read") (utf8s ["nothing"])).1
      (by decide)).1,
   (read_passthrough freshStub (utf8 "nothing") (utf8 "read") []).2.2.2 (by decide)⟩

/-- C19 fails on the code: `Init` makes two writes, of `abc` and of `_cprindex`, and no
deletion, against its own comment `reset all the things` and the comment `used as reset`
of `Invoke`. After `Init(["100"])`, a create of `c1` and a raw write under `slot`, a
successful `Init(["7"])` leaves both values in place, so the ledger holds more than the
two reserved keys, and the result depends on the prior ledger: from the empty ledger the
same call leaves nothing under `slot`. -/
theorem Init_keeps_other_keys :
    (Init (Write (init_cpr freshStub (utf8s ["c1", "h1", "alice", "growerA"])).1
      (utf8s ["slot", "v"])).1 (utf8 "init") (utf8s ["7"])).2 = ⟨none, none⟩ ∧
    (Init (Write (init_cpr freshStub (utf8s ["c1", "h1", "alice", "growerA"])).1
      (utf8s ["slot", "v"])).1 (utf8 "init") (utf8s ["7"])).1.state (utf8 "c1")
      = some (recordText (utf8 "c1") (utf8 "h1") (utf8 "alice") (utf8 "growerA")) ∧
    (Init (Write (init_cpr freshStub (utf8s ["c1", "h1", "alice", "growerA"])).1
      (utf8s ["slot", "v"])).1 (utf8 "init") (utf8s ["7"])).1.state (utf8 "slot")
      = some (utf8 "v") ∧
    (Init emptyStub (utf8 "init") (utf8s ["7"])).2 = ⟨none, none⟩ ∧
    (Init emptyStub (utf8 "init") (utf8s ["7"])).1.state (utf8 "slot") = none := by
  decide

/-- C20: `Init` (and `init` of `src/cpr.go`) returns an error without any store call,
the stub being left as it was, when the argument list has not one element and when the
single argument is no integer for `Atoi`; and when the write of `abc` (the first store
call) fails it returns the error of the store with the ledger holding what it held, the
write of `_cprindex` not being made. -/
theorem Init_errors (stub : Stub) (function : Str) (args : List Str) :
    (args.length ≠ 1 →
      Init stub function args
        = (stub, ⟨none, some (utf8 "Incorrect number of arguments. Expecting 1")⟩) ∧
      V1.init stub args
        = (stub, ⟨none, some (utf8 "Incorrect number of arguments. Expecting 1")⟩)) ∧
    (∀ arg, Atoi arg = none →
      Init stub function [arg]
        = (stub, ⟨none, some (utf8 "Expecting integer value for asset holding")⟩) ∧
      V1.init stub [arg]
        = (stub, ⟨none, some (utf8 "Expecting integer value for asset holding")⟩)) ∧
    (∀ arg n, Atoi arg = some n → stub.fails 0 = true →
      Init stub function [arg] = (stub.tail, ⟨none, some storeFailure⟩) ∧
      V1.init stub [arg] = (stub.tail, ⟨none, some storeFailure⟩) ∧
      stub.tail.state = stub.state) := by
  refine ⟨?_, ?_, ?_⟩
  · intro hl
    simp [Init, V1.init, hl]
  · intro arg hn
    simp [Init, V1.init, hn]
  · intro arg n hn hf
    rw [Init_eq stub function arg n hn, V1.init_eq stub arg n hn]
    simp [hf, Stub.tail]

/-- C20 at an empty argument list, at the arguments `abc`, the empty string and
`9223372036854775808`, and at a ledger whose first store call fails. -/
theorem Init_errors_witness :
    Init freshStub (utf8 "init") []
      = (freshStub, ⟨none, some (utf8 "Incorrect number of arguments. Expecting 1")⟩) ∧
    Init freshStub (utf8 "init") (utf8s ["abc"])
      = (freshStub, ⟨none, some (utf8 "Expecting integer value for asset holding")⟩) ∧
    Init freshStub (utf8 "init") [[]]
      = (freshStub, ⟨none, some (utf8 "Expecting integer value for asset holding")⟩) ∧
    Init freshStub (utf8 "init") (utf8s ["9223372036854775808"])
      = (freshStub, ⟨none, some (utf8 "Expecting integer value for asset holding")⟩) ∧
    (Init ⟨freshStub.state, [true]⟩ (utf8 "init") (utf8s ["5"])).2
      = ⟨none, some storeFailure⟩ ∧
    (Init ⟨freshStub.state, [true]⟩ (utf8 "init") (utf8s ["5"])).1.state (utf8 "_cprindex")
      = some (utf8 "null") ∧
    (Init ⟨freshStub.state, [true]⟩ (utf8 "init") (utf8s ["5"])).1.state (utf8 "abc")
      = some (utf8 "100") :=
  ⟨((Init_errors freshStub (utf8 "init") []).1 (by decide)).1,
   ((Init_errors freshStub (utf8 "init") []).2.1 (utf8 "abc") (by decide)).1,
   ((Init_errors freshStub (utf8 "init") []).2.1 [] (by decide)).1,
   ((Init_errors freshStub (utf8 "init") []).2.1 (utf8 "9223372036854775808") (by decide)).1,
   congrArg Prod.snd
     ((Init_errors ⟨freshStub.state, [true]⟩ (utf8 "init") []).2.2 (utf8 "5") 5 (by decide)
       (by decide)).1,
   by decide, by decide⟩

/-- C21, as stated, fails twice. When a store call fails: `Delete` and `init_cpr` return
no error when their write of the index fails. From `Init` on the empty ledger, a create
of `c1` and a `Delete(["c1"])` whose index write fails are all successful and leave `c1`
in the index without a value under `c1`; a create of `c1` whose index write fails is
successful and leaves the value under `c1` out of the index. And with every store call
succeeding: a create with an id that is no well-formed UTF-8 (the bytes `61 ff 62`, not
reserved, not in the index) leaves a value under that key while the index holds another
text, with U+FFFD for the byte `ff`, which is no key of the ledger. -/
theorem reached_index_counterexample :
    ((Init ⟨fun _ => none, [false, false, false, false, false, false, false, true]⟩
        (utf8 "init") (utf8s ["100"])).2.err = none ∧
      (init_cpr (Init ⟨fun _ => none, [false, false, false, false, false, false, false,
        true]⟩ (utf8 "init") (utf8s ["100"])).1
        (utf8s ["c1", "h1", "alice", "growerA"])).2.err = none ∧
      (Delete (init_cpr (Init ⟨fun _ => none, [false, false, false, false, false, false,
        false, true]⟩ (utf8 "init") (utf8s ["100"])).1
        (utf8s ["c1", "h1", "alice", "growerA"])).1 (utf8s ["c1"])).2.err = none ∧
      utf8 "c1" ∈ indexOf (Delete (init_cpr (Init ⟨fun _ => none, [false, false, false,
        false, false, false, false, true]⟩ (utf8 "init") (utf8s ["100"])).1
        (utf8s ["c1", "h1", "alice", "growerA"])).1 (utf8s ["c1"])).1 ∧
      (Delete (init_cpr (Init ⟨fun _ => none, [false, false, false, false, false, false,
        false, true]⟩ (utf8 "init") (utf8s ["100"])).1
        (utf8s ["c1", "h1", "alice", "growerA"])).1 (utf8s ["c1"])).1.state (utf8 "c1")
        = none) ∧
    ((Init ⟨fun _ => none, [false, false, false, false, true]⟩ (utf8 "init")
        (utf8s ["100"])).2.err = none ∧
      (init_cpr (Init ⟨fun _ => none, [false, false, false, false, true]⟩ (utf8 "init")
        (utf8s ["100"])).1 (utf8s ["c1", "h1", "alice", "growerA"])).2.err = none ∧
      utf8 "c1" ∉ indexOf (init_cpr (Init ⟨fun _ => none, [false, false, false, false, true]⟩
        (utf8 "init") (utf8s ["100"])).1 (utf8s ["c1", "h1", "alice", "growerA"])).1 ∧
      (init_cpr (Init ⟨fun _ => none, [false, false, false, false, true]⟩ (utf8 "init")
        (utf8s ["100"])).1 (utf8s ["c1", "h1", "alice", "growerA"])).1.state (utf8 "c1")
        ≠ none) ∧
    ((Init emptyStub (utf8 "init") (utf8s ["100"])).2.err = none ∧
      (Init emptyStub (utf8 "init") (utf8s ["100"])).1.reliable ∧
      (init_cpr (Init emptyStub (utf8 "init") (utf8s ["100"])).1
        [[97, 255, 98], utf8 "h1", utf8 "alice", utf8 "growerA"]).2.err = none ∧
      [97, 255, 98] ≠ utf8 "abc" ∧ [97, 255, 98] ≠ utf8 "_cprindex" ∧
      [97, 255, 98] ∉ indexOf (Init emptyStub (utf8 "init") (utf8s ["100"])).1 ∧
      indexOf (init_cpr (Init emptyStub (utf8 "init") (utf8s ["100"])).1
        [[97, 255, 98], utf8 "h1", utf8 "alice", utf8 "growerA"]).1
        = [[97, 239, 191, 189, 98]] ∧
      (init_cpr (Init emptyStub (utf8 "init") (utf8s ["100"])).1
        [[97, 255, 98], utf8 "h1", utf8 "alice", utf8 "growerA"]).1.state [97, 255, 98]
        ≠ none ∧
      (init_cpr (Init emptyStub (utf8 "init") (utf8s ["100"])).1
        [[97, 255, 98], utf8 "h1", utf8 "alice", utf8 "growerA"]).1.state
        [97, 239, 191, 189, 98] = none) := by
  refine ⟨?_, ?_, ?_⟩ <;> decide

/-- C21, amended: in every state reached from a successful `Init` on the empty ledger,
all store calls succeeding, by successful `init_cpr` and `Delete` calls whose id is
neither `abc` nor `_cprindex`, `init_cpr` being called only with an id of well-formed
UTF-8 that the index does not hold, the list under `_cprindex` has no duplicate and its
elements are exactly the keys other than `abc` and `_cprindex` under which the ledger
holds a value. -/
theorem reached_index_exact (stub : Stub) (h : Reached stub) :
    (indexOf stub).Nodup ∧
    ∀ k, k ∈ indexOf stub ↔ (k ≠ utf8 "abc" ∧ k ≠ cprIndexStr ∧ stub.state k ≠ none) := by
  obtain ⟨_, hd, hx⟩ := guarded_invariant h.guarded
  exact ⟨hd, fun k => (hx k).trans (hasRecord_iff stub k)⟩

/-- C21, amended, at `Init`, create `c1`, create `c2`, delete `c1`: the index is
`["c2"]`, without duplicate; `c2` is in it and has a value, `c1` is not and has none. -/
theorem reached_index_exact_witness :
    indexOf (Delete (init_cpr (init_cpr (Init emptyStub (utf8 "init") (utf8s ["100"])).1
      (utf8s ["c1", "h1", "alice", "growerA"])).1 (utf8s ["c2", "h2", "alice", "growerA"])).1
      (utf8s ["c1"])).1 = utf8s ["c2"] ∧
    (indexOf (Delete (init_cpr (init_cpr (Init emptyStub (utf8 "init") (utf8s ["100"])).1
      (utf8s ["c1", "h1", "alice", "growerA"])).1 (utf8s ["c2", "h2", "alice", "growerA"])).1
      (utf8s ["c1"])).1).Nodup ∧
    (utf8 "c2" ∈ indexOf (Delete (init_cpr (init_cpr (Init emptyStub (utf8 "init")
        (utf8s ["100"])).1 (utf8s ["c1", "h1", "alice", "growerA"])).1
        (utf8s ["c2", "h2", "alice", "growerA"])).1 (utf8s ["c1"])).1 ↔
      (utf8 "c2" ≠ utf8 "abc" ∧ utf8 "c2" ≠ cprIndexStr ∧
        (Delete (init_cpr (init_cpr (Init emptyStub (utf8 "init") (utf8s ["100"])).1
          (utf8s ["c1", "h1", "alice", "growerA"])).1
          (utf8s ["c2", "h2", "alice", "growerA"])).1
          (utf8s ["c1"])).1.state (utf8 "c2") ≠ none)) ∧
    (utf8 "c1" ∈ indexOf (Delete (init_cpr (init_cpr (Init emptyStub (utf8 "init")
        (utf8s ["100"])).1 (utf8s ["c1", "h1", "alice", "growerA"])).1
        (utf8s ["c2", "h2", "alice", "growerA"])).1 (utf8s ["c1"])).1 ↔
      (utf8 "c1" ≠ utf8 "abc" ∧ utf8 "c1" ≠ cprIndexStr ∧
        (Delete (init_cpr (init_cpr (Init emptyStub (utf8 "init") (utf8s ["100"])).1
          (utf8s ["c1", "h1", "alice", "growerA"])).1
          (utf8s ["c2", "h2", "alice", "growerA"])).1
          (utf8s ["c1"])).1.state (utf8 "c1") ≠ none)) :=
  have r := reached_index_exact _
    (Reached.delete _ _
      (Reached.create _ _
        (Reached.create _ _
          (Reached.init emptyStub (utf8 "init") (utf8s ["100"]) (by decide) (fun _ => rfl)
            (by decide))
          (by decide) (by decide) (by decide) (by decide) (by decide))
        (by decide) (by decide) (by decide) (by decide) (by decide))
      (by decide) (by decide) (by decide))
  ⟨by decide, r.1, r.2 (utf8 "c2"), r.2 (utf8 "c1")⟩

end Chaincode
